import Mathlib

/-!
Verification of two subsystems of the `belkasoft/td` repository:

* the ordered-message index (`src/td/telegram/OrderedMessage.h`): a binary
  search tree over message identifiers with per-node adjacency flags and an
  explicit ancestor-stack iterator (`OrderedMessages::IteratorBase`);
* the deep-link / URL classification engine (`LinkManager`), whose
  implementation is exercised by `src/test/link.cpp`.

The iterator code is present verbatim in `OrderedMessage.h` and is embedded
here structurally.  The `LinkManager` implementation itself is not part of
the provided sources (only its test file is), so the link-engine definitions
below are modelled from the specification and constrained by the literal
expectations of `src/test/link.cpp`.
-/

namespace OM

/-- One node of the ordered-message tree, from `class OrderedMessage` in
`src/td/telegram/OrderedMessage.h`: a message identifier (`message_id_`,
modelled as `Nat` since `MessageId` is an externally defined totally ordered
identifier), the adjacency flags `have_previous_` / `have_next_`, and the two
child links `left_` / `right_`.  The balancing priority `random_y_` does not
influence the iterator and is omitted from the node payload. -/
inductive OTree where
  | leaf : OTree
  | node (left : OTree) (id : Nat) (hp hn : Bool) (right : OTree) : OTree
  deriving DecidableEq, Repr

namespace OTree

/-- `message_id_` of the root node (0 only used on `leaf`, never relied upon). -/
def rootId : OTree → Nat
  | leaf => 0
  | node _ i _ _ _ => i

/-- `have_previous_` of the root node. -/
def rootHp : OTree → Bool
  | leaf => false
  | node _ _ hp _ _ => hp

/-- `have_next_` of the root node. -/
def rootHn : OTree → Bool
  | leaf => false
  | node _ _ _ hn _ => hn

/-- `left_` child. -/
def leftChild : OTree → OTree
  | leaf => leaf
  | node l _ _ _ _ => l

/-- `right_` child. -/
def rightChild : OTree → OTree
  | leaf => leaf
  | node _ _ _ _ r => r

/-- In-order list of message identifiers stored in the tree. -/
def keys : OTree → List Nat
  | leaf => []
  | node l i _ _ r => keys l ++ i :: keys r

/-- The binary-search-tree invariant (strict ordering on `message_id_`),
which `OrderedMessages` maintains for its tree. -/
def isBST : OTree → Bool
  | leaf => true
  | node l i _ _ r =>
      (keys l).all (fun k => decide (k < i)) &&
      (keys r).all (fun k => decide (i < k)) &&
      isBST l && isBST r

end OTree

open OTree

/-- The iterator state: `vector<const OrderedMessage *> stack_` of
`OrderedMessages::IteratorBase`.  Each stack entry is the subtree rooted at
the stored node pointer; the head of the list is `stack_.back()` (the current
node), the last element is the tree root. -/
abbrev IterStack := List OTree

/-- `IteratorBase::IteratorBase(const OrderedMessage *root, MessageId message_id)`:
walk down from the root pushing every visited node, going right when
`root->message_id_ <= message_id` (recording `last_right_pos`) and left
otherwise, then `stack_.resize(last_right_pos)` — i.e. keep the path up to
and including the deepest node where the walk went right. -/
def iterInit (t : OTree) (target : Nat) : IterStack :=
  match t with
  | .leaf => []
  | .node l i hp hn r =>
      if i ≤ target then
        iterInit r target ++ [OTree.node l i hp hn r]
      else
        match iterInit l target with
        | [] => []
        | s => s ++ [OTree.node l i hp hn r]

/-- `IteratorBase::operator*`: `stack_.empty() ? nullptr : stack_.back()`. -/
def deref (s : IterStack) : Option OTree :=
  s.head?

/-- The ascending loop of `operator++`: `pop_back` until the stack empties or
the new back has the previous node as its *left* child
(`new_cur->left_.get() == cur`). -/
def popUpNext : OTree → IterStack → IterStack
  | _, [] => []
  | cur, newCur :: rest =>
      if newCur.leftChild = cur then newCur :: rest else popUpNext newCur rest

/-- The descending loop at the end of `operator++`: starting from the right
child, push each node and keep following `left_`. -/
def descendLeft : OTree → IterStack → IterStack
  | .leaf, acc => acc
  | .node l i hp hn r, acc => descendLeft l (OTree.node l i hp hn r :: acc)

/-- `IteratorBase::operator++`: a no-op on the empty stack; clears the stack
when the current node's `have_next_` is `false`; otherwise moves to the
in-order successor by ascending (right child absent) or descending into the
leftmost node of the right child. -/
def incr (s : IterStack) : IterStack :=
  match s with
  | [] => []
  | cur :: rest =>
      if !cur.rootHn then []
      else
        match cur.rightChild with
        | .leaf => popUpNext cur rest
        | r => descendLeft r (cur :: rest)

/-- The ascending loop of `operator--` (`new_cur->right_.get() == cur`). -/
def popUpPrev : OTree → IterStack → IterStack
  | _, [] => []
  | cur, newCur :: rest =>
      if newCur.rightChild = cur then newCur :: rest else popUpPrev newCur rest

/-- The descending loop at the end of `operator--`. -/
def descendRight : OTree → IterStack → IterStack
  | .leaf, acc => acc
  | .node l i hp hn r, acc => descendRight r (OTree.node l i hp hn r :: acc)

/-- `IteratorBase::operator--`, mirror image of `operator++` driven by
`have_previous_` and the left child. -/
def decr (s : IterStack) : IterStack :=
  match s with
  | [] => []
  | cur :: rest =>
      if !cur.rootHp then []
      else
        match cur.leftChild with
        | .leaf => popUpPrev cur rest
        | l => descendRight l (cur :: rest)

end OM

namespace OM

/-- A concrete well-formed ordered-message tree used to instantiate the
iterator theorems: keys 2, 4, 6 with all adjacency flags set. -/
def wtree : OTree :=
  OTree.node (OTree.node OTree.leaf 2 true true OTree.leaf) 4 true true
    (OTree.node OTree.leaf 6 true true OTree.leaf)

end OM

namespace LinkM

/-- ASCII lower-casing of one character (scheme/host normalization). -/
def lowerChar (c : Char) : Char :=
  if 'A' ≤ c ∧ c ≤ 'Z' then Char.ofNat (c.toNat + 32) else c

def lowerStr (s : List Char) : List Char :=
  s.map lowerChar

def isDigitChar (c : Char) : Bool :=
  decide ('0' ≤ c ∧ c ≤ '9')

def isAlphaChar (c : Char) : Bool :=
  decide ('a' ≤ c ∧ c ≤ 'z') || decide ('A' ≤ c ∧ c ≤ 'Z')

def isAlnumChar (c : Char) : Bool :=
  isAlphaChar c || isDigitChar c

def isWordChar (c : Char) : Bool :=
  isAlnumChar c || decide (c = '_')

/-- Characters allowed in an invite-link hash / folder-invite slug (base64url). -/
def isBase64UrlChar (c : Char) : Bool :=
  isAlnumChar c || decide (c = '_') || decide (c = '-')

def hexDigitVal (c : Char) : Option Nat :=
  if isDigitChar c then some (c.toNat - '0'.toNat)
  else if decide ('a' ≤ c ∧ c ≤ 'f') then some (c.toNat - 'a'.toNat + 10)
  else if decide ('A' ≤ c ∧ c ≤ 'F') then some (c.toNat - 'A'.toNat + 10)
  else none

/-- Single-pass percent-decoding: one `%XX` hex escape becomes one character,
an invalid escape is kept literally, and (in query components only,
`plus = true`) `+` becomes a space.  The output of a decode is never decoded
again. -/
def urlDecode (plus : Bool) : List Char → List Char
  | [] => []
  | '%' :: h1 :: h2 :: rest =>
      match hexDigitVal h1, hexDigitVal h2 with
      | some v1, some v2 => Char.ofNat (16 * v1 + v2) :: urlDecode plus rest
      | _, _ => '%' :: urlDecode plus (h1 :: h2 :: rest)
  | '+' :: rest => (if plus then ' ' else '+') :: urlDecode plus rest
  | c :: rest => c :: urlDecode plus rest

/-- Split a character list at every occurrence of the delimiter. -/
def splitOnChar (d : Char) : List Char → List (List Char)
  | [] => [[]]
  | c :: rest =>
      let r := splitOnChar d rest
      if c = d then [] :: r
      else match r with
        | [] => [[c]]
        | s :: ss => (c :: s) :: ss

/-- Everything before the first occurrence of a delimiter satisfying `p`. -/
def takeUntil (p : Char → Bool) (l : List Char) : List Char :=
  l.takeWhile (fun c => !p c)

/-- Everything from the first delimiter on (delimiter included). -/
def dropUntil (p : Char → Bool) (l : List Char) : List Char :=
  l.dropWhile (fun c => !p c)

/-- One `key=value` query item: key is everything before the first `=`,
value everything after it (a key with no `=` has the empty value). -/
def parseQueryItem (item : List Char) : List Char × List Char :=
  let k := takeUntil (fun c => decide (c = '=')) item
  let v := dropUntil (fun c => decide (c = '=')) item
  (urlDecode true k, urlDecode true (v.drop 1))

/-- Parse `a=b&c=d&…` into an association list; keys and values are
percent-decoded with `+` meaning space. -/
def parseQuery (q : List Char) : List (List Char × List Char) :=
  (splitOnChar '&' q).map parseQueryItem

/-- First-value-wins lookup of a query parameter (`HttpUrlQuery::get_arg`). -/
def getArg (q : List (List Char × List Char)) (k : List Char) : Option (List Char) :=
  match q.find? (fun item => item.1 = k) with
  | some item => some item.2
  | none => none

/-- Whether the parameter occurs at all, even with an empty value. -/
def hasArg (q : List (List Char × List Char)) (k : List Char) : Bool :=
  (getArg q k).isSome

end LinkM

namespace LinkM

abbrev Str := List Char

/-- `td_api::chatAdministratorRights`. -/
structure AdminRights where
  can_manage_chat : Bool
  can_change_info : Bool
  can_post_messages : Bool
  can_edit_messages : Bool
  can_delete_messages : Bool
  can_invite_users : Bool
  can_restrict_members : Bool
  can_pin_messages : Bool
  can_manage_topics : Bool
  can_promote_members : Bool
  can_manage_video_chats : Bool
  is_anonymous : Bool
  deriving DecidableEq, Repr

/-- `td_api::targetChatChosen`: the four independent allow-flags. -/
structure ChatTypes where
  allow_users : Bool
  allow_bots : Bool
  allow_groups : Bool
  allow_channels : Bool
  deriving DecidableEq, Repr

/-- The target chat of an attachment-menu-bot link (`td_api::TargetChat`):
the current chat, a restriction by chat types, or a specific chat given by
username or phone number. -/
inductive AttachTarget where
  | current : AttachTarget
  | chosen (types : ChatTypes) : AttachTarget
  | toUser (username : Str) : AttachTarget
  | toPhone (phone : Str) : AttachTarget
  deriving DecidableEq, Repr

/-- The closed set of typed link intents produced by classification,
mirroring the `td_api::InternalLinkType` constructors exercised by
`src/test/link.cpp` (message drafts, backgrounds and private-channel posts
are outside the modelled subset). -/
inductive LinkVariant where
  | publicChat (username : Str)
  | botStart (username : Str) (param : Str)
  | botStartInGroup (username : Str) (param : Str) (rights : Option AdminRights)
  | botAddToChannel (username : Str) (rights : AdminRights)
  | attachmentMenuBot (target : AttachTarget) (bot : Str) (param : Str)
  | message (url : Str)
  | messageDraft (text : Str) (containsLink : Bool)
  | background (descriptor : Str)
  | chatInvite (hash : Str)
  | chatFolderInvite (slug : Str)
  | stickerSet (name : Str) (isEmoji : Bool)
  | themeLink (name : Str)
  | languagePack (name : Str)
  | authenticationCode (code : Str)
  | qrCodeAuthentication
  | phoneNumberConfirmation (hash : Str) (phone : Str)
  | userPhoneNumber (phone : Str)
  | userToken (token : Str)
  | invoiceLink (name : Str)
  | premiumFeatures (referrer : Str)
  | restorePurchases
  | passportDataRequest (botId : Nat) (scope : Str) (publicKey : Str) (nonce : Str)
      (callbackUrl : Str)
  | settingsLink
  | themeSettings
  | activeSessions
  | changePhoneNumber
  | editProfileSettings
  | folderSettings
  | languageSettings
  | privacyAndSecuritySettings
  | defaultMessageAutoDeleteTimerSettings
  | videoChat (username : Str) (inviteHash : Str) (isLiveStream : Bool)
  | game (username : Str) (short : Str)
  | webApp (username : Str) (appName : Str) (param : Str)
  | proxySocks (server : Str) (port : Nat) (user : Str) (pass : Str)
  | proxyMtproto (server : Str) (port : Nat) (secret : Str)
  | unsupportedProxy
  | instantView (url : Str) (fallback : Str)
  | unknownDeepLink (link : Str)
  deriving DecidableEq, Repr

/-- Modelled from the spec: username validation for the first path segment /
`domain=` value — alphanumeric plus underscore, first character a letter, no
doubled or trailing underscore, at most 32 characters (the literal cases of
`src/test/link.cpp` accept length 1, so no lower bound beyond nonemptiness). -/
def hasDoubleUnderscore : Str → Bool
  | [] => false
  | '_' :: '_' :: _ => true
  | _ :: rest => hasDoubleUnderscore rest

def isValidUsername (s : Str) : Bool :=
  match s with
  | [] => false
  | c :: _ =>
      isAlphaChar c && s.length ≤ 32 && s.all isWordChar &&
      !(s.getLast? = some '_') && !hasDoubleUnderscore s

/-- Modelled from the spec: a chat-invite hash is nonempty, uses base64url
characters only, and an all-digit hash is rejected (it would be a message /
phone number, per the literal cases of `src/test/link.cpp`). -/
def isValidInviteHash (s : Str) : Bool :=
  !s.isEmpty && s.all isBase64UrlChar && !s.all isDigitChar

/-- Modelled from the spec: a chat-folder invite slug is nonempty and uses
base64url characters (all-digit slugs are accepted). -/
def isValidFolderSlug (s : Str) : Bool :=
  !s.isEmpty && s.all isBase64UrlChar

/-- Modelled from the spec: a phone number in a deep link is 1 to 32 digits. -/
def isValidPhone (s : Str) : Bool :=
  !s.isEmpty && s.length ≤ 32 && s.all isDigitChar

/-- Modelled from the spec: a game short name / web-app short name is at
least 3 characters, alphanumeric plus underscore, starting with a letter. -/
def isValidShortName (s : Str) : Bool :=
  match s with
  | [] => false
  | c :: _ => isAlphaChar c && 3 ≤ s.length && s.all isWordChar

/-- Modelled from the spec: the `choose=` allow-list — split the value on
spaces (`+` in the raw query already decodes to a space), set one boolean per
known token, ignore unknown tokens, and collapse the all-false result to
"no restriction" (null). -/
def parseChooseTokens (ts : List Str) : Option ChatTypes :=
  let u := ts.contains "users".data
  let b := ts.contains "bots".data
  let g := ts.contains "groups".data
  let c := ts.contains "channels".data
  if u || b || g || c then some ⟨u, b, g, c⟩ else none

/-- `choose=` handling of an absent (`none`) or present parameter value. -/
def parseChoose (v : Option Str) : Option ChatTypes :=
  match v with
  | none => none
  | some s => parseChooseTokens (splitOnChar ' ' s)

/-- One administrator-rights token of the `admin=` query value. -/
def adminTokenRights (t : Str) : AdminRights :=
  { can_manage_chat := t = "manage_chat".data
    can_change_info := t = "change_info".data
    can_post_messages := t = "post_messages".data
    can_edit_messages := t = "edit_messages".data
    can_delete_messages := t = "delete_messages".data
    can_invite_users := t = "invite_users".data
    can_restrict_members := t = "restrict_members".data
    can_pin_messages := t = "pin_messages".data
    can_manage_topics := t = "manage_topics".data
    can_promote_members := t = "promote_members".data
    can_manage_video_chats := t = "manage_video_chats".data
    is_anonymous := t = "anonymous".data }

def orRights (a b : AdminRights) : AdminRights :=
  { can_manage_chat := a.can_manage_chat || b.can_manage_chat
    can_change_info := a.can_change_info || b.can_change_info
    can_post_messages := a.can_post_messages || b.can_post_messages
    can_edit_messages := a.can_edit_messages || b.can_edit_messages
    can_delete_messages := a.can_delete_messages || b.can_delete_messages
    can_invite_users := a.can_invite_users || b.can_invite_users
    can_restrict_members := a.can_restrict_members || b.can_restrict_members
    can_pin_messages := a.can_pin_messages || b.can_pin_messages
    can_manage_topics := a.can_manage_topics || b.can_manage_topics
    can_promote_members := a.can_promote_members || b.can_promote_members
    can_manage_video_chats := a.can_manage_video_chats || b.can_manage_video_chats
    is_anonymous := a.is_anonymous || b.is_anonymous }

def noRights : AdminRights :=
  ⟨false, false, false, false, false, false, false, false, false, false, false, false⟩

/-- Union of the rights named by a plus/space-separated token list. -/
def collectRights (ts : List Str) : AdminRights :=
  ts.foldr (fun t acc => orRights (adminTokenRights t) acc) noRights

/-- Does the rights object grant anything at all (`can_manage_chat` aside)? -/
def hasAnyRight (r : AdminRights) : Bool :=
  r.can_change_info || r.can_post_messages || r.can_edit_messages ||
  r.can_delete_messages || r.can_invite_users || r.can_restrict_members ||
  r.can_pin_messages || r.can_manage_topics || r.can_promote_members ||
  r.can_manage_video_chats || r.is_anonymous

/-- Modelled from the spec and the literal cases of `src/test/link.cpp`:
`admin=` for `startgroup` — posting/editing rights do not apply to groups
and are dropped; if any applicable right remains, `can_manage_chat` is
forced true, otherwise the rights object is null. -/
def groupAdminRights (v : Option Str) : Option AdminRights :=
  match v with
  | none => none
  | some s =>
      let r := collectRights (splitOnChar ' ' s)
      let r := { r with can_post_messages := false, can_edit_messages := false }
      if hasAnyRight r then some { r with can_manage_chat := true } else none

/-- Modelled from the spec and the literal cases of `src/test/link.cpp`:
`admin=` for `startchannel` — pinning, topic management and anonymity do not
apply to channels and are dropped; if any applicable right remains,
`can_manage_chat` and `can_restrict_members` are forced true, otherwise the
rights object is null. -/
def channelAdminRights (v : Option Str) : Option AdminRights :=
  match v with
  | none => none
  | some s =>
      let r := collectRights (splitOnChar ' ' s)
      let r := { r with can_pin_messages := false, can_manage_topics := false,
                        is_anonymous := false }
      if hasAnyRight r then
        some { r with can_manage_chat := true, can_restrict_members := true }
      else none

end LinkM

-- admin tests from link.cpp part3
namespace LinkM

/-- Digit-string value (big-endian), used on already-validated digit runs. -/
def digitsToNat (s : Str) : Nat :=
  s.foldl (fun a c => 10 * a + (c.toNat - 48)) 0

/-- `to_integer`-style leading-digits parse: value of the longest digit
prefix, 0 when there is none. -/
def leadingNum (s : Str) : Nat :=
  digitsToNat (s.takeWhile isDigitChar)

/-- Decimal rendering of a positive number, big-endian digit characters;
`natToStrAux` recurses on explicit fuel (the number itself suffices since
`n / 10 < n` for positive `n`). -/
def natToStrAux : Nat → Nat → Str
  | 0, _ => []
  | fuel + 1, n =>
      if n = 0 then []
      else natToStrAux fuel (n / 10) ++ [Char.ofNat (48 + n % 10)]

def natToStr (n : Nat) : Str :=
  natToStrAux n n

/-- Strip the `#fragment` part. -/
def stripFragment (l : Str) : Str :=
  takeUntil (fun c => decide (c = '#')) l

abbrev Query := List (Str × Str)

def argD (q : Query) (k : Str) : Str :=
  (getArg q k).getD []

/-- Percent-encoding for canonical instant-view links: keep unreserved
characters (alphanumeric, `-`, `_`, `.`, `~`), escape everything else as
`%XX` (uppercase hex), assuming ASCII input. -/
def hexDigitChar (v : Nat) : Char :=
  if v < 10 then Char.ofNat (48 + v) else Char.ofNat (55 + v)

def isUnreservedChar (c : Char) : Bool :=
  isAlnumChar c || decide (c = '-') || decide (c = '_') || decide (c = '.') ||
  decide (c = '~')

def urlEncode (s : Str) : Str :=
  s.flatMap (fun c =>
    if isUnreservedChar c then [c]
    else ['%', hexDigitChar (c.toNat / 16), hexDigitChar (c.toNat % 16)])

/-- Exact (case-sensitive) literal prefix strip. -/
def stripExact : Str → Str → Option Str
  | [], rest => some rest
  | _, [] => none
  | p :: ps, c :: cs => if c = p then stripExact ps cs else none

/-- The `thread=` query value as a positive message identifier, if any. -/
def threadArg (q : Query) : Option Nat :=
  match getArg q "thread".data with
  | some tv => let n := leadingNum tv; if n ≠ 0 then some n else none
  | none => none

/-- Canonical `tg://privatepost` message link carried by
`internalLinkTypeMessage` for channels without a username (subset:
channel, post, `single`, thread). -/
def canonicalPrivatepost (chan : Str) (post : Nat) (single : Bool)
    (thread : Option Nat) : Str :=
  "tg://privatepost?channel=".data ++ chan ++ "&post=".data ++ natToStr post ++
  (if single then "&single".data else []) ++
  (match thread with
   | some t => "&thread=".data ++ natToStr t
   | none => [])

/-- A character of a local (color or gradient) background descriptor. -/
def isBgFillChar (c : Char) : Bool :=
  (hexDigitVal c).isSome || decide (c = '-') || decide (c = '~')

/-- A local fill background name: hexadecimal colors joined by `-` or `~`. -/
def isLocalBg (s : Str) : Bool :=
  !s.isEmpty && s.all isBgFillChar

/-- The parameter suffix of a fill background: only `rotation=` survives. -/
def bgFillSuffix (q : Query) : Str :=
  match getArg q "rotation".data with
  | some r => if r.isEmpty then [] else "?rotation=".data ++ urlEncode r
  | none => []

/-- `intercalate` with a single separator character. -/
def joinSep (sep : Char) : List Str → Str
  | [] => []
  | [t] => t
  | t :: ts => t ++ sep :: joinSep sep ts

/-- The parameter suffix of a wallpaper background: `mode`, `intensity`,
`bg_color` and `rotation` survive, in this canonical order. -/
def bgSlugSuffix (q : Query) : Str :=
  let part := fun (k : Str) =>
    match getArg q k with
    | some v => if v.isEmpty then [] else [k ++ '=' :: urlEncode v]
    | none => ([] : List Str)
  let parts := part "mode".data ++ part "intensity".data ++ part "bg_color".data ++
    part "rotation".data
  match parts with
  | [] => []
  | _ => '?' :: joinSep '&' parts

/-- Modelled from the spec: `tg://bg` — a background by flat color, gradient
or wallpaper slug, re-encoded into the canonical descriptor carried by
`internalLinkTypeBackground`. -/
def parseBg (q : Query) : Option LinkVariant :=
  let color := argD q "color".data
  let gradient := argD q "gradient".data
  let slug := argD q "slug".data
  if !color.isEmpty then some (.background (urlEncode color ++ bgFillSuffix q))
  else if !gradient.isEmpty then some (.background (urlEncode gradient ++ bgFillSuffix q))
  else if !slug.isEmpty then some (.background (urlEncode slug ++ bgSlugSuffix q))
  else none

def isDraftWs (c : Char) : Bool :=
  decide (c = ' ') || decide (c = '\n') || decide (c = '\t') || decide (c = '\r')

def isBlankStr (s : Str) : Bool :=
  s.all isDraftWs

/-- Modelled from the spec: `share`/`msg`/`msg_url` — combine the `url=` and
`text=` values into one draft text (blank components dropped, a leading `@`
guarded by a space), remembering whether both parts were present. -/
def parseDraft (q : Query) : Option LinkVariant :=
  let url0 := argD q "url".data
  let text0 := argD q "text".data
  let url := if isBlankStr url0 then [] else url0
  let text := if isBlankStr text0 then [] else text0
  if url.isEmpty && text.isEmpty then none
  else
    let draft := if url.isEmpty then text
                 else if text.isEmpty then url
                 else url ++ '\n' :: text
    let draft := if draft.head? = some '@' then ' ' :: draft else draft
    some (.messageDraft draft (!url.isEmpty && !text.isEmpty))

/-- Canonical `tg://resolve` message link carried by
`internalLinkTypeMessage` (subset: domain, post, `single`, thread). -/
def canonicalMessageUrl (d : Str) (post : Nat) (single : Bool) (thread : Option Nat) : Str :=
  "tg://resolve?domain=".data ++ d ++ "&post=".data ++ natToStr post ++
  (if single then "&single".data else []) ++
  (match thread with
   | some t => "&thread=".data ++ natToStr t
   | none => [])

/-- The target chat for a `startattach` link without an explicit chat:
the chosen chat types, or the current chat when no restriction is given. -/
def chooseTarget (c : Option ChatTypes) : AttachTarget :=
  match c with
  | some types => AttachTarget.chosen types
  | none => AttachTarget.current

/-- Modelled from the spec (§4.2 priority list) and the literal cases of
`src/test/link.cpp`: dispatch of a `resolve`-style link for a valid
username, given the message-post description already extracted from the
query (`tg:`) or the path (HTTP). -/
def resolveUser (d : Str) (post : Option (Nat × Option Nat)) (q : Query) : LinkVariant :=
  let attach := argD q "attach".data
  let startattach := argD q "startattach".data
  match post with
  | some (p, thread) =>
      .message (canonicalMessageUrl d p (hasArg q "single".data) thread)
  | none =>
      if !attach.isEmpty then
        .attachmentMenuBot (.toUser d) attach startattach
      else if hasArg q "startattach".data then
        .attachmentMenuBot (chooseTarget (parseChoose (getArg q "choose".data))) d startattach
      else if hasArg q "voicechat".data then
        .videoChat d (argD q "voicechat".data) false
      else if hasArg q "videochat".data then
        .videoChat d (argD q "videochat".data) false
      else if hasArg q "livestream".data then
        .videoChat d (argD q "livestream".data) true
      else if hasArg q "start".data then
        .botStart d (argD q "start".data)
      else if hasArg q "startgroup".data then
        .botStartInGroup d (argD q "startgroup".data) (groupAdminRights (getArg q "admin".data))
      else if hasArg q "startchannel".data then
        match channelAdminRights (getArg q "admin".data) with
        | some r => .botAddToChannel d r
        | none => .publicChat d
      else if isValidShortName (argD q "game".data) then
        .game d (argD q "game".data)
      else
        .publicChat d

/-- The phone-number side of `resolve` (`phone=` / `t.me/+<digits>`). -/
def resolvePhone (p : Str) (q : Query) : LinkVariant :=
  let attach := argD q "attach".data
  if !attach.isEmpty then
    .attachmentMenuBot (.toPhone p) attach (argD q "startattach".data)
  else
    .userPhoneNumber p

/-- Modelled from the spec: `tg://passport` / `resolve?domain=telegrampassport`. -/
def parsePassport (q : Query) : Option LinkVariant :=
  let botId := leadingNum (argD q "bot_id".data)
  let scope := argD q "scope".data
  let key := argD q "public_key".data
  let nonceArg := argD q "nonce".data
  let nonce := if nonceArg.isEmpty then argD q "payload".data else nonceArg
  let callback := argD q "callback_url".data
  if botId ≠ 0 && !scope.isEmpty && !key.isEmpty && !nonce.isEmpty then
    some (.passportDataRequest botId scope key nonce callback)
  else
    none

/-- `resolve` authority of a deep link: `domain=` or `phone=` dispatch;
`none` means "unknown deep link". -/
def parseResolve (q : Query) : Option LinkVariant :=
  match getArg q "domain".data with
  | some d =>
      if d = "telegrampassport".data then parsePassport q
      else if isValidUsername d then
        let post :=
          match getArg q "post".data with
          | some pv =>
              let n := leadingNum pv
              if n ≠ 0 then some (n, threadArg q) else none
          | none => none
        match resolveUser d post q with
        | .publicChat _ =>
            if isValidShortName (argD q "appname".data) then
              some (.webApp d (argD q "appname".data) (argD q "startapp".data))
            else some (.publicChat d)
        | v => some v
      else none
  | none =>
      match getArg q "phone".data with
      | some p => if isValidPhone p then some (resolvePhone p q) else none
      | none => none

/-- Proxy-argument validation shared by `socks` and `proxy`;
`isSocks = true` builds a SOCKS5 variant, otherwise an MTProto one. -/
def parseProxy (q : Query) (isSocks : Bool) : LinkVariant :=
  let server := argD q "server".data
  let port := leadingNum (argD q "port".data)
  if server.isEmpty || port = 0 || 65535 < port then .unsupportedProxy
  else if isSocks then
    .proxySocks server port (argD q "user".data) (argD q "pass".data)
  else
    let secret := argD q "secret".data
    let hex32 := fun (s : Str) => s.length = 32 && s.all (fun c => (hexDigitVal c).isSome)
    if hex32 secret then .proxyMtproto server port (lowerStr secret)
    else
      match secret with
      | 'd' :: 'd' :: rest =>
          if hex32 rest then .proxyMtproto server port (lowerStr secret) else .unsupportedProxy
      | 'D' :: 'd' :: rest =>
          if hex32 rest then .proxyMtproto server port (lowerStr secret) else .unsupportedProxy
      | 'd' :: 'D' :: rest =>
          if hex32 rest then .proxyMtproto server port (lowerStr secret) else .unsupportedProxy
      | 'D' :: 'D' :: rest =>
          if hex32 rest then .proxyMtproto server port (lowerStr secret) else .unsupportedProxy
      | _ => .unsupportedProxy

/-- Settings sub-page table (`tg://settings/<page>`). -/
def settingsPage (p : Str) : LinkVariant :=
  if p = "themes".data then .themeSettings
  else if p = "devices".data then .activeSessions
  else if p = "auto_delete".data then .defaultMessageAutoDeleteTimerSettings
  else if p = "change_number".data then .changePhoneNumber
  else if p = "edit_profile".data then .editProfileSettings
  else if p = "folders".data then .folderSettings
  else if p = "language".data then .languageSettings
  else if p = "privacy".data then .privacyAndSecuritySettings
  else .settingsLink

/-- Modelled from the spec (§4.2 group 1): deep-link dispatch by authority
token.  `none` means "unknown deep link" (the caller wraps the raw link),
and the outer `Option` of `parseTg` below means "not a link at all". -/
def parseTgAuthority (auth : Str) (path : Str) (q : Query) : Option LinkVariant :=
  if auth = "resolve".data then parseResolve q
  else if auth = "join".data then
    let h := argD q "invite".data
    if isValidInviteHash h then some (.chatInvite h) else none
  else if auth = "list".data then
    let s := argD q "slug".data
    if isValidFolderSlug s then some (.chatFolderInvite s) else none
  else if auth = "addstickers".data then
    let s := argD q "set".data
    if !s.isEmpty then some (.stickerSet s false) else none
  else if auth = "addemoji".data then
    let s := argD q "set".data
    if !s.isEmpty then some (.stickerSet s true) else none
  else if auth = "addtheme".data then
    let s := argD q "slug".data
    if !s.isEmpty then some (.themeLink s) else none
  else if auth = "setlanguage".data then
    let s := argD q "lang".data
    if !s.isEmpty then some (.languagePack s) else none
  else if auth = "login".data then
    let code := argD q "code".data
    if !code.isEmpty then some (.authenticationCode code)
    else if !(argD q "token".data).isEmpty then some .qrCodeAuthentication
    else none
  else if auth = "restore_purchases".data then
    if path.isEmpty then some .restorePurchases else none
  else if auth = "confirmphone".data then
    let h := argD q "hash".data
    let p := argD q "phone".data
    if !h.isEmpty && !p.isEmpty then some (.phoneNumberConfirmation h p) else none
  else if auth = "invoice".data then
    let s := argD q "slug".data
    if !s.isEmpty then some (.invoiceLink s) else none
  else if auth = "premium_offer".data then
    some (.premiumFeatures (argD q "ref".data))
  else if auth = "contact".data then
    let t := argD q "token".data
    if !t.isEmpty then some (.userToken t) else none
  else if auth = "privatepost".data then
    let chan := argD q "channel".data
    let post := leadingNum (argD q "post".data)
    if !chan.isEmpty && post ≠ 0 then
      some (.message (canonicalPrivatepost chan post (hasArg q "single".data)
        (threadArg q)))
    else none
  else if auth = "bg".data then parseBg q
  else if auth = "passport".data then parsePassport q
  else if auth = "socks".data then some (parseProxy q true)
  else if auth = "proxy".data then some (parseProxy q false)
  else if auth = "settings".data then
    match (splitOnChar '/' path).filter (fun s => !s.isEmpty) with
    | [] => some .settingsLink
    | [p] => some (settingsPage p)
    | _ => some .settingsLink
  else none

/-- A deep link after its `tg:`/`tg://` scheme: split authority, path,
query and fragment; reject an authority containing `@` or `:`; anything the
authority table does not recognize becomes `UnknownDeepLink` with the
original link normalized to the `tg://` form, fragment stripped. -/
def parseTg (rest : Str) : Option LinkVariant :=
  let noFrag := stripFragment rest
  let auth := takeUntil (fun c => decide (c = '/') || decide (c = '?')) noFrag
  let tail := dropUntil (fun c => decide (c = '/') || decide (c = '?')) noFrag
  if auth.any (fun c => decide (c = '@') || decide (c = ':')) then none
  else
    let path :=
      match tail with
      | '/' :: t => takeUntil (fun c => decide (c = '?')) t
      | _ => []
    let qStr := (dropUntil (fun c => decide (c = '?')) tail).drop 1
    let q := parseQuery qStr
    if auth = "share".data || auth = "msg".data || auth = "msg_url".data then
      parseDraft q
    else
      match parseTgAuthority auth path q with
      | some v => some v
      | none => some (.unknownDeepLink ("tg://".data ++ noFrag))

end LinkM
namespace LinkM

/-- The recognized HTTP-family hosts: `t.me`, `telegram.me`, `telegram.dog`,
optionally behind a `www.` prefix, after one round of percent-decoding and
ASCII lower-casing. -/
def isTelegramHostCore (h : Str) : Bool :=
  h = "t.me".data || h = "telegram.me".data || h = "telegram.dog".data

/-- Sub-domains of the t.me family that never denote a username. -/
def forbiddenSubdomains : List Str :=
  ["addemoji".data, "addstickers".data, "addtheme".data, "auth".data,
   "confirmphone".data, "invoice".data, "joinchat".data, "list".data,
   "login".data, "proxy".data, "setlanguage".data, "share".data, "socks".data]

/-- Modelled from the spec and the literal cases of `src/test/link.cpp`:
recognize a t.me-family host after one percent-decode and lower-casing.
`some none` is a bare (or `www.`) core host; `some (some u)` is a username
sub-domain host `u.t.me` (a valid username of length at least 4, not a
reserved sub-domain). -/
def hostInfo (raw : Str) : Option (Option Str) :=
  let h := lowerStr (urlDecode false raw)
  if isTelegramHostCore h then some none
  else
    let label := takeUntil (fun c => decide (c = '.')) h
    let rest := (dropUntil (fun c => decide (c = '.')) h).drop 1
    if isTelegramHostCore rest then
      if label = "www".data then some none
      else if isValidUsername label && 4 ≤ label.length &&
              !(forbiddenSubdomains.contains label) then some (some label)
      else none
    else none

def hostMatches (raw : Str) : Bool :=
  (hostInfo raw).isSome

/-- Modelled from the spec (§4.2 group 2, reserved first path segments) and
the literal cases of `src/test/link.cpp`: HTTP-family dispatch on the
percent-decoded path segments and the query. -/
def parseHttpPath (segs : List Str) (q : Query) : Option LinkVariant :=
  match segs with
  | [] => none
  | seg0 :: rest =>
    let seg1 := rest.headD []
    if seg0 = "s".data then parseHttpPath rest q
    else if seg0 = "joinchat".data then
      if isValidInviteHash seg1 then some (.chatInvite seg1) else none
    else if seg0.head? = some '+' || seg0.head? = some ' ' then
      let s := seg0.drop 1
      if isValidPhone s then some (resolvePhone s q)
      else if isValidInviteHash s then some (.chatInvite s)
      else none
    else if seg0 = "list".data then
      if isValidFolderSlug seg1 then some (.chatFolderInvite seg1) else none
    else if seg0 = "login".data then
      if !seg1.isEmpty then some (.authenticationCode seg1) else none
    else if seg0 = "contact".data then
      if !seg1.isEmpty then some (.userToken seg1) else none
    else if seg0 = "addstickers".data then
      if !seg1.isEmpty then some (.stickerSet seg1 false) else none
    else if seg0 = "addemoji".data then
      if !seg1.isEmpty then some (.stickerSet seg1 true) else none
    else if seg0 = "addtheme".data then
      if !seg1.isEmpty then some (.themeLink seg1) else none
    else if seg0 = "setlanguage".data then
      if !seg1.isEmpty then some (.languagePack seg1) else none
    else if seg0 = "confirmphone".data then
      let h := argD q "hash".data
      let p := argD q "phone".data
      if !h.isEmpty && !p.isEmpty then some (.phoneNumberConfirmation h p) else none
    else if seg0 = "socks".data then
      some (parseProxy q true)
    else if seg0 = "proxy".data then
      some (parseProxy q false)
    else if seg0 = "invoice".data then
      if !seg1.isEmpty then some (.invoiceLink seg1) else none
    else if seg0.head? = some '$' then
      let s := seg0.drop 1
      if !s.isEmpty then some (.invoiceLink s) else none
    else if seg0 = "bg".data then
      if seg1.isEmpty then none
      else if isLocalBg seg1 then some (.background (urlEncode seg1 ++ bgFillSuffix q))
      else some (.background (urlEncode seg1 ++ bgSlugSuffix q))
    else if seg0 = "share".data || seg0 = "msg".data then
      parseDraft q
    else if seg0 = "c".data then
      (match rest with
       | chanSeg :: p1 :: rest2 =>
           let cn := leadingNum chanSeg
           let n1 := leadingNum p1
           if cn ≠ 0 && n1 ≠ 0 then
             let n2 := leadingNum (rest2.headD [])
             let (post, thread) :=
               if n2 ≠ 0 then (n2, some n1) else (n1, none)
             some (.message (canonicalPrivatepost (natToStr cn) post
               (hasArg q "single".data) thread))
           else none
       | _ => none)
    else if seg0 = "iv".data then
      let url := argD q "url".data
      if !url.isEmpty && hasArg q "rhash".data && rest.all List.isEmpty then
        let rhash := argD q "rhash".data
        some (.instantView
          ("https://t.me/iv?url=".data ++ urlEncode url ++
            (if rhash.isEmpty then "&rhash".data else "&rhash=".data ++ rhash))
          url)
      else none
    else if isValidUsername seg0 then
      let n1 := leadingNum seg1
      let post :=
        if n1 ≠ 0 then
          let n2 := leadingNum (rest.tail.headD [])
          if n2 ≠ 0 then some (n2, some n1) else some (n1, none)
        else none
      let v := resolveUser seg0 post q
      match v, post with
      | .publicChat _, none =>
          match rest.filter (fun s => !s.isEmpty) with
          | [app] =>
              if isValidShortName app then
                some (.webApp seg0 app (argD q "startapp".data))
              else some v
          | _ => some v
      | _, _ => some v
    else none

/-- Modelled from the spec: port validation of the URL tokenizer — the port
string must be nonempty, all digits, and its value (leading zeros allowed)
must lie in `[1, 65535]`; anything else invalidates the whole input. -/
def parse_port (s : Str) : Option Nat :=
  if s.isEmpty then none
  else if s.all isDigitChar then
    let n := digitsToNat s
    if 1 ≤ n && n ≤ 65535 then some n else none
  else none

/-- An explicit port is accepted by the link classifier only when it is a
valid port and one of the two standard web ports. -/
def checkPort (ps : Str) : Bool :=
  match parse_port ps with
  | some p => p = 80 || p = 443
  | none => false

/-- An HTTP-family link after scheme stripping: host with optional port,
path, query. -/
def parseHttp (rest : Str) : Option LinkVariant :=
  let noFrag := stripFragment rest
  let hostPort := takeUntil (fun c => decide (c = '/') || decide (c = '?')) noFrag
  let tail := dropUntil (fun c => decide (c = '/') || decide (c = '?')) noFrag
  let host := takeUntil (fun c => decide (c = ':')) hostPort
  let portOk :=
    match dropUntil (fun c => decide (c = ':')) hostPort with
    | [] => true
    | _ :: ps => checkPort ps
  if !portOk then none
  else
    match hostInfo host with
    | none => none
    | some sub =>
      let path :=
        match tail with
        | '/' :: t => takeUntil (fun c => decide (c = '?')) t
        | _ => []
      let qStr := (dropUntil (fun c => decide (c = '?')) tail).drop 1
      let segs := (splitOnChar '/' path).map (urlDecode false)
      let q := parseQuery qStr
      match sub with
      | none => parseHttpPath segs q
      | some u => parseHttpPath (u :: segs) q

/-- Case-insensitive literal prefix match; returns the remainder. -/
def stripPrefixCI : Str → Str → Option Str
  | [], rest => some rest
  | _, [] => none
  | p :: ps, c :: cs => if lowerChar c = p then stripPrefixCI ps cs else none

/-- Modelled from the spec: `LinkManager::parse_internal_link` — scheme
recognition (case-insensitive `tg:` deep links, case-insensitive
`http://`/`https://` or bare HTTP-family hosts), then the scheme-specific
classifiers.  Total; `none` is the "not an internal link" result. -/
def classifyStr (url : Str) : Option LinkVariant :=
  match stripPrefixCI "tg://".data url with
  | some rest => parseTg rest
  | none =>
    match stripPrefixCI "tg:".data url with
    | some rest =>
        if "//".data.isPrefixOf rest then none else parseTg rest
    | none =>
      match stripPrefixCI "http://".data url with
      | some rest => parseHttp rest
      | none =>
        match stripPrefixCI "https://".data url with
        | some rest => parseHttp rest
        | none => parseHttp url

def classify (url : String) : Option LinkVariant :=
  classifyStr url.data

end LinkM
namespace LinkM

/-- Plain field characters that survive a parse/build round trip unchanged:
alphanumerics, `_`, `-`, `.` (no query/path delimiters, no `%`, no `+`). -/
def isPlainChar (c : Char) : Bool :=
  isWordChar c || decide (c = '-') || decide (c = '.')

def isPlainStr (s : Str) : Bool :=
  s.all isPlainChar

/-- The administrator-rights tokens emitted for a `startgroup` link
(rights applicable to groups, `manage_chat` left implicit). -/
def groupRightsTokens (r : AdminRights) : List Str :=
  (if r.can_change_info then ["change_info".data] else []) ++
  (if r.can_delete_messages then ["delete_messages".data] else []) ++
  (if r.can_invite_users then ["invite_users".data] else []) ++
  (if r.can_restrict_members then ["restrict_members".data] else []) ++
  (if r.can_pin_messages then ["pin_messages".data] else []) ++
  (if r.can_manage_topics then ["manage_topics".data] else []) ++
  (if r.can_promote_members then ["promote_members".data] else []) ++
  (if r.can_manage_video_chats then ["manage_video_chats".data] else []) ++
  (if r.is_anonymous then ["anonymous".data] else [])

/-- The administrator-rights tokens emitted for a `startchannel` link. -/
def channelRightsTokens (r : AdminRights) : List Str :=
  (if r.can_change_info then ["change_info".data] else []) ++
  (if r.can_post_messages then ["post_messages".data] else []) ++
  (if r.can_edit_messages then ["edit_messages".data] else []) ++
  (if r.can_delete_messages then ["delete_messages".data] else []) ++
  (if r.can_invite_users then ["invite_users".data] else []) ++
  (if r.can_restrict_members then ["restrict_members".data] else []) ++
  (if r.can_promote_members then ["promote_members".data] else []) ++
  (if r.can_manage_video_chats then ["manage_video_chats".data] else [])

/-- The `choose=` tokens for a chosen-chat-types target. -/
def chooseTokens (c : ChatTypes) : List Str :=
  (if c.allow_users then ["users".data] else []) ++
  (if c.allow_bots then ["bots".data] else []) ++
  (if c.allow_groups then ["groups".data] else []) ++
  (if c.allow_channels then ["channels".data] else [])

/-- Group-normalized rights: what `admin=` can express for `startgroup`. -/
def isWfGroupRights (r : AdminRights) : Bool :=
  r.can_manage_chat && !r.can_post_messages && !r.can_edit_messages && hasAnyRight r

/-- Channel-normalized rights: what `admin=` can express for `startchannel`. -/
def isWfChannelRights (r : AdminRights) : Bool :=
  r.can_manage_chat && r.can_restrict_members && !r.can_pin_messages &&
  !r.can_manage_topics && !r.is_anonymous

def errHttpUnavailable : Str := "HTTP link is unavailable for the link type".data

def errTgUnavailable : Str := "Deep link is unavailable for the link type".data

/-- The query part shared by both generation modes of an
attachment-menu-bot link (`startattach`, plus `choose=`/`attach=`). -/
def attachQuery (target : AttachTarget) (bot : Str) (param : Str) : Str :=
  match target with
  | .current => "startattach=".data ++ param
  | .chosen c =>
      "choose=".data ++ joinSep '+' (chooseTokens c) ++ "&startattach=".data ++ param
  | .toUser _ => "attach=".data ++ bot ++ "&startattach=".data ++ param
  | .toPhone _ => "attach=".data ++ bot ++ "&startattach=".data ++ param

/-- The `resolve?domain=`-style base of an attachment-menu-bot link. -/
def attachBaseTg (target : AttachTarget) (bot : Str) : Str :=
  match target with
  | .toUser u => "tg://resolve?domain=".data ++ u
  | .toPhone p => "tg://resolve?phone=".data ++ p
  | _ => "tg://resolve?domain=".data ++ bot

def attachBaseHttp (target : AttachTarget) (bot : Str) : Str :=
  match target with
  | .toUser u => "https://t.me/".data ++ u
  | .toPhone p => "https://t.me/+".data ++ p
  | _ => "https://t.me/".data ++ bot

/-- Modelled from the spec: `LinkManager::get_internal_link` — generate the
canonical link of a variant, `isInternal` selecting the `tg://` or the
`https://t.me/` form; fails with a typed error when the variant has no link
of the requested kind, and omits default-valued parameters. -/
def build (v : LinkVariant) (isInternal : Bool) : Except Str Str :=
  match v with
  | .publicChat u =>
      .ok (if isInternal then "tg://resolve?domain=".data ++ u
           else "https://t.me/".data ++ u)
  | .botStart u p =>
      .ok (if isInternal then "tg://resolve?domain=".data ++ u ++ "&start=".data ++ p
           else "https://t.me/".data ++ u ++ "?start=".data ++ p)
  | .botStartInGroup u p rg =>
      let admin := match rg with
        | some r => "&admin=".data ++ joinSep '+' (groupRightsTokens r)
        | none => []
      .ok (if isInternal then
             "tg://resolve?domain=".data ++ u ++ "&startgroup=".data ++ p ++ admin
           else "https://t.me/".data ++ u ++ "?startgroup=".data ++ p ++ admin)
  | .botAddToChannel u r =>
      let admin := "&admin=".data ++ joinSep '+' (channelRightsTokens r)
      .ok (if isInternal then
             "tg://resolve?domain=".data ++ u ++ "&startchannel".data ++ admin
           else "https://t.me/".data ++ u ++ "?startchannel".data ++ admin)
  | .attachmentMenuBot target bot p =>
      let base := if isInternal then attachBaseTg target bot else attachBaseHttp target bot
      let sep : Str := if isInternal then "&".data else "?".data
      .ok (base ++ sep ++ attachQuery target bot p)
  | .message url => if isInternal then .ok url else .error errHttpUnavailable
  | .messageDraft txt _ =>
      let u := takeUntil (fun c => decide (c = '\n')) txt
      let x := (dropUntil (fun c => decide (c = '\n')) txt).drop 1
      .ok (if isInternal then
             "tg://msg_url?url=".data ++ urlEncode u ++ "&text=".data ++ urlEncode x
           else
             "https://t.me/share?url=".data ++ urlEncode u ++ "&text=".data ++
               urlEncode x)
  | .background d =>
      .ok (if isInternal then
             (if isLocalBg d then "tg://bg?gradient=".data ++ d
              else "tg://bg?slug=".data ++ d)
           else "https://t.me/bg/".data ++ d)
  | .chatInvite h =>
      .ok (if isInternal then "tg://join?invite=".data ++ h
           else "https://t.me/+".data ++ h)
  | .chatFolderInvite s =>
      .ok (if isInternal then "tg://list?slug=".data ++ s
           else "https://t.me/list/".data ++ s)
  | .stickerSet n isEmoji =>
      .ok (if isInternal then
             (if isEmoji then "tg://addemoji?set=".data else "tg://addstickers?set=".data) ++ n
           else
             (if isEmoji then "https://t.me/addemoji/".data
              else "https://t.me/addstickers/".data) ++ n)
  | .themeLink n =>
      .ok (if isInternal then "tg://addtheme?slug=".data ++ n
           else "https://t.me/addtheme/".data ++ n)
  | .languagePack n =>
      .ok (if isInternal then "tg://setlanguage?lang=".data ++ n
           else "https://t.me/setlanguage/".data ++ n)
  | .authenticationCode c =>
      .ok (if isInternal then "tg://login?code=".data ++ c
           else "https://t.me/login/".data ++ c)
  | .qrCodeAuthentication => .error "Unsupported link type generation".data
  | .phoneNumberConfirmation h p =>
      .ok (if isInternal then "tg://confirmphone?hash=".data ++ h ++ "&phone=".data ++ p
           else "https://t.me/confirmphone?hash=".data ++ h ++ "&phone=".data ++ p)
  | .userPhoneNumber p =>
      .ok (if isInternal then "tg://resolve?phone=".data ++ p
           else "https://t.me/+".data ++ p)
  | .userToken t =>
      .ok (if isInternal then "tg://contact?token=".data ++ t
           else "https://t.me/contact/".data ++ t)
  | .invoiceLink n =>
      .ok (if isInternal then "tg://invoice?slug=".data ++ n
           else "https://t.me/$".data ++ n)
  | .premiumFeatures r =>
      if isInternal then .ok ("tg://premium_offer?ref=".data ++ r)
      else .error errHttpUnavailable
  | .restorePurchases =>
      if isInternal then .ok "tg://restore_purchases".data else .error errHttpUnavailable
  | .passportDataRequest botId scope key nonce _ =>
      if isInternal then
        .ok ("tg://passport?bot_id=".data ++ natToStr botId ++ "&scope=".data ++ scope ++
          "&public_key=".data ++ key ++ "&payload=".data ++ nonce)
      else .error errHttpUnavailable
  | .settingsLink =>
      if isInternal then .ok "tg://settings".data else .error errHttpUnavailable
  | .themeSettings =>
      if isInternal then .ok "tg://settings/themes".data else .error errHttpUnavailable
  | .activeSessions =>
      if isInternal then .ok "tg://settings/devices".data else .error errHttpUnavailable
  | .changePhoneNumber =>
      if isInternal then .ok "tg://settings/change_number".data else .error errHttpUnavailable
  | .editProfileSettings =>
      if isInternal then .ok "tg://settings/edit_profile".data else .error errHttpUnavailable
  | .folderSettings =>
      if isInternal then .ok "tg://settings/folders".data else .error errHttpUnavailable
  | .languageSettings =>
      if isInternal then .ok "tg://settings/language".data else .error errHttpUnavailable
  | .privacyAndSecuritySettings =>
      if isInternal then .ok "tg://settings/privacy".data else .error errHttpUnavailable
  | .defaultMessageAutoDeleteTimerSettings =>
      if isInternal then .ok "tg://settings/auto_delete".data else .error errHttpUnavailable
  | .videoChat u h live =>
      let key := if live then "livestream=".data else "videochat=".data
      .ok (if isInternal then "tg://resolve?domain=".data ++ u ++ '&' :: key ++ h
           else "https://t.me/".data ++ u ++ '?' :: key ++ h)
  | .game u g =>
      .ok (if isInternal then "tg://resolve?domain=".data ++ u ++ "&game=".data ++ g
           else "https://t.me/".data ++ u ++ "?game=".data ++ g)
  | .webApp u a p =>
      let tail : Str := if p.isEmpty then [] else "&startapp=".data ++ p
      let tailH : Str := if p.isEmpty then [] else "?startapp=".data ++ p
      .ok (if isInternal then
             "tg://resolve?domain=".data ++ u ++ "&appname=".data ++ a ++ tail
           else "https://t.me/".data ++ u ++ '/' :: a ++ tailH)
  | .proxySocks s port user pass =>
      let args := "server=".data ++ s ++ "&port=".data ++ natToStr port ++
        (if user.isEmpty then [] else "&user=".data ++ user) ++
        (if pass.isEmpty then [] else "&pass=".data ++ pass)
      .ok (if isInternal then "tg://socks?".data ++ args
           else "https://t.me/socks?".data ++ args)
  | .proxyMtproto s port secret =>
      let args := "server=".data ++ s ++ "&port=".data ++ natToStr port ++
        "&secret=".data ++ secret
      .ok (if isInternal then "tg://proxy?".data ++ args
           else "https://t.me/proxy?".data ++ args)
  | .unsupportedProxy => .error "Unsupported link type generation".data
  | .instantView url _ => if isInternal then .error errTgUnavailable else .ok url
  | .unknownDeepLink l => if isInternal then .ok l else .error errHttpUnavailable

end LinkM
namespace LinkM

/-- The reserved first-path-segment keywords of the HTTP-family dispatch;
a username equal to one of them cannot survive an external round trip. -/
def reservedHttpWords : List Str :=
  ["joinchat".data, "list".data, "login".data, "contact".data, "addstickers".data,
   "addemoji".data, "addtheme".data, "setlanguage".data, "confirmphone".data,
   "socks".data, "proxy".data, "invoice".data, "iv".data, "bg".data, "share".data,
   "msg".data, "c".data, "s".data]

/-- The username occupying the domain position of the generated link, if
any (this is the position where reserved-word collisions can occur). -/
def domainUsername (v : LinkVariant) : Option Str :=
  match v with
  | .publicChat u => some u
  | .botStart u _ => some u
  | .botStartInGroup u _ _ => some u
  | .botAddToChannel u _ => some u
  | .attachmentMenuBot target bot _ =>
      match target with
      | .toUser u => some u
      | .toPhone _ => none
      | _ => some bot
  | .videoChat u _ _ => some u
  | .game u _ => some u
  | .webApp u _ _ => some u
  | _ => none

/-- No collision between the generated link's domain-position username and
the dispatch keywords of the target mode. -/
def noReservedCollision (v : LinkVariant) (isInternal : Bool) : Bool :=
  match domainUsername v with
  | none => true
  | some u =>
      if isInternal then u ≠ "telegrampassport".data
      else !(reservedHttpWords.contains u)

def isPlainNonempty (s : Str) : Bool :=
  !s.isEmpty && isPlainStr s

/-- A canonical message link: exactly the string `canonicalMessageUrl` or
`canonicalPrivatepost` produces from valid components.  Decided by parsing
the components back and comparing the canonical rebuild with the string. -/
def msgWf (url : Str) : Bool :=
  match stripExact "tg://".data url with
  | none => false
  | some r =>
      let auth := takeUntil (fun c => decide (c = '?')) r
      let qs := (dropUntil (fun c => decide (c = '?')) r).drop 1
      let q := parseQuery qs
      let single := hasArg q "single".data
      let post := leadingNum (argD q "post".data)
      let th := threadArg q
      if auth = "resolve".data then
        let d := argD q "domain".data
        isValidUsername d && d ≠ "telegrampassport".data && post ≠ 0 &&
          url = canonicalMessageUrl d post single th
      else if auth = "privatepost".data then
        let c := argD q "channel".data
        isPlainNonempty c && post ≠ 0 &&
          url = canonicalPrivatepost c post single th
      else false

/-- A canonical instant-view link for fallback `fb`: the `https://t.me/iv`
form with the percent-encoded fallback and an `rhash` parameter (bare when
empty). -/
def ivWf (url fb : Str) : Bool :=
  !fb.isEmpty && fb.all (fun c => decide (c.toNat < 128)) &&
  (url = "https://t.me/iv?url=".data ++ urlEncode fb ++ "&rhash".data ||
   (let pre := "https://t.me/iv?url=".data ++ urlEncode fb ++ "&rhash=".data
    let tl := url.drop pre.length
    !tl.isEmpty && isPlainStr tl && url = pre ++ tl))

/-- A normalized unknown deep link: a fragment-free `tg://` link whose
authority is well-formed but matched by none of the authority table's
cases. -/
def unknownWf (l : Str) : Bool :=
  match stripExact "tg://".data l with
  | none => false
  | some r =>
      !r.isEmpty &&
      r.all (fun c => !(c = '#')) &&
      (let auth := takeUntil (fun c => decide (c = '/') || decide (c = '?')) r
       let tail := dropUntil (fun c => decide (c = '/') || decide (c = '?')) r
       let path :=
         match tail with
         | '/' :: t => takeUntil (fun c => decide (c = '?')) t
         | _ => []
       let qStr := (dropUntil (fun c => decide (c = '?')) tail).drop 1
       !(auth.any (fun c => decide (c = '@') || decide (c = ':'))) &&
       !(auth = "share".data) && !(auth = "msg".data) && !(auth = "msg_url".data) &&
       (parseTgAuthority auth path (parseQuery qStr)).isNone)

/-- Hex-32 check used by the modelled MTProto secret validation. -/
def isHex32 (s : Str) : Bool :=
  s.length = 32 && s.all (fun c => (hexDigitVal c).isSome)

/-- Well-formedness of a variant's fields: the field values expressible by
the canonical generated links (valid username / hash / phone syntax, plain
characters in free-text parameters, normalized rights objects).  For the
variants whose payload is itself a canonical link (`message`,
`instantView`, `unknownDeepLink`), well-formedness says exactly that the
payload re-classifies to the variant. -/
def wf (v : LinkVariant) : Bool :=
  match v with
  | .publicChat u => isValidUsername u
  | .botStart u p => isValidUsername u && isPlainStr p
  | .botStartInGroup u p rg =>
      isValidUsername u && isPlainStr p &&
      (match rg with
       | some r => isWfGroupRights r
       | none => true)
  | .botAddToChannel u r => isValidUsername u && isWfChannelRights r
  | .attachmentMenuBot target bot p =>
      isValidUsername bot && isPlainStr p &&
      (match target with
       | .current => true
       | .chosen c => c.allow_users || c.allow_bots || c.allow_groups || c.allow_channels
       | .toUser u => isValidUsername u
       | .toPhone ph => isValidPhone ph)
  | .message url => msgWf url
  | .messageDraft txt cl =>
      let u := takeUntil (fun c => decide (c = '\n')) txt
      let rest := dropUntil (fun c => decide (c = '\n')) txt
      txt.all (fun c => decide (c.toNat < 128)) && !(txt.head? = some '@') &&
      !(isBlankStr u) &&
      (match rest with
       | [] => cl = false
       | _ :: xs => !(isBlankStr xs) && cl = true)
  | .background d => !d.isEmpty && d.all isWordChar && !(isLocalBg d)
  | .chatInvite h => isValidInviteHash h
  | .chatFolderInvite s => isValidFolderSlug s
  | .stickerSet n _ => isPlainNonempty n
  | .themeLink n => isPlainNonempty n
  | .languagePack n => isPlainNonempty n
  | .authenticationCode c => isPlainNonempty c
  | .qrCodeAuthentication => true
  | .phoneNumberConfirmation h p => isPlainNonempty h && isValidPhone p
  | .userPhoneNumber p => isValidPhone p
  | .userToken t => isPlainNonempty t
  | .invoiceLink n => isPlainNonempty n
  | .premiumFeatures r => isPlainStr r
  | .restorePurchases => true
  | .passportDataRequest botId scope key nonce callback =>
      botId ≠ 0 && isPlainNonempty scope && isPlainNonempty key &&
      isPlainNonempty nonce && callback.isEmpty
  | .settingsLink => true
  | .themeSettings => true
  | .activeSessions => true
  | .changePhoneNumber => true
  | .editProfileSettings => true
  | .folderSettings => true
  | .languageSettings => true
  | .privacyAndSecuritySettings => true
  | .defaultMessageAutoDeleteTimerSettings => true
  | .videoChat u h _ => isValidUsername u && isPlainStr h
  | .game u g => isValidUsername u && isValidShortName g
  | .webApp u a p => isValidUsername u && isValidShortName a && isPlainStr p
  | .proxySocks s port user pass =>
      isPlainNonempty s && 1 ≤ port && port ≤ 65535 && isPlainStr user && isPlainStr pass
  | .proxyMtproto s port secret =>
      isPlainNonempty s && 1 ≤ port && port ≤ 65535 && lowerStr secret = secret &&
      (isHex32 secret ||
        (match secret with
         | 'd' :: 'd' :: rest => isHex32 rest
         | _ => false))
  | .unsupportedProxy => false
  | .instantView url fallback => ivWf url fallback
  | .unknownDeepLink l => unknownWf l

/-- Whether a variant has a link of the given kind at all (the modelled
generation-availability table; `qrCodeAuthentication` and
`unsupportedProxy` are never generated). -/
def generable (v : LinkVariant) (isInternal : Bool) : Bool :=
  match v with
  | .message _ => isInternal
  | .premiumFeatures _ => isInternal
  | .restorePurchases => isInternal
  | .passportDataRequest _ _ _ _ _ => isInternal
  | .settingsLink => isInternal
  | .themeSettings => isInternal
  | .activeSessions => isInternal
  | .changePhoneNumber => isInternal
  | .editProfileSettings => isInternal
  | .folderSettings => isInternal
  | .languageSettings => isInternal
  | .privacyAndSecuritySettings => isInternal
  | .defaultMessageAutoDeleteTimerSettings => isInternal
  | .unknownDeepLink _ => isInternal
  | .instantView _ _ => !isInternal
  | .qrCodeAuthentication => false
  | .unsupportedProxy => false
  | _ => true

end LinkM

namespace LinkM

/-- No `%` and no `+` in a string: single-pass decoding leaves it alone. -/
def noEscape (s : Str) : Bool :=
  s.all (fun c => !(c = '%') && !(c = '+'))

end LinkM

namespace OM
open OTree

/-- C2: constructing an iterator from a BST and a target MessageId either yields
the end iterator (dereferencing to `none`) because every stored identifier
exceeds the target, or points at the node with the greatest identifier that is
less than or equal to the target. -/
theorem iterInit_pred_or_equal (t : OTree) (target : Nat) (ht : isBST t = true) :
    (iterInit t target = [] ∧ deref (iterInit t target) = none ∧ ∀ k ∈ keys t, target < k)
    ∨ (∃ n, deref (iterInit t target) = some n ∧ n.rootId ∈ keys t ∧ n.rootId ≤ target ∧
        ∀ k ∈ keys t, k ≤ target → k ≤ n.rootId) := by
  induction t with
  | leaf => exact .inl ⟨rfl, rfl, by simp [keys]⟩
  | node l i hp hn r ihl ihr =>
    simp only [isBST, Bool.and_eq_true, List.all_eq_true, decide_eq_true_eq] at ht
    obtain ⟨⟨⟨hl, hr⟩, hbl⟩, hbr⟩ := ht
    by_cases hit : i ≤ target
    · rcases ihr hbr with ⟨hre, _, hrall⟩ | ⟨n, hd, hmem, hle, hmax⟩
      · refine .inr ⟨OTree.node l i hp hn r, ?_, ?_, hit, ?_⟩
        · simp [iterInit, hit, hre, deref]
        · simp [keys, rootId]
        · intro k hk hkt
          simp only [keys, List.mem_append, List.mem_cons] at hk
          rcases hk with hk | rfl | hk
          · exact le_of_lt (hl k hk)
          · simp [rootId]
          · exact absurd hkt (not_le_of_lt (hrall k hk))
      · cases h : iterInit r target with
        | nil => simp [deref, h] at hd
        | cons a s =>
          rw [h] at hd
          refine .inr ⟨n, ?_, ?_, hle, ?_⟩
          · simpa [iterInit, hit, h, deref] using hd
          · simp only [keys, List.mem_append, List.mem_cons]
            exact .inr (.inr hmem)
          · intro k hk hkt
            simp only [keys, List.mem_append, List.mem_cons] at hk
            have hin : i < n.rootId := hr _ hmem
            rcases hk with hk | rfl | hk
            · exact le_of_lt ((hl k hk).trans hin)
            · exact le_of_lt hin
            · exact hmax k hk hkt
    · push_neg at hit
      rcases ihl hbl with ⟨hle', _, hlall⟩ | ⟨n, hd, hmem, hle, hmax⟩
      · refine .inl ⟨?_, ?_, ?_⟩
        · simp [iterInit, not_le_of_lt hit, hle']
        · simp [iterInit, not_le_of_lt hit, hle', deref]
        · intro k hk
          simp only [keys, List.mem_append, List.mem_cons] at hk
          rcases hk with hk | rfl | hk
          · exact hlall k hk
          · exact hit
          · exact hit.trans (hr k hk)
      · cases h : iterInit l target with
        | nil => simp [deref, h] at hd
        | cons a s =>
          rw [h] at hd
          refine .inr ⟨n, ?_, ?_, hle, ?_⟩
          · simpa [iterInit, not_le_of_lt hit, h, deref] using hd
          · simp only [keys, List.mem_append, List.mem_cons]
            exact .inl hmem
          · intro k hk hkt
            simp only [keys, List.mem_append, List.mem_cons] at hk
            rcases hk with hk | rfl | hk
            · exact hmax k hk hkt
            · exact absurd hkt (not_le_of_lt hit)
            · exact absurd hkt (not_le_of_lt (hit.trans (hr k hk)))

end OM
namespace OM
open OTree

/-- C3: `operator++` on a node whose `have_next_` flag is `false` (symmetrically
`operator--` with `have_previous_` false) clears the stack, turning the iterator
into the end iterator, which dereferences to `none`: iteration never crosses a
side whose adjacency flag is unset. -/
theorem incr_decr_respect_gap (cur : OTree) (rest : IterStack) :
    (cur.rootHn = false → incr (cur :: rest) = [] ∧ deref (incr (cur :: rest)) = none) ∧
    (cur.rootHp = false → decr (cur :: rest) = [] ∧ deref (decr (cur :: rest)) = none) := by
  constructor
  · intro h
    simp [incr, h, deref]
  · intro h
    simp [decr, h, deref]

theorem descendRight_eq_append (t : OTree) (acc : IterStack) :
    descendRight t acc = descendRight t [] ++ acc := by
  induction t generalizing acc with
  | leaf => simp [descendRight]
  | node l i hp hn r ihl ihr =>
    rw [descendRight, descendRight, ihr, ihr (_ :: [])]
    simp

theorem iterInit_all_le (t : OTree) (target : Nat) (hall : ∀ k ∈ keys t, k ≤ target) :
    iterInit t target = descendRight t [] := by
  induction t with
  | leaf => rfl
  | node l i hp hn r ihl ihr =>
    have hi : i ≤ target := hall i (by simp [keys])
    have hrall : ∀ k ∈ keys r, k ≤ target := fun k hk => hall k (by simp [keys, hk])
    rw [iterInit]
    simp only [hi, if_true]
    rw [ihr hrall, descendRight, descendRight_eq_append r [OTree.node l i hp hn r]]

theorem keys_ne_nil (t : OTree) (hne : t ≠ OTree.leaf) : t.rootId ∈ keys t := by
  cases t with
  | leaf => exact absurd rfl hne
  | node l i hp hn r => simp [keys, rootId]

theorem incr_descendRight_end (t : OTree) (rest : IterStack) (ht : isBST t = true)
    (hne : t ≠ OTree.leaf) (hrest : popUpNext t rest = []) :
    ∃ m rest', descendRight t rest = m :: rest' ∧ m.rightChild = OTree.leaf ∧
      popUpNext m rest' = [] := by
  induction t generalizing rest with
  | leaf => exact absurd rfl hne
  | node l i hp hn r ihl ihr =>
    simp only [isBST, Bool.and_eq_true, List.all_eq_true, decide_eq_true_eq] at ht
    obtain ⟨⟨⟨hl, hr⟩, hbl⟩, hbr⟩ := ht
    by_cases hrc : r = OTree.leaf
    · subst hrc
      exact ⟨OTree.node l i hp hn OTree.leaf, rest, by simp [descendRight], rfl, hrest⟩
    · have hlr : l ≠ r := by
        intro heq
        have hmem : r.rootId ∈ keys r := keys_ne_nil r hrc
        have h1 : i < r.rootId := hr _ hmem
        have h2 : r.rootId < i := hl _ (heq ▸ hmem)
        omega
      have hpu : popUpNext r (OTree.node l i hp hn r :: rest) = [] := by
        rw [popUpNext]
        simp only [leftChild]
        rw [if_neg (fun h => hlr h)]
        exact hrest
      obtain ⟨m, rest', h1, h2, h3⟩ := ihr (OTree.node l i hp hn r :: rest) hbr hrc hpu
      refine ⟨m, rest', ?_, h2, h3⟩
      rw [descendRight]
      exact h1

/-- C10: iterator boundary safety: `operator++` and `operator--` on the end
(empty) iterator are no-ops, dereferencing the end iterator yields `none`
rather than touching memory, and incrementing from the node holding the
greatest identifier of the tree (whatever its `have_next_` flag) yields the
end iterator. -/
theorem iter_end_total (t : OTree) (target : Nat) (ht : isBST t = true)
    (hall : ∀ k ∈ keys t, k ≤ target) :
    incr ([] : IterStack) = [] ∧ decr ([] : IterStack) = [] ∧
    deref ([] : IterStack) = none ∧ incr (iterInit t target) = [] := by
  refine ⟨rfl, rfl, rfl, ?_⟩
  rw [iterInit_all_le t target hall]
  cases hne : t with
  | leaf => rfl
  | node l i hp hn r =>
    rw [← hne]
    obtain ⟨m, rest', hds, hrc, hpu⟩ :=
      incr_descendRight_end t [] ht (by simp [hne]) rfl
    rw [hds, incr]
    by_cases hmn : m.rootHn
    · simp [hmn, hrc, hpu]
    · simp [Bool.not_eq_true] at hmn
      simp [hmn]

end OM

namespace LinkM

theorem urlDecode_cons_plain (plus : Bool) (c : Char) (rest : Str)
    (h1 : c ≠ '%') (h2 : c ≠ '+') :
    urlDecode plus (c :: rest) = c :: urlDecode plus rest := by
  rw [urlDecode.eq_def]
  split <;> simp_all

theorem urlDecode_eq_self (plus : Bool) (s : Str) (h : noEscape s = true) :
    urlDecode plus s = s := by
  induction s with
  | nil => rfl
  | cons c rest ih =>
    simp only [noEscape, List.all_cons, Bool.and_eq_true, Bool.not_eq_true',
      decide_eq_false_iff_not] at h
    rw [urlDecode_cons_plain plus c rest h.1.1 h.1.2]
    rw [ih]
    simp only [noEscape]
    exact h.2

theorem takeUntil_all_neg (p : Char → Bool) (l : Str) (h : ∀ c ∈ l, p c = false) :
    takeUntil p l = l := by
  simp only [takeUntil]
  rw [List.takeWhile_eq_self_iff.mpr]
  intro c hc
  simp [h c hc]

theorem dropUntil_all_neg (p : Char → Bool) (l : Str) (h : ∀ c ∈ l, p c = false) :
    dropUntil p l = [] := by
  simp only [dropUntil]
  rw [List.dropWhile_eq_nil_iff.mpr]
  intro c hc
  simp [h c hc]

theorem takeUntil_append_hit (p : Char → Bool) (a : Str) (d : Char) (b : Str)
    (ha : ∀ c ∈ a, p c = false) (hd : p d = true) :
    takeUntil p (a ++ d :: b) = a := by
  induction a with
  | nil => simp [takeUntil, List.takeWhile, hd]
  | cons c a' ih =>
    have hc : p c = false := ha c (by simp)
    simp only [List.cons_append, takeUntil, List.takeWhile]
    rw [hc]
    simp only [Bool.not_false, if_true]
    have := ih (fun c hc' => ha c (by simp [hc']))
    simp only [takeUntil] at this
    rw [List.append_eq, this]

theorem dropUntil_append_hit (p : Char → Bool) (a : Str) (d : Char) (b : Str)
    (ha : ∀ c ∈ a, p c = false) (hd : p d = true) :
    dropUntil p (a ++ d :: b) = d :: b := by
  induction a with
  | nil => simp [dropUntil, List.dropWhile, hd]
  | cons c a' ih =>
    have hc : p c = false := ha c (by simp)
    simp only [List.cons_append, dropUntil, List.dropWhile]
    rw [hc]
    simp only [Bool.not_false, if_true]
    have := ih (fun c hc' => ha c (by simp [hc']))
    simp only [dropUntil] at this
    rw [List.append_eq, this]

theorem splitOnChar_ne_nil (d : Char) (l : Str) : splitOnChar d l ≠ [] := by
  induction l with
  | nil => simp [splitOnChar]
  | cons c rest ih =>
    simp only [splitOnChar]
    by_cases h : c = d
    · simp [h]
    · simp only [h, if_false]
      cases hr : splitOnChar d rest with
      | nil => exact absurd hr ih
      | cons s ss => simp

theorem splitOnChar_not_mem (d : Char) (l : Str) (h : d ∉ l) :
    splitOnChar d l = [l] := by
  induction l with
  | nil => rfl
  | cons c rest ih =>
    have hc : ¬(c = d) := fun he => h (by simp [he])
    simp only [splitOnChar, hc, if_false]
    rw [ih (fun hm => h (by simp [hm]))]

theorem splitOnChar_append (d : Char) (a b : Str) (h : d ∉ a) :
    splitOnChar d (a ++ d :: b) = a :: splitOnChar d b := by
  induction a with
  | nil => simp [splitOnChar]
  | cons c a' ih =>
    have hc : ¬(c = d) := fun he => h (by simp [he])
    simp only [List.cons_append, splitOnChar, hc, if_false, List.append_eq]
    rw [ih (fun hm => h (by simp [hm]))]

theorem getArg_nil (k : Str) : getArg [] k = none := rfl

theorem getArg_cons_eq (k v : Str) (q : Query) : getArg ((k, v) :: q) k = some v := by
  simp [getArg, List.find?]

theorem getArg_cons_ne (k' v k : Str) (q : Query) (h : ¬(k' = k)) :
    getArg ((k', v) :: q) k = getArg q k := by
  simp only [getArg, List.find?]
  rw [decide_eq_false h]

theorem stripPrefixCI_of_map_lower (p q rest : Str) (h : q.map lowerChar = p) :
    stripPrefixCI p (q ++ rest) = some rest := by
  induction q generalizing p with
  | nil => subst h; simp [stripPrefixCI]
  | cons c q' ih =>
    subst h
    simp only [List.map, List.cons_append, stripPrefixCI, if_pos rfl]
    exact ih _ rfl

end LinkM
namespace LinkM

theorem no_char_of_all {P : Char → Bool} {s : Str} (hs : s.all P = true) {d : Char}
    (hd : P d = false) : ∀ c ∈ s, decide (c = d) = false := by
  intro c hc
  have hc' := List.all_eq_true.mp hs c hc
  apply decide_eq_false
  intro he
  subst he
  rw [hc'] at hd
  cases hd

theorem orb_false {a b : Bool} (ha : a = false) (hb : b = false) : (a || b) = false := by
  simp [ha, hb]

/-- Characters of a valid username are word characters. -/
theorem username_chars {u : Str} (h : isValidUsername u = true) : u.all isWordChar = true := by
  cases u with
  | nil => simp [isValidUsername] at h
  | cons c rest =>
    simp only [isValidUsername, Bool.and_eq_true] at h
    exact h.1.1.2

theorem not_mem_of_no_char {s : Str} {d : Char} (h : ∀ c ∈ s, decide (c = d) = false) :
    d ∉ s := by
  intro hm
  have := h d hm
  simp at this

theorem forall_mem_append {P : Char → Prop} {a b : Str} (ha : ∀ c ∈ a, P c)
    (hb : ∀ c ∈ b, P c) : ∀ c ∈ a ++ b, P c := by
  intro c hc
  rcases List.mem_append.mp hc with h | h
  · exact ha c h
  · exact hb c h

theorem forall_mem_cons_c {P : Char → Prop} {b : Str} {d : Char} (hd : P d)
    (hb : ∀ c ∈ b, P c) : ∀ c ∈ d :: b, P c := by
  intro c hc
  rcases List.mem_cons.mp hc with rfl | h
  · exact hd
  · exact hb c h

theorem noEscape_of_all {P : Char → Bool} {s : Str} (hs : s.all P = true)
    (h1 : P '%' = false) (h2 : P '+' = false) : noEscape s = true := by
  simp only [noEscape, List.all_eq_true]
  intro c hc
  have e1 := no_char_of_all hs h1 c hc
  have e2 := no_char_of_all hs h2 c hc
  simp only [Bool.and_eq_true, Bool.not_eq_true']
  exact ⟨by simpa using e1, by simpa using e2⟩

theorem classifyStr_tg (rest : Str) : classifyStr ("tg://".data ++ rest) = parseTg rest := by
  simp only [classifyStr]
  rw [stripPrefixCI_of_map_lower "tg://".data "tg://".data rest (by decide)]

theorem classifyStr_https (rest : Str) :
    classifyStr ("https://".data ++ rest) = parseHttp rest := by
  simp only [classifyStr]
  rw [show stripPrefixCI "tg://".data ("https://".data ++ rest) = none from rfl]
  rw [show stripPrefixCI "tg:".data ("https://".data ++ rest) = none from rfl]
  rw [show stripPrefixCI "http://".data ("https://".data ++ rest) = none from rfl]
  rw [stripPrefixCI_of_map_lower "https://".data "https://".data rest (by decide)]

/-- Deep-link dispatch for a canonical `tg://<auth>?<query>` link whose
authority is made of word characters and whose query has no fragment. -/
theorem parseTg_authq (auth qs : Str) (hauth : auth.all isWordChar = true)
    (hnd : auth ≠ "share".data ∧ auth ≠ "msg".data ∧ auth ≠ "msg_url".data)
    (hqs : ∀ c ∈ qs, decide (c = '#') = false) :
    parseTg (auth ++ '?' :: qs) =
      match parseTgAuthority auth [] (parseQuery qs) with
      | some v => some v
      | none => some (.unknownDeepLink ("tg://".data ++ (auth ++ '?' :: qs))) := by
  have hW : ∀ d : Char, isWordChar d = false → ∀ c ∈ auth, decide (c = d) = false :=
    fun d hd => no_char_of_all hauth hd
  have hnoHash : ∀ c ∈ auth ++ '?' :: qs, decide (c = '#') = false := by
    intro c hc
    rcases List.mem_append.mp hc with h | h
    · exact hW '#' (by decide) c h
    · rcases List.mem_cons.mp h with rfl | h
      · decide
      · exact hqs c h
  simp only [parseTg]
  rw [show stripFragment (auth ++ '?' :: qs) = auth ++ '?' :: qs from
    takeUntil_all_neg _ _ hnoHash]
  rw [takeUntil_append_hit _ auth '?' qs
    (fun c hc => orb_false (hW '/' (by decide) c hc) (hW '?' (by decide) c hc)) (by decide)]
  rw [dropUntil_append_hit _ auth '?' qs
    (fun c hc => orb_false (hW '/' (by decide) c hc) (hW '?' (by decide) c hc)) (by decide)]
  have hany : (auth.any fun c => decide (c = '@') || decide (c = ':')) = false := by
    rw [List.any_eq_false]
    intro c hc
    rw [orb_false (hW '@' (by decide) c hc) (hW ':' (by decide) c hc)]
    exact Bool.false_ne_true
  rw [hany]
  simp only [Bool.false_eq_true, if_false]
  obtain ⟨h1, h2, h3⟩ := hnd
  have hdr : (decide (auth = "share".data) || decide (auth = "msg".data) ||
      decide (auth = "msg_url".data)) = false := by simp [h1, h2, h3]
  rw [hdr]
  simp only [Bool.false_eq_true, if_false]
  rfl

theorem parseQuery_cons_item (item rest : Str) (h : '&' ∉ item) :
    parseQuery (item ++ '&' :: rest) = parseQueryItem item :: parseQuery rest := by
  simp only [parseQuery]
  rw [splitOnChar_append '&' item rest h]
  rfl

theorem parseQuery_single_item (item : Str) (h : '&' ∉ item) :
    parseQuery item = [parseQueryItem item] := by
  simp only [parseQuery]
  rw [splitOnChar_not_mem '&' item h]
  rfl

theorem parseQueryItem_keyval (k v : Str) (hk : ∀ c ∈ k, decide (c = '=') = false) :
    parseQueryItem (k ++ '=' :: v) = (urlDecode true k, urlDecode true v) := by
  simp only [parseQueryItem]
  rw [takeUntil_append_hit _ k '=' v hk (by decide)]
  rw [dropUntil_append_hit _ k '=' v hk (by decide)]
  rfl

theorem parseQueryItem_bare (k : Str) (hk : ∀ c ∈ k, decide (c = '=') = false) :
    parseQueryItem k = (urlDecode true k, []) := by
  simp only [parseQueryItem]
  rw [takeUntil_all_neg _ k hk, dropUntil_all_neg _ k hk]
  rfl

end LinkM
namespace LinkM

theorem urlDecode_noplus_eq_self (s : Str) (h : ∀ c ∈ s, decide (c = '%') = false) :
    urlDecode false s = s := by
  induction s with
  | nil => rfl
  | cons c rest ih =>
    have hc : c ≠ '%' := by
      have := h c (by simp)
      simpa using this
    by_cases hp : c = '+'
    · subst hp
      rw [show urlDecode false ('+' :: rest) = '+' :: urlDecode false rest from rfl]
      rw [ih (fun c hc' => h c (by simp [hc']))]
    · rw [urlDecode_cons_plain false c rest hc hp]
      rw [ih (fun c hc' => h c (by simp [hc']))]

theorem urlDecode_append (plus : Bool) (a b : Str) (ha : noEscape a = true) :
    urlDecode plus (a ++ b) = a ++ urlDecode plus b := by
  induction a with
  | nil => rfl
  | cons c rest ih =>
    simp only [noEscape, List.all_cons, Bool.and_eq_true, Bool.not_eq_true',
      decide_eq_false_iff_not] at ha
    rw [List.cons_append, urlDecode_cons_plain plus c _ ha.1.1 ha.1.2]
    rw [ih (by simp only [noEscape]; exact ha.2), List.cons_append]

theorem urlDecode_plus_cons (plus : Bool) (b : Str) :
    urlDecode plus ('+' :: b) = (if plus then ' ' else '+') :: urlDecode plus b := rfl

/-- Decoding a `+`-joined token list gives the space-joined list. -/
theorem urlDecode_joinSep (ts : List Str) (h : ∀ t ∈ ts, noEscape t = true) :
    urlDecode true (joinSep '+' ts) = joinSep ' ' ts := by
  induction ts with
  | nil => rfl
  | cons t ts ih =>
    cases ts with
    | nil => exact urlDecode_eq_self true t (h t (by simp))
    | cons t2 ts2 =>
      simp only [joinSep]
      rw [urlDecode_append true t _ (h t (by simp))]
      rw [urlDecode_plus_cons]
      simp only [if_true]
      rw [ih (fun t' ht' => h t' (by simp [List.mem_cons] at ht' ⊢; tauto))]

theorem splitOnChar_joinSep (d : Char) (ts : List Str) (hne : ts ≠ [])
    (h : ∀ t ∈ ts, d ∉ t) :
    splitOnChar d (joinSep d ts) = ts := by
  induction ts with
  | nil => exact absurd rfl hne
  | cons t ts ih =>
    cases ts with
    | nil => exact splitOnChar_not_mem d t (h t (by simp))
    | cons t2 ts2 =>
      simp only [joinSep]
      rw [splitOnChar_append d t _ (h t (by simp))]
      rw [ih (by simp) (fun t' ht' => h t' (by simp [List.mem_cons] at ht' ⊢; tauto))]

/-- Value of the base-10 big-endian digit rendering. -/
theorem digitCharFacts (r : Nat) (h : r < 10) :
    (Char.ofNat (48 + r)).toNat - 48 = r ∧ isDigitChar (Char.ofNat (48 + r)) = true := by
  interval_cases r <;> exact ⟨by decide, by decide⟩

theorem natToStrAux_spec : ∀ fuel n, n ≤ fuel →
    digitsToNat (natToStrAux fuel n) = n ∧ (natToStrAux fuel n).all isDigitChar = true := by
  intro fuel
  induction fuel with
  | zero =>
      intro n hn
      have : n = 0 := Nat.le_zero.mp hn
      subst this
      exact ⟨rfl, rfl⟩
  | succ f ih =>
      intro n hn
      by_cases h0 : n = 0
      · subst h0
        exact ⟨rfl, rfl⟩
      · have hlt : n / 10 < n := Nat.div_lt_self (Nat.pos_of_ne_zero h0) (by norm_num)
        have hdiv : n / 10 ≤ f := by omega
        obtain ⟨ih1, ih2⟩ := ih (n / 10) hdiv
        have hr : n % 10 < 10 := Nat.mod_lt _ (by norm_num)
        obtain ⟨hc1, hc2⟩ := digitCharFacts (n % 10) hr
        rw [natToStrAux, if_neg h0]
        constructor
        · have hsplit : digitsToNat (natToStrAux f (n / 10) ++ [Char.ofNat (48 + n % 10)]) =
              10 * digitsToNat (natToStrAux f (n / 10)) +
                ((Char.ofNat (48 + n % 10)).toNat - 48) := by
            simp [digitsToNat, List.foldl_append]
          rw [hsplit, ih1, hc1]
          omega
        · simp [List.all_append, ih2, hc2]

theorem digitsToNat_natToStr (n : Nat) : digitsToNat (natToStr n) = n :=
  (natToStrAux_spec n n le_rfl).1

theorem natToStr_all_digit (n : Nat) : (natToStr n).all isDigitChar = true :=
  (natToStrAux_spec n n le_rfl).2

theorem leadingNum_natToStr (n : Nat) : leadingNum (natToStr n) = n := by
  simp only [leadingNum]
  rw [List.takeWhile_eq_self_iff.mpr]
  · exact digitsToNat_natToStr n
  · intro c hc
    exact List.all_eq_true.mp (natToStr_all_digit n) c hc

end LinkM
namespace LinkM

theorem orRights_noRights_left (x : AdminRights) : orRights noRights x = x := by
  cases x
  simp [orRights, noRights]

theorem orRights_noRights_right (x : AdminRights) : orRights x noRights = x := by
  cases x
  simp [orRights, noRights]

theorem orRights_assoc (a b c : AdminRights) :
    orRights (orRights a b) c = orRights a (orRights b c) := by
  cases a; cases b; cases c
  simp [orRights, Bool.or_assoc]

theorem collectRights_append (a b : List Str) :
    collectRights (a ++ b) = orRights (collectRights a) (collectRights b) := by
  induction a with
  | nil => simp [collectRights, orRights_noRights_left]
  | cons t a ih =>
    simp only [List.cons_append, collectRights, List.foldr_cons] at *
    rw [ih, orRights_assoc]

theorem collect_if (b : Bool) (w : Str) :
    collectRights (if b then [w] else []) = if b then adminTokenRights w else noRights := by
  cases b <;> simp [collectRights, orRights_noRights_right]

theorem collect_groupTokens (mc ci pm em dm iu rm pin mt prm mv anon : Bool) :
    collectRights (groupRightsTokens ⟨mc, ci, pm, em, dm, iu, rm, pin, mt, prm, mv, anon⟩) =
      ⟨false, ci, false, false, dm, iu, rm, pin, mt, prm, mv, anon⟩ := by
  simp only [groupRightsTokens, collectRights_append, collect_if]
  simp [orRights, adminTokenRights, noRights, apply_ite]

theorem collect_channelTokens (mc ci pm em dm iu rm pin mt prm mv anon : Bool) :
    collectRights (channelRightsTokens ⟨mc, ci, pm, em, dm, iu, rm, pin, mt, prm, mv, anon⟩) =
      ⟨false, ci, pm, em, dm, iu, rm, false, false, prm, mv, false⟩ := by
  simp only [channelRightsTokens, collectRights_append, collect_if]
  simp [orRights, adminTokenRights, noRights, apply_ite]

end LinkM
namespace LinkM

theorem mem_if_single {b : Bool} {w t : Str} (h : t ∈ (if b then [w] else [])) : t = w := by
  cases b <;> simp_all

theorem groupTokens_subset (r : AdminRights) :
    ∀ t ∈ groupRightsTokens r, t ∈ ["change_info".data, "delete_messages".data,
      "invite_users".data, "restrict_members".data, "pin_messages".data,
      "manage_topics".data, "promote_members".data, "manage_video_chats".data,
      "anonymous".data] := by
  intro t ht
  simp only [groupRightsTokens, List.mem_append] at ht
  rcases ht with ((((((((h | h) | h) | h) | h) | h) | h) | h) | h) <;>
    simp [mem_if_single h]

theorem channelTokens_subset (r : AdminRights) :
    ∀ t ∈ channelRightsTokens r, t ∈ ["change_info".data, "post_messages".data,
      "edit_messages".data, "delete_messages".data, "invite_users".data,
      "restrict_members".data, "promote_members".data, "manage_video_chats".data] := by
  intro t ht
  simp only [channelRightsTokens, List.mem_append] at ht
  rcases ht with (((((((h | h) | h) | h) | h) | h) | h) | h) <;>
    simp [mem_if_single h]

theorem groupRights_parse (r : AdminRights) (h : isWfGroupRights r = true) :
    groupAdminRights (some (joinSep ' ' (groupRightsTokens r))) = some r := by
  obtain ⟨mc, ci, pm, em, dm, iu, rm, pin, mt, prm, mv, anon⟩ := r
  simp only [isWfGroupRights, hasAnyRight, Bool.and_eq_true, Bool.not_eq_true'] at h
  obtain ⟨⟨⟨hmc, hpm⟩, hem⟩, hany⟩ := h
  subst hmc hpm hem
  simp only [Bool.or_false, Bool.false_or] at hany
  have hsub := groupTokens_subset ⟨true, ci, false, false, dm, iu, rm, pin, mt, prm, mv, anon⟩
  have hne : groupRightsTokens ⟨true, ci, false, false, dm, iu, rm, pin, mt, prm, mv, anon⟩ ≠ [] := by
    simp only [Bool.or_eq_true] at hany
    rcases hany with ((((((((h | h) | h) | h) | h) | h) | h) | h) | h)
    · exact List.ne_nil_of_mem (a := "change_info".data) (by simp [groupRightsTokens, h])
    · exact List.ne_nil_of_mem (a := "delete_messages".data) (by simp [groupRightsTokens, h])
    · exact List.ne_nil_of_mem (a := "invite_users".data) (by simp [groupRightsTokens, h])
    · exact List.ne_nil_of_mem (a := "restrict_members".data) (by simp [groupRightsTokens, h])
    · exact List.ne_nil_of_mem (a := "pin_messages".data) (by simp [groupRightsTokens, h])
    · exact List.ne_nil_of_mem (a := "manage_topics".data) (by simp [groupRightsTokens, h])
    · exact List.ne_nil_of_mem (a := "promote_members".data) (by simp [groupRightsTokens, h])
    · exact List.ne_nil_of_mem (a := "manage_video_chats".data) (by simp [groupRightsTokens, h])
    · exact List.ne_nil_of_mem (a := "anonymous".data) (by simp [groupRightsTokens, h])
  simp only [groupAdminRights]
  rw [splitOnChar_joinSep ' ' _ hne ?hns]
  case hns =>
    intro t ht
    have := hsub t ht
    simp only [List.mem_cons, List.not_mem_nil, or_false] at this
    rcases this with rfl | rfl | rfl | rfl | rfl | rfl | rfl | rfl | rfl <;> decide
  rw [collect_groupTokens]
  simp only [hasAnyRight]
  simp only [Bool.or_false, Bool.false_or]
  rw [hany]
  rfl

theorem channelRights_parse (r : AdminRights) (h : isWfChannelRights r = true) :
    channelAdminRights (some (joinSep ' ' (channelRightsTokens r))) = some r := by
  obtain ⟨mc, ci, pm, em, dm, iu, rm, pin, mt, prm, mv, anon⟩ := r
  simp only [isWfChannelRights, Bool.and_eq_true, Bool.not_eq_true'] at h
  obtain ⟨⟨⟨⟨hmc, hrm⟩, hpin⟩, hmt⟩, hanon⟩ := h
  subst hmc hrm hpin hmt hanon
  have hsub := channelTokens_subset ⟨true, ci, pm, em, dm, iu, true, false, false, prm, mv, false⟩
  have hne : channelRightsTokens ⟨true, ci, pm, em, dm, iu, true, false, false, prm, mv, false⟩ ≠ [] :=
    List.ne_nil_of_mem (a := "restrict_members".data) (by simp [channelRightsTokens])
  simp only [channelAdminRights]
  rw [splitOnChar_joinSep ' ' _ hne ?hns]
  case hns =>
    intro t ht
    have := hsub t ht
    simp only [List.mem_cons, List.not_mem_nil, or_false] at this
    rcases this with rfl | rfl | rfl | rfl | rfl | rfl | rfl | rfl <;> decide
  rw [collect_channelTokens]
  simp [hasAnyRight]

theorem chooseTypes_parse (u b g ch : Bool) (h : (u || b || g || ch) = true) :
    parseChoose (some (joinSep ' ' (chooseTokens ⟨u, b, g, ch⟩))) = some ⟨u, b, g, ch⟩ := by
  cases u <;> cases b <;> cases g <;> cases ch <;> revert h <;> decide

theorem groupTokens_noEscape (r : AdminRights) :
    ∀ t ∈ groupRightsTokens r, noEscape t = true := by
  intro t ht
  have := groupTokens_subset r t ht
  simp only [List.mem_cons, List.not_mem_nil, or_false] at this
  rcases this with rfl | rfl | rfl | rfl | rfl | rfl | rfl | rfl | rfl <;> decide

theorem channelTokens_noEscape (r : AdminRights) :
    ∀ t ∈ channelRightsTokens r, noEscape t = true := by
  intro t ht
  have := channelTokens_subset r t ht
  simp only [List.mem_cons, List.not_mem_nil, or_false] at this
  rcases this with rfl | rfl | rfl | rfl | rfl | rfl | rfl | rfl <;> decide

theorem chooseTokens_subset (c : ChatTypes) :
    ∀ t ∈ chooseTokens c, t ∈ ["users".data, "bots".data, "groups".data, "channels".data] := by
  intro t ht
  simp only [chooseTokens, List.mem_append] at ht
  rcases ht with ((h | h) | h) | h <;> simp [mem_if_single h]

theorem chooseTokens_noEscape (c : ChatTypes) :
    ∀ t ∈ chooseTokens c, noEscape t = true := by
  intro t ht
  have := chooseTokens_subset c t ht
  simp only [List.mem_cons, List.not_mem_nil, or_false] at this
  rcases this with rfl | rfl | rfl | rfl <;> decide

end LinkM
namespace LinkM

theorem qv_facts {P : Char → Bool} {s : Str} (hs : s.all P = true) (h1 : P '#' = false)
    (h2 : P '&' = false) (h3 : P '%' = false) (h4 : P '+' = false) :
    (∀ c ∈ s, decide (c = '#') = false) ∧ '&' ∉ s ∧ urlDecode true s = s :=
  ⟨no_char_of_all hs h1, not_mem_of_no_char (no_char_of_all hs h2),
    urlDecode_eq_self _ _ (noEscape_of_all hs h3 h4)⟩

theorem word_noEscape {s : Str} (hs : s.all isWordChar = true) : noEscape s = true :=
  noEscape_of_all hs (by decide) (by decide)

theorem parseQuery_cons_kv (k v rest : Str) (hk : k.all isWordChar = true)
    (hva : '&' ∉ v) (hvd : urlDecode true v = v) :
    parseQuery ((k ++ '=' :: v) ++ '&' :: rest) = (k, v) :: parseQuery rest := by
  rw [parseQuery_cons_item _ _ ?noamp]
  case noamp =>
    intro hm
    rcases List.mem_append.mp hm with h | h
    · have := no_char_of_all hk (show isWordChar '&' = false by decide) '&' h
      simp at this
    · rcases List.mem_cons.mp h with h' | h'
      · cases h'
      · exact hva h'
  rw [parseQueryItem_keyval _ _ (no_char_of_all hk (by decide))]
  rw [urlDecode_eq_self _ _ (word_noEscape hk), hvd]

theorem parseQuery_last_kv (k v : Str) (hk : k.all isWordChar = true)
    (hva : '&' ∉ v) (hvd : urlDecode true v = v) :
    parseQuery (k ++ '=' :: v) = [(k, v)] := by
  rw [parseQuery_single_item _ ?noamp]
  case noamp =>
    intro hm
    rcases List.mem_append.mp hm with h | h
    · have := no_char_of_all hk (show isWordChar '&' = false by decide) '&' h
      simp at this
    · rcases List.mem_cons.mp h with h' | h'
      · cases h'
      · exact hva h'
  rw [parseQueryItem_keyval _ _ (no_char_of_all hk (by decide))]
  rw [urlDecode_eq_self _ _ (word_noEscape hk), hvd]

theorem parseQuery_cons_bare (k rest : Str) (hk : k.all isWordChar = true) :
    parseQuery (k ++ '&' :: rest) = (k, []) :: parseQuery rest := by
  rw [parseQuery_cons_item _ _ (not_mem_of_no_char (no_char_of_all hk (by decide)))]
  rw [parseQueryItem_bare _ (no_char_of_all hk (by decide))]
  rw [urlDecode_eq_self _ _ (word_noEscape hk)]

theorem parseQuery_last_bare (k : Str) (hk : k.all isWordChar = true) :
    parseQuery k = [(k, [])] := by
  rw [parseQuery_single_item _ (not_mem_of_no_char (no_char_of_all hk (by decide)))]
  rw [parseQueryItem_bare _ (no_char_of_all hk (by decide))]
  rw [urlDecode_eq_self _ _ (word_noEscape hk)]

/-- Base64url hash characters. -/
theorem inviteHash_chars {h : Str} (hh : isValidInviteHash h = true) :
    h.all isBase64UrlChar = true := by
  simp only [isValidInviteHash, Bool.and_eq_true] at hh
  exact hh.1.2

theorem folderSlug_chars {s : Str} (hs : isValidFolderSlug s = true) :
    s.all isBase64UrlChar = true := by
  simp only [isValidFolderSlug, Bool.and_eq_true] at hs
  exact hs.2

theorem phone_chars {p : Str} (hp : isValidPhone p = true) :
    p.all isDigitChar = true := by
  simp only [isValidPhone, Bool.and_eq_true] at hp
  exact hp.2

theorem shortName_chars {s : Str} (hs : isValidShortName s = true) :
    s.all isWordChar = true := by
  cases s with
  | nil => simp [isValidShortName] at hs
  | cons c rest =>
    simp only [isValidShortName, Bool.and_eq_true] at hs
    exact hs.2

end LinkM

open LinkM LinkM.LinkVariant in
theorem LinkM.rt_chatInvite_tg (h : Str) (hh : isValidInviteHash h = true) :
    classifyStr ("tg://join?invite=".data ++ h) = some (chatInvite h) := by
  obtain ⟨hq1, hq2, hq3⟩ := qv_facts (inviteHash_chars hh) (by decide) (by decide)
    (by decide) (by decide)
  rw [show "tg://join?invite=".data ++ h =
    "tg://".data ++ ("join".data ++ '?' :: ("invite".data ++ '=' :: h)) by
      simp only [List.append_assoc, List.cons_append]; rfl]
  rw [classifyStr_tg, parseTg_authq _ _ (by decide) (by decide)
    (forall_mem_append (by decide) (forall_mem_cons_c (by decide) hq1))]
  rw [parseQuery_last_kv _ _ (by decide) hq2 hq3]
  simp [parseTgAuthority, argD, getArg_cons_eq, hh]
namespace LinkM

theorem parseQuery_cons_kv' (k v rest : Str) (hk : k.all isWordChar = true)
    (hva : '&' ∉ v) :
    parseQuery ((k ++ '=' :: v) ++ '&' :: rest) = (k, urlDecode true v) :: parseQuery rest := by
  rw [parseQuery_cons_item _ _ ?noamp]
  case noamp =>
    intro hm
    rcases List.mem_append.mp hm with h | h
    · have := no_char_of_all hk (show isWordChar '&' = false by decide) '&' h
      simp at this
    · rcases List.mem_cons.mp h with h' | h'
      · cases h'
      · exact hva h'
  rw [parseQueryItem_keyval _ _ (no_char_of_all hk (by decide))]
  rw [urlDecode_eq_self _ _ (word_noEscape hk)]

theorem parseQuery_last_kv' (k v : Str) (hk : k.all isWordChar = true) (hva : '&' ∉ v) :
    parseQuery (k ++ '=' :: v) = [(k, urlDecode true v)] := by
  rw [parseQuery_single_item _ ?noamp]
  case noamp =>
    intro hm
    rcases List.mem_append.mp hm with h | h
    · have := no_char_of_all hk (show isWordChar '&' = false by decide) '&' h
      simp at this
    · rcases List.mem_cons.mp h with h' | h'
      · cases h'
      · exact hva h'
  rw [parseQueryItem_keyval _ _ (no_char_of_all hk (by decide))]
  rw [urlDecode_eq_self _ _ (word_noEscape hk)]

theorem joinSep_chars {P : Char → Bool} {ts : List Str} (sep : Char)
    (hts : ∀ t ∈ ts, t.all P = true) (hsep : P sep = true) :
    (joinSep sep ts).all P = true := by
  induction ts with
  | nil => rfl
  | cons t ts ih =>
    cases ts with
    | nil => exact hts t (by simp)
    | cons t2 ts2 =>
      simp only [joinSep, List.all_append, List.all_cons, Bool.and_eq_true]
      refine ⟨List.all_eq_true.mpr (fun c hc => List.all_eq_true.mp (hts t (by simp)) c hc),
        hsep, ?_⟩
      have := ih (fun t' ht' => hts t' (by simp [List.mem_cons] at ht' ⊢; tauto))
      simpa [joinSep] using this

/-- HTTP dispatch for a canonical `https://t.me/<path>?<query>` link. -/
theorem parseHttp_tme_pathq (path qs : Str)
    (hpath : ∀ c ∈ path, (decide (c = '#') || decide (c = '?')) = false)
    (hqs : ∀ c ∈ qs, decide (c = '#') = false) :
    parseHttp ("t.me/".data ++ (path ++ '?' :: qs)) =
      parseHttpPath ((splitOnChar '/' path).map (urlDecode false)) (parseQuery qs) := by
  have hAll : ∀ c ∈ "t.me/".data ++ (path ++ '?' :: qs), decide (c = '#') = false := by
    refine forall_mem_append (by decide) (forall_mem_append ?_ ?_)
    · intro c hc
      have := hpath c hc
      simp only [Bool.or_eq_false_iff] at this
      exact this.1
    · exact forall_mem_cons_c (by decide) hqs
  simp only [parseHttp]
  rw [show stripFragment ("t.me/".data ++ (path ++ '?' :: qs)) =
    "t.me/".data ++ (path ++ '?' :: qs) from takeUntil_all_neg _ _ hAll]
  rw [show ("t.me/".data ++ (path ++ '?' :: qs)) =
    ("t.me".data ++ '/' :: (path ++ '?' :: qs)) by simp]
  rw [takeUntil_append_hit _ "t.me".data '/' _ (by decide) (by decide)]
  rw [dropUntil_append_hit _ "t.me".data '/' _ (by decide) (by decide)]
  rw [show takeUntil (fun c => decide (c = ':')) "t.me".data = "t.me".data from by decide]
  rw [show dropUntil (fun c => decide (c = ':')) "t.me".data = [] from by decide]
  rw [show hostInfo "t.me".data = some none from by decide]
  simp only [Bool.not_true, Bool.false_eq_true, if_false]
  rw [show takeUntil (fun c => decide (c = '?')) (path ++ '?' :: qs) = path from
    takeUntil_append_hit _ path '?' qs
      (fun c hc => by have := hpath c hc; simp only [Bool.or_eq_false_iff] at this; exact this.2)
      (by decide)]
  rw [show dropUntil (fun c => decide (c = '?')) ('/' :: (path ++ '?' :: qs)) =
      '?' :: qs from by
    rw [show ('/' :: (path ++ '?' :: qs)) = ('/' :: path) ++ '?' :: qs by simp]
    exact dropUntil_append_hit _ ('/' :: path) '?' qs
      (forall_mem_cons_c (by decide)
        (fun c hc => by have := hpath c hc; simp only [Bool.or_eq_false_iff] at this; exact this.2))
      (by decide)]
  rfl

/-- HTTP dispatch for a canonical `https://t.me/<path>` link without query. -/
theorem parseHttp_tme_path (path : Str)
    (hpath : ∀ c ∈ path, (decide (c = '#') || decide (c = '?')) = false) :
    parseHttp ("t.me/".data ++ path) =
      parseHttpPath ((splitOnChar '/' path).map (urlDecode false)) (parseQuery []) := by
  have hAll : ∀ c ∈ "t.me/".data ++ path, decide (c = '#') = false := by
    refine forall_mem_append (by decide) ?_
    intro c hc
    have := hpath c hc
    simp only [Bool.or_eq_false_iff] at this
    exact this.1
  simp only [parseHttp]
  rw [show stripFragment ("t.me/".data ++ path) = "t.me/".data ++ path from
    takeUntil_all_neg _ _ hAll]
  rw [show ("t.me/".data ++ path) = ("t.me".data ++ '/' :: path) by simp]
  rw [takeUntil_append_hit _ "t.me".data '/' _ (by decide) (by decide)]
  rw [dropUntil_append_hit _ "t.me".data '/' _ (by decide) (by decide)]
  rw [show takeUntil (fun c => decide (c = ':')) "t.me".data = "t.me".data from by decide]
  rw [show dropUntil (fun c => decide (c = ':')) "t.me".data = [] from by decide]
  rw [show hostInfo "t.me".data = some none from by decide]
  simp only [Bool.not_true, Bool.false_eq_true, if_false]
  rw [show takeUntil (fun c => decide (c = '?')) path = path from
    takeUntil_all_neg _ _
      (fun c hc => by have := hpath c hc; simp only [Bool.or_eq_false_iff] at this; exact this.2)]
  rw [show dropUntil (fun c => decide (c = '?')) ('/' :: path) = [] from
    dropUntil_all_neg _ _
      (forall_mem_cons_c (by decide)
        (fun c hc => by have := hpath c hc; simp only [Bool.or_eq_false_iff] at this; exact this.2))]
  rfl

end LinkM
namespace LinkM

theorem plainNE_parts {s : Str} (h : isPlainNonempty s = true) :
    s.isEmpty = false ∧ s.all isPlainChar = true := by
  simp only [isPlainNonempty, Bool.and_eq_true, Bool.not_eq_true'] at h
  exact ⟨h.1, h.2⟩

end LinkM

open LinkM LinkM.LinkVariant in
theorem LinkM.rt_folder_tg (s : Str) (hv : isValidFolderSlug s = true) :
    classifyStr ("tg://list?slug=".data ++ s) = some (chatFolderInvite s) := by
  obtain ⟨hq1, hq2, hq3⟩ := qv_facts (folderSlug_chars hv) (by decide) (by decide)
    (by decide) (by decide)
  rw [show "tg://list?slug=".data ++ s =
    "tg://".data ++ ("list".data ++ '?' :: ("slug".data ++ '=' :: s)) by
      simp only [List.append_assoc, List.cons_append]; rfl]
  rw [classifyStr_tg, parseTg_authq _ _ (by decide) (by decide)
    (forall_mem_append (by decide) (forall_mem_cons_c (by decide) hq1))]
  rw [parseQuery_last_kv _ _ (by decide) hq2 hq3]
  simp [parseTgAuthority, argD, getArg_cons_eq, hv]

open LinkM LinkM.LinkVariant in
theorem LinkM.rt_stickerSet_tg (n : Str) (hv : isPlainNonempty n = true) :
    classifyStr ("tg://addstickers?set=".data ++ n) = some (stickerSet n false) := by
  obtain ⟨hq1, hq2, hq3⟩ := qv_facts ((plainNE_parts hv).2) (by decide) (by decide)
    (by decide) (by decide)
  rw [show "tg://addstickers?set=".data ++ n =
    "tg://".data ++ ("addstickers".data ++ '?' :: ("set".data ++ '=' :: n)) by
      simp only [List.append_assoc, List.cons_append]; rfl]
  rw [classifyStr_tg, parseTg_authq _ _ (by decide) (by decide)
    (forall_mem_append (by decide) (forall_mem_cons_c (by decide) hq1))]
  rw [parseQuery_last_kv _ _ (by decide) hq2 hq3]
  simp [parseTgAuthority, argD, getArg_cons_eq, (plainNE_parts hv).1]

open LinkM LinkM.LinkVariant in
theorem LinkM.rt_emojiSet_tg (n : Str) (hv : isPlainNonempty n = true) :
    classifyStr ("tg://addemoji?set=".data ++ n) = some (stickerSet n true) := by
  obtain ⟨hq1, hq2, hq3⟩ := qv_facts ((plainNE_parts hv).2) (by decide) (by decide)
    (by decide) (by decide)
  rw [show "tg://addemoji?set=".data ++ n =
    "tg://".data ++ ("addemoji".data ++ '?' :: ("set".data ++ '=' :: n)) by
      simp only [List.append_assoc, List.cons_append]; rfl]
  rw [classifyStr_tg, parseTg_authq _ _ (by decide) (by decide)
    (forall_mem_append (by decide) (forall_mem_cons_c (by decide) hq1))]
  rw [parseQuery_last_kv _ _ (by decide) hq2 hq3]
  simp [parseTgAuthority, argD, getArg_cons_eq, (plainNE_parts hv).1]

open LinkM LinkM.LinkVariant in
theorem LinkM.rt_theme_tg (n : Str) (hv : isPlainNonempty n = true) :
    classifyStr ("tg://addtheme?slug=".data ++ n) = some (themeLink n) := by
  obtain ⟨hq1, hq2, hq3⟩ := qv_facts ((plainNE_parts hv).2) (by decide) (by decide)
    (by decide) (by decide)
  rw [show "tg://addtheme?slug=".data ++ n =
    "tg://".data ++ ("addtheme".data ++ '?' :: ("slug".data ++ '=' :: n)) by
      simp only [List.append_assoc, List.cons_append]; rfl]
  rw [classifyStr_tg, parseTg_authq _ _ (by decide) (by decide)
    (forall_mem_append (by decide) (forall_mem_cons_c (by decide) hq1))]
  rw [parseQuery_last_kv _ _ (by decide) hq2 hq3]
  simp [parseTgAuthority, argD, getArg_cons_eq, (plainNE_parts hv).1]

open LinkM LinkM.LinkVariant in
theorem LinkM.rt_language_tg (n : Str) (hv : isPlainNonempty n = true) :
    classifyStr ("tg://setlanguage?lang=".data ++ n) = some (languagePack n) := by
  obtain ⟨hq1, hq2, hq3⟩ := qv_facts ((plainNE_parts hv).2) (by decide) (by decide)
    (by decide) (by decide)
  rw [show "tg://setlanguage?lang=".data ++ n =
    "tg://".data ++ ("setlanguage".data ++ '?' :: ("lang".data ++ '=' :: n)) by
      simp only [List.append_assoc, List.cons_append]; rfl]
  rw [classifyStr_tg, parseTg_authq _ _ (by decide) (by decide)
    (forall_mem_append (by decide) (forall_mem_cons_c (by decide) hq1))]
  rw [parseQuery_last_kv _ _ (by decide) hq2 hq3]
  simp [parseTgAuthority, argD, getArg_cons_eq, (plainNE_parts hv).1]

open LinkM LinkM.LinkVariant in
theorem LinkM.rt_authCode_tg (c : Str) (hv : isPlainNonempty c = true) :
    classifyStr ("tg://login?code=".data ++ c) = some (authenticationCode c) := by
  obtain ⟨hq1, hq2, hq3⟩ := qv_facts ((plainNE_parts hv).2) (by decide) (by decide)
    (by decide) (by decide)
  rw [show "tg://login?code=".data ++ c =
    "tg://".data ++ ("login".data ++ '?' :: ("code".data ++ '=' :: c)) by
      simp only [List.append_assoc, List.cons_append]; rfl]
  rw [classifyStr_tg, parseTg_authq _ _ (by decide) (by decide)
    (forall_mem_append (by decide) (forall_mem_cons_c (by decide) hq1))]
  rw [parseQuery_last_kv _ _ (by decide) hq2 hq3]
  simp [parseTgAuthority, argD, getArg_cons_eq, (plainNE_parts hv).1]

open LinkM LinkM.LinkVariant in
theorem LinkM.rt_invoice_tg (n : Str) (hv : isPlainNonempty n = true) :
    classifyStr ("tg://invoice?slug=".data ++ n) = some (invoiceLink n) := by
  obtain ⟨hq1, hq2, hq3⟩ := qv_facts ((plainNE_parts hv).2) (by decide) (by decide)
    (by decide) (by decide)
  rw [show "tg://invoice?slug=".data ++ n =
    "tg://".data ++ ("invoice".data ++ '?' :: ("slug".data ++ '=' :: n)) by
      simp only [List.append_assoc, List.cons_append]; rfl]
  rw [classifyStr_tg, parseTg_authq _ _ (by decide) (by decide)
    (forall_mem_append (by decide) (forall_mem_cons_c (by decide) hq1))]
  rw [parseQuery_last_kv _ _ (by decide) hq2 hq3]
  simp [parseTgAuthority, argD, getArg_cons_eq, (plainNE_parts hv).1]

open LinkM LinkM.LinkVariant in
theorem LinkM.rt_premium_tg (r : Str) (hv : isPlainStr r = true) :
    classifyStr ("tg://premium_offer?ref=".data ++ r) = some (premiumFeatures r) := by
  obtain ⟨hq1, hq2, hq3⟩ := qv_facts (hv) (by decide) (by decide)
    (by decide) (by decide)
  rw [show "tg://premium_offer?ref=".data ++ r =
    "tg://".data ++ ("premium_offer".data ++ '?' :: ("ref".data ++ '=' :: r)) by
      simp only [List.append_assoc, List.cons_append]; rfl]
  rw [classifyStr_tg, parseTg_authq _ _ (by decide) (by decide)
    (forall_mem_append (by decide) (forall_mem_cons_c (by decide) hq1))]
  rw [parseQuery_last_kv _ _ (by decide) hq2 hq3]
  simp [parseTgAuthority, argD, getArg_cons_eq, hv]

open LinkM LinkM.LinkVariant in
theorem LinkM.rt_userToken_tg (t : Str) (hv : isPlainNonempty t = true) :
    classifyStr ("tg://contact?token=".data ++ t) = some (userToken t) := by
  obtain ⟨hq1, hq2, hq3⟩ := qv_facts ((plainNE_parts hv).2) (by decide) (by decide)
    (by decide) (by decide)
  rw [show "tg://contact?token=".data ++ t =
    "tg://".data ++ ("contact".data ++ '?' :: ("token".data ++ '=' :: t)) by
      simp only [List.append_assoc, List.cons_append]; rfl]
  rw [classifyStr_tg, parseTg_authq _ _ (by decide) (by decide)
    (forall_mem_append (by decide) (forall_mem_cons_c (by decide) hq1))]
  rw [parseQuery_last_kv _ _ (by decide) hq2 hq3]
  simp [parseTgAuthority, argD, getArg_cons_eq, (plainNE_parts hv).1]

open LinkM LinkM.LinkVariant in
theorem LinkM.rt_userPhone_tg (p : Str) (hv : isValidPhone p = true) :
    classifyStr ("tg://resolve?phone=".data ++ p) = some (userPhoneNumber p) := by
  obtain ⟨hq1, hq2, hq3⟩ := qv_facts (phone_chars hv) (by decide) (by decide)
    (by decide) (by decide)
  rw [show "tg://resolve?phone=".data ++ p =
    "tg://".data ++ ("resolve".data ++ '?' :: ("phone".data ++ '=' :: p)) by
      simp only [List.append_assoc, List.cons_append]; rfl]
  rw [classifyStr_tg, parseTg_authq _ _ (by decide) (by decide)
    (forall_mem_append (by decide) (forall_mem_cons_c (by decide) hq1))]
  rw [parseQuery_last_kv _ _ (by decide) hq2 hq3]
  simp [parseTgAuthority, argD, getArg_cons_eq, hv, resolvePhone, resolveUser, parseResolve, getArg_cons_ne, getArg_nil, hasArg]

open LinkM LinkM.LinkVariant in
theorem LinkM.rt_folder_http (s : Str) (hv : isValidFolderSlug s = true) :
    classifyStr ("https://t.me/list/".data ++ s) = some (chatFolderInvite s) := by
  have hch : s.all isBase64UrlChar = true := folderSlug_chars hv
  have hW : ∀ d : Char, isBase64UrlChar d = false → ∀ c ∈ s, decide (c = d) = false :=
    fun d hd => no_char_of_all hch hd
  rw [show "https://t.me/list/".data ++ s =
    "https://".data ++ ("t.me/".data ++ ("list".data ++ '/' :: s)) by
      simp only [List.append_assoc, List.cons_append]; rfl]
  rw [classifyStr_https, parseHttp_tme_path _
    (forall_mem_append (by decide) (forall_mem_cons_c (by decide)
      (fun c hc => orb_false (hW '#' (by decide) c hc) (hW '?' (by decide) c hc))))]
  rw [splitOnChar_append '/' "list".data s (by decide)]
  rw [splitOnChar_not_mem '/' s (not_mem_of_no_char (hW '/' (by decide)))]
  simp only [List.map]
  rw [urlDecode_noplus_eq_self s (hW '%' (by decide))]
  rw [show urlDecode false "list".data = "list".data from by decide]
  simp [parseHttpPath, argD, getArg_cons_eq, hv]

open LinkM LinkM.LinkVariant in
theorem LinkM.rt_authCode_http (c0 : Str) (hv : isPlainNonempty c0 = true) :
    classifyStr ("https://t.me/login/".data ++ c0) = some (authenticationCode c0) := by
  have hch : c0.all isPlainChar = true := (plainNE_parts hv).2
  have hW : ∀ d : Char, isPlainChar d = false → ∀ ch ∈ c0, decide (ch = d) = false :=
    fun d hd => no_char_of_all hch hd
  rw [show "https://t.me/login/".data ++ c0 =
    "https://".data ++ ("t.me/".data ++ ("login".data ++ '/' :: c0)) by
      simp only [List.append_assoc, List.cons_append]; rfl]
  rw [classifyStr_https, parseHttp_tme_path _
    (forall_mem_append (by decide) (forall_mem_cons_c (by decide)
      (fun c0 hc => orb_false (hW '#' (by decide) c0 hc) (hW '?' (by decide) c0 hc))))]
  rw [splitOnChar_append '/' "login".data c0 (by decide)]
  rw [splitOnChar_not_mem '/' c0 (not_mem_of_no_char (hW '/' (by decide)))]
  simp only [List.map]
  rw [urlDecode_noplus_eq_self c0 (hW '%' (by decide))]
  rw [show urlDecode false "login".data = "login".data from by decide]
  simp [parseHttpPath, argD, getArg_cons_eq, (plainNE_parts hv).1]

open LinkM LinkM.LinkVariant in
theorem LinkM.rt_userToken_http (t : Str) (hv : isPlainNonempty t = true) :
    classifyStr ("https://t.me/contact/".data ++ t) = some (userToken t) := by
  have hch : t.all isPlainChar = true := (plainNE_parts hv).2
  have hW : ∀ d : Char, isPlainChar d = false → ∀ c ∈ t, decide (c = d) = false :=
    fun d hd => no_char_of_all hch hd
  rw [show "https://t.me/contact/".data ++ t =
    "https://".data ++ ("t.me/".data ++ ("contact".data ++ '/' :: t)) by
      simp only [List.append_assoc, List.cons_append]; rfl]
  rw [classifyStr_https, parseHttp_tme_path _
    (forall_mem_append (by decide) (forall_mem_cons_c (by decide)
      (fun c hc => orb_false (hW '#' (by decide) c hc) (hW '?' (by decide) c hc))))]
  rw [splitOnChar_append '/' "contact".data t (by decide)]
  rw [splitOnChar_not_mem '/' t (not_mem_of_no_char (hW '/' (by decide)))]
  simp only [List.map]
  rw [urlDecode_noplus_eq_self t (hW '%' (by decide))]
  rw [show urlDecode false "contact".data = "contact".data from by decide]
  simp [parseHttpPath, argD, getArg_cons_eq, (plainNE_parts hv).1]

open LinkM LinkM.LinkVariant in
theorem LinkM.rt_stickerSet_http (n : Str) (hv : isPlainNonempty n = true) :
    classifyStr ("https://t.me/addstickers/".data ++ n) = some (stickerSet n false) := by
  have hch : n.all isPlainChar = true := (plainNE_parts hv).2
  have hW : ∀ d : Char, isPlainChar d = false → ∀ c ∈ n, decide (c = d) = false :=
    fun d hd => no_char_of_all hch hd
  rw [show "https://t.me/addstickers/".data ++ n =
    "https://".data ++ ("t.me/".data ++ ("addstickers".data ++ '/' :: n)) by
      simp only [List.append_assoc, List.cons_append]; rfl]
  rw [classifyStr_https, parseHttp_tme_path _
    (forall_mem_append (by decide) (forall_mem_cons_c (by decide)
      (fun c hc => orb_false (hW '#' (by decide) c hc) (hW '?' (by decide) c hc))))]
  rw [splitOnChar_append '/' "addstickers".data n (by decide)]
  rw [splitOnChar_not_mem '/' n (not_mem_of_no_char (hW '/' (by decide)))]
  simp only [List.map]
  rw [urlDecode_noplus_eq_self n (hW '%' (by decide))]
  rw [show urlDecode false "addstickers".data = "addstickers".data from by decide]
  simp [parseHttpPath, argD, getArg_cons_eq, (plainNE_parts hv).1]

open LinkM LinkM.LinkVariant in
theorem LinkM.rt_emojiSet_http (n : Str) (hv : isPlainNonempty n = true) :
    classifyStr ("https://t.me/addemoji/".data ++ n) = some (stickerSet n true) := by
  have hch : n.all isPlainChar = true := (plainNE_parts hv).2
  have hW : ∀ d : Char, isPlainChar d = false → ∀ c ∈ n, decide (c = d) = false :=
    fun d hd => no_char_of_all hch hd
  rw [show "https://t.me/addemoji/".data ++ n =
    "https://".data ++ ("t.me/".data ++ ("addemoji".data ++ '/' :: n)) by
      simp only [List.append_assoc, List.cons_append]; rfl]
  rw [classifyStr_https, parseHttp_tme_path _
    (forall_mem_append (by decide) (forall_mem_cons_c (by decide)
      (fun c hc => orb_false (hW '#' (by decide) c hc) (hW '?' (by decide) c hc))))]
  rw [splitOnChar_append '/' "addemoji".data n (by decide)]
  rw [splitOnChar_not_mem '/' n (not_mem_of_no_char (hW '/' (by decide)))]
  simp only [List.map]
  rw [urlDecode_noplus_eq_self n (hW '%' (by decide))]
  rw [show urlDecode false "addemoji".data = "addemoji".data from by decide]
  simp [parseHttpPath, argD, getArg_cons_eq, (plainNE_parts hv).1]

open LinkM LinkM.LinkVariant in
theorem LinkM.rt_theme_http (n : Str) (hv : isPlainNonempty n = true) :
    classifyStr ("https://t.me/addtheme/".data ++ n) = some (themeLink n) := by
  have hch : n.all isPlainChar = true := (plainNE_parts hv).2
  have hW : ∀ d : Char, isPlainChar d = false → ∀ c ∈ n, decide (c = d) = false :=
    fun d hd => no_char_of_all hch hd
  rw [show "https://t.me/addtheme/".data ++ n =
    "https://".data ++ ("t.me/".data ++ ("addtheme".data ++ '/' :: n)) by
      simp only [List.append_assoc, List.cons_append]; rfl]
  rw [classifyStr_https, parseHttp_tme_path _
    (forall_mem_append (by decide) (forall_mem_cons_c (by decide)
      (fun c hc => orb_false (hW '#' (by decide) c hc) (hW '?' (by decide) c hc))))]
  rw [splitOnChar_append '/' "addtheme".data n (by decide)]
  rw [splitOnChar_not_mem '/' n (not_mem_of_no_char (hW '/' (by decide)))]
  simp only [List.map]
  rw [urlDecode_noplus_eq_self n (hW '%' (by decide))]
  rw [show urlDecode false "addtheme".data = "addtheme".data from by decide]
  simp [parseHttpPath, argD, getArg_cons_eq, (plainNE_parts hv).1]

open LinkM LinkM.LinkVariant in
theorem LinkM.rt_language_http (n : Str) (hv : isPlainNonempty n = true) :
    classifyStr ("https://t.me/setlanguage/".data ++ n) = some (languagePack n) := by
  have hch : n.all isPlainChar = true := (plainNE_parts hv).2
  have hW : ∀ d : Char, isPlainChar d = false → ∀ c ∈ n, decide (c = d) = false :=
    fun d hd => no_char_of_all hch hd
  rw [show "https://t.me/setlanguage/".data ++ n =
    "https://".data ++ ("t.me/".data ++ ("setlanguage".data ++ '/' :: n)) by
      simp only [List.append_assoc, List.cons_append]; rfl]
  rw [classifyStr_https, parseHttp_tme_path _
    (forall_mem_append (by decide) (forall_mem_cons_c (by decide)
      (fun c hc => orb_false (hW '#' (by decide) c hc) (hW '?' (by decide) c hc))))]
  rw [splitOnChar_append '/' "setlanguage".data n (by decide)]
  rw [splitOnChar_not_mem '/' n (not_mem_of_no_char (hW '/' (by decide)))]
  simp only [List.map]
  rw [urlDecode_noplus_eq_self n (hW '%' (by decide))]
  rw [show urlDecode false "setlanguage".data = "setlanguage".data from by decide]
  simp [parseHttpPath, argD, getArg_cons_eq, (plainNE_parts hv).1]
namespace LinkM

open LinkVariant in
/-- The HTTP dispatch falls through to username-based resolution when the
first segment is a valid username not equal to a reserved keyword. -/
theorem parseHttpPath_username (u : Str) (rest : List Str) (q : Query)
    (hu : isValidUsername u = true) (hnr : reservedHttpWords.contains u = false) :
    parseHttpPath (u :: rest) q =
      (let n1 := leadingNum (rest.headD [])
       let post :=
         if n1 ≠ 0 then
           let n2 := leadingNum (rest.tail.headD [])
           if n2 ≠ 0 then some (n2, some n1) else some (n1, none)
         else none
       let v := resolveUser u post q
       match v, post with
       | .publicChat _, none =>
           match rest.filter (fun s => !s.isEmpty) with
           | [app] =>
               if isValidShortName app then
                 some (.webApp u app (argD q "startapp".data))
               else some v
           | _ => some v
       | _, _ => some v) := by
  have hmem : u ∉ reservedHttpWords := by
    intro hm
    rw [show reservedHttpWords.contains u = true from List.elem_eq_true_of_mem hm] at hnr
    cases hnr
  have r01 : ¬(u = "joinchat".data) := fun he => hmem (by rw [he]; decide)
  have r02 : ¬(u = "list".data) := fun he => hmem (by rw [he]; decide)
  have r03 : ¬(u = "login".data) := fun he => hmem (by rw [he]; decide)
  have r04 : ¬(u = "contact".data) := fun he => hmem (by rw [he]; decide)
  have r05 : ¬(u = "addstickers".data) := fun he => hmem (by rw [he]; decide)
  have r06 : ¬(u = "addemoji".data) := fun he => hmem (by rw [he]; decide)
  have r07 : ¬(u = "addtheme".data) := fun he => hmem (by rw [he]; decide)
  have r08 : ¬(u = "setlanguage".data) := fun he => hmem (by rw [he]; decide)
  have r09 : ¬(u = "confirmphone".data) := fun he => hmem (by rw [he]; decide)
  have r10 : ¬(u = "socks".data) := fun he => hmem (by rw [he]; decide)
  have r11 : ¬(u = "proxy".data) := fun he => hmem (by rw [he]; decide)
  have r12 : ¬(u = "invoice".data) := fun he => hmem (by rw [he]; decide)
  have r13 : ¬(u = "iv".data) := fun he => hmem (by rw [he]; decide)
  have r14 : ¬(u = "bg".data) := fun he => hmem (by rw [he]; decide)
  have r15 : ¬(u = "share".data) := fun he => hmem (by rw [he]; decide)
  have r16 : ¬(u = "msg".data) := fun he => hmem (by rw [he]; decide)
  have r17 : ¬(u = "c".data) := fun he => hmem (by rw [he]; decide)
  have r18 : ¬(u = "s".data) := fun he => hmem (by rw [he]; decide)
  obtain ⟨cu, u', rfl⟩ : ∃ cu u', u = cu :: u' := by
    cases u with
    | nil => simp [isValidUsername] at hu
    | cons a b => exact ⟨a, b, rfl⟩
  have halpha : isAlphaChar cu = true := by
    simp only [isValidUsername, Bool.and_eq_true] at hu
    exact hu.1.1.1.1
  have hplus : ¬((cu :: u').head? = some '+') := by
    simp only [List.head?_cons, Option.some.injEq]
    intro he
    rw [he] at halpha
    simp [isAlphaChar] at halpha
  have hspace : ¬((cu :: u').head? = some ' ') := by
    simp only [List.head?_cons, Option.some.injEq]
    intro he
    rw [he] at halpha
    simp [isAlphaChar] at halpha
  have hdollar : ¬((cu :: u').head? = some '$') := by
    simp only [List.head?_cons, Option.some.injEq]
    intro he
    rw [he] at halpha
    simp [isAlphaChar] at halpha
  simp only [parseHttpPath, r01, r02, r03, r04, r05, r06, r07, r08, r09, r10, r11, r12,
    r13, r14, r15, r16, r17, r18, hplus, hspace, hdollar, hu, if_false, if_true,
    Bool.or_self, Bool.false_eq_true]
  rfl

end LinkM

open LinkM LinkM.LinkVariant in
theorem LinkM.rt_botStart_tg (u p : Str) (hu : isValidUsername u = true)
    (hres : u ≠ "telegrampassport".data) (hp : isPlainStr p = true) :
    classifyStr ("tg://resolve?domain=".data ++ u ++ "&start=".data ++ p) =
      some (botStart u p) := by
  obtain ⟨hu1, hu2, hu3⟩ := qv_facts (username_chars hu) (by decide) (by decide)
    (by decide) (by decide)
  obtain ⟨hv1, hv2, hv3⟩ := qv_facts (hp) (by decide) (by decide)
    (by decide) (by decide)
  rw [show "tg://resolve?domain=".data ++ u ++ "&start=".data ++ p =
    "tg://".data ++ ("resolve".data ++ '?' ::
      (("domain".data ++ '=' :: u) ++ '&' :: ("start".data ++ '=' :: p))) by
      simp only [List.append_assoc, List.cons_append]; rfl]
  rw [classifyStr_tg, parseTg_authq _ _ (by decide) (by decide)
    (forall_mem_append
      (forall_mem_append (by decide) (forall_mem_cons_c (by decide) hu1))
      (forall_mem_cons_c (by decide)
        (forall_mem_append (by decide) (forall_mem_cons_c (by decide) hv1))))]
  rw [parseQuery_cons_kv _ _ _ (by decide) hu2 hu3]
  rw [parseQuery_last_kv _ _ (by decide) hv2 hv3]
  simp [parseTgAuthority, parseResolve, hres, hu, resolveUser, argD, hasArg,
    getArg_cons_eq, getArg_cons_ne, getArg_nil]

open LinkM LinkM.LinkVariant in
theorem LinkM.rt_botStart_http (u p : Str) (hu : isValidUsername u = true)
    (hnr : reservedHttpWords.contains u = false) (hp : isPlainStr p = true) :
    classifyStr ("https://t.me/".data ++ u ++ "?start=".data ++ p) =
      some (botStart u p) := by
  have hWu : ∀ d : Char, isWordChar d = false → ∀ c ∈ u, decide (c = d) = false :=
    fun d hd => no_char_of_all (username_chars hu) hd
  obtain ⟨hv1, hv2, hv3⟩ := qv_facts (hp) (by decide) (by decide)
    (by decide) (by decide)
  rw [show "https://t.me/".data ++ u ++ "?start=".data ++ p =
    "https://".data ++ ("t.me/".data ++ (u ++ '?' :: ("start".data ++ '=' :: p))) by
      simp only [List.append_assoc, List.cons_append]; rfl]
  rw [classifyStr_https, parseHttp_tme_pathq u _
    (fun c hc => orb_false (hWu '#' (by decide) c hc) (hWu '?' (by decide) c hc))
    (forall_mem_append (by decide) (forall_mem_cons_c (by decide) hv1))]
  rw [splitOnChar_not_mem '/' u (not_mem_of_no_char (hWu '/' (by decide)))]
  simp only [List.map]
  rw [urlDecode_noplus_eq_self u (hWu '%' (by decide))]
  rw [parseQuery_last_kv _ _ (by decide) hv2 hv3]
  rw [parseHttpPath_username u [] _ hu hnr]
  simp [resolveUser, argD, hasArg, getArg_cons_eq, getArg_cons_ne, getArg_nil,
    show leadingNum ([] : Str) = 0 from rfl]

open LinkM LinkM.LinkVariant in
theorem LinkM.rt_videoChat_tg (u h : Str) (hu : isValidUsername u = true)
    (hres : u ≠ "telegrampassport".data) (hh : isPlainStr h = true) :
    classifyStr ("tg://resolve?domain=".data ++ u ++ "&videochat=".data ++ h) =
      some (videoChat u h false) := by
  obtain ⟨hu1, hu2, hu3⟩ := qv_facts (username_chars hu) (by decide) (by decide)
    (by decide) (by decide)
  obtain ⟨hv1, hv2, hv3⟩ := qv_facts (hh) (by decide) (by decide)
    (by decide) (by decide)
  rw [show "tg://resolve?domain=".data ++ u ++ "&videochat=".data ++ h =
    "tg://".data ++ ("resolve".data ++ '?' ::
      (("domain".data ++ '=' :: u) ++ '&' :: ("videochat".data ++ '=' :: h))) by
      simp only [List.append_assoc, List.cons_append]; rfl]
  rw [classifyStr_tg, parseTg_authq _ _ (by decide) (by decide)
    (forall_mem_append
      (forall_mem_append (by decide) (forall_mem_cons_c (by decide) hu1))
      (forall_mem_cons_c (by decide)
        (forall_mem_append (by decide) (forall_mem_cons_c (by decide) hv1))))]
  rw [parseQuery_cons_kv _ _ _ (by decide) hu2 hu3]
  rw [parseQuery_last_kv _ _ (by decide) hv2 hv3]
  simp [parseTgAuthority, parseResolve, hres, hu, resolveUser, argD, hasArg,
    getArg_cons_eq, getArg_cons_ne, getArg_nil]

open LinkM LinkM.LinkVariant in
theorem LinkM.rt_liveStream_tg (u h : Str) (hu : isValidUsername u = true)
    (hres : u ≠ "telegrampassport".data) (hh : isPlainStr h = true) :
    classifyStr ("tg://resolve?domain=".data ++ u ++ "&livestream=".data ++ h) =
      some (videoChat u h true) := by
  obtain ⟨hu1, hu2, hu3⟩ := qv_facts (username_chars hu) (by decide) (by decide)
    (by decide) (by decide)
  obtain ⟨hv1, hv2, hv3⟩ := qv_facts (hh) (by decide) (by decide)
    (by decide) (by decide)
  rw [show "tg://resolve?domain=".data ++ u ++ "&livestream=".data ++ h =
    "tg://".data ++ ("resolve".data ++ '?' ::
      (("domain".data ++ '=' :: u) ++ '&' :: ("livestream".data ++ '=' :: h))) by
      simp only [List.append_assoc, List.cons_append]; rfl]
  rw [classifyStr_tg, parseTg_authq _ _ (by decide) (by decide)
    (forall_mem_append
      (forall_mem_append (by decide) (forall_mem_cons_c (by decide) hu1))
      (forall_mem_cons_c (by decide)
        (forall_mem_append (by decide) (forall_mem_cons_c (by decide) hv1))))]
  rw [parseQuery_cons_kv _ _ _ (by decide) hu2 hu3]
  rw [parseQuery_last_kv _ _ (by decide) hv2 hv3]
  simp [parseTgAuthority, parseResolve, hres, hu, resolveUser, argD, hasArg,
    getArg_cons_eq, getArg_cons_ne, getArg_nil]

open LinkM LinkM.LinkVariant in
theorem LinkM.rt_videoChat_http (u h : Str) (hu : isValidUsername u = true)
    (hnr : reservedHttpWords.contains u = false) (hh : isPlainStr h = true) :
    classifyStr ("https://t.me/".data ++ u ++ "?videochat=".data ++ h) =
      some (videoChat u h false) := by
  have hWu : ∀ d : Char, isWordChar d = false → ∀ c ∈ u, decide (c = d) = false :=
    fun d hd => no_char_of_all (username_chars hu) hd
  obtain ⟨hv1, hv2, hv3⟩ := qv_facts (hh) (by decide) (by decide)
    (by decide) (by decide)
  rw [show "https://t.me/".data ++ u ++ "?videochat=".data ++ h =
    "https://".data ++ ("t.me/".data ++ (u ++ '?' :: ("videochat".data ++ '=' :: h))) by
      simp only [List.append_assoc, List.cons_append]; rfl]
  rw [classifyStr_https, parseHttp_tme_pathq u _
    (fun c hc => orb_false (hWu '#' (by decide) c hc) (hWu '?' (by decide) c hc))
    (forall_mem_append (by decide) (forall_mem_cons_c (by decide) hv1))]
  rw [splitOnChar_not_mem '/' u (not_mem_of_no_char (hWu '/' (by decide)))]
  simp only [List.map]
  rw [urlDecode_noplus_eq_self u (hWu '%' (by decide))]
  rw [parseQuery_last_kv _ _ (by decide) hv2 hv3]
  rw [parseHttpPath_username u [] _ hu hnr]
  simp [resolveUser, argD, hasArg, getArg_cons_eq, getArg_cons_ne, getArg_nil,
    show leadingNum ([] : Str) = 0 from rfl]

open LinkM LinkM.LinkVariant in
theorem LinkM.rt_liveStream_http (u h : Str) (hu : isValidUsername u = true)
    (hnr : reservedHttpWords.contains u = false) (hh : isPlainStr h = true) :
    classifyStr ("https://t.me/".data ++ u ++ "?livestream=".data ++ h) =
      some (videoChat u h true) := by
  have hWu : ∀ d : Char, isWordChar d = false → ∀ c ∈ u, decide (c = d) = false :=
    fun d hd => no_char_of_all (username_chars hu) hd
  obtain ⟨hv1, hv2, hv3⟩ := qv_facts (hh) (by decide) (by decide)
    (by decide) (by decide)
  rw [show "https://t.me/".data ++ u ++ "?livestream=".data ++ h =
    "https://".data ++ ("t.me/".data ++ (u ++ '?' :: ("livestream".data ++ '=' :: h))) by
      simp only [List.append_assoc, List.cons_append]; rfl]
  rw [classifyStr_https, parseHttp_tme_pathq u _
    (fun c hc => orb_false (hWu '#' (by decide) c hc) (hWu '?' (by decide) c hc))
    (forall_mem_append (by decide) (forall_mem_cons_c (by decide) hv1))]
  rw [splitOnChar_not_mem '/' u (not_mem_of_no_char (hWu '/' (by decide)))]
  simp only [List.map]
  rw [urlDecode_noplus_eq_self u (hWu '%' (by decide))]
  rw [parseQuery_last_kv _ _ (by decide) hv2 hv3]
  rw [parseHttpPath_username u [] _ hu hnr]
  simp [resolveUser, argD, hasArg, getArg_cons_eq, getArg_cons_ne, getArg_nil,
    show leadingNum ([] : Str) = 0 from rfl]

open LinkM LinkM.LinkVariant in
theorem LinkM.rt_game_tg (u g : Str) (hu : isValidUsername u = true)
    (hres : u ≠ "telegrampassport".data) (hg : isValidShortName g = true) :
    classifyStr ("tg://resolve?domain=".data ++ u ++ "&game=".data ++ g) =
      some (game u g) := by
  obtain ⟨hu1, hu2, hu3⟩ := qv_facts (username_chars hu) (by decide) (by decide)
    (by decide) (by decide)
  obtain ⟨hv1, hv2, hv3⟩ := qv_facts (shortName_chars hg) (by decide) (by decide)
    (by decide) (by decide)
  rw [show "tg://resolve?domain=".data ++ u ++ "&game=".data ++ g =
    "tg://".data ++ ("resolve".data ++ '?' ::
      (("domain".data ++ '=' :: u) ++ '&' :: ("game".data ++ '=' :: g))) by
      simp only [List.append_assoc, List.cons_append]; rfl]
  rw [classifyStr_tg, parseTg_authq _ _ (by decide) (by decide)
    (forall_mem_append
      (forall_mem_append (by decide) (forall_mem_cons_c (by decide) hu1))
      (forall_mem_cons_c (by decide)
        (forall_mem_append (by decide) (forall_mem_cons_c (by decide) hv1))))]
  rw [parseQuery_cons_kv _ _ _ (by decide) hu2 hu3]
  rw [parseQuery_last_kv _ _ (by decide) hv2 hv3]
  simp [parseTgAuthority, parseResolve, hres, hu, resolveUser, argD, hasArg,
    getArg_cons_eq, getArg_cons_ne, getArg_nil, hg]

open LinkM LinkM.LinkVariant in
theorem LinkM.rt_game_http (u g : Str) (hu : isValidUsername u = true)
    (hnr : reservedHttpWords.contains u = false) (hg : isValidShortName g = true) :
    classifyStr ("https://t.me/".data ++ u ++ "?game=".data ++ g) =
      some (game u g) := by
  have hWu : ∀ d : Char, isWordChar d = false → ∀ c ∈ u, decide (c = d) = false :=
    fun d hd => no_char_of_all (username_chars hu) hd
  obtain ⟨hv1, hv2, hv3⟩ := qv_facts (shortName_chars hg) (by decide) (by decide)
    (by decide) (by decide)
  rw [show "https://t.me/".data ++ u ++ "?game=".data ++ g =
    "https://".data ++ ("t.me/".data ++ (u ++ '?' :: ("game".data ++ '=' :: g))) by
      simp only [List.append_assoc, List.cons_append]; rfl]
  rw [classifyStr_https, parseHttp_tme_pathq u _
    (fun c hc => orb_false (hWu '#' (by decide) c hc) (hWu '?' (by decide) c hc))
    (forall_mem_append (by decide) (forall_mem_cons_c (by decide) hv1))]
  rw [splitOnChar_not_mem '/' u (not_mem_of_no_char (hWu '/' (by decide)))]
  simp only [List.map]
  rw [urlDecode_noplus_eq_self u (hWu '%' (by decide))]
  rw [parseQuery_last_kv _ _ (by decide) hv2 hv3]
  rw [parseHttpPath_username u [] _ hu hnr]
  simp [resolveUser, argD, hasArg, getArg_cons_eq, getArg_cons_ne, getArg_nil,
    show leadingNum ([] : Str) = 0 from rfl, hg]

open LinkM LinkM.LinkVariant in
theorem LinkM.rt_publicChat_tg (u : Str) (hu : isValidUsername u = true)
    (hres : u ≠ "telegrampassport".data) :
    classifyStr ("tg://resolve?domain=".data ++ u) = some (publicChat u) := by
  obtain ⟨hu1, hu2, hu3⟩ := qv_facts (username_chars hu) (by decide) (by decide)
    (by decide) (by decide)
  rw [show "tg://resolve?domain=".data ++ u =
    "tg://".data ++ ("resolve".data ++ '?' :: ("domain".data ++ '=' :: u)) by
      simp only [List.append_assoc, List.cons_append]; rfl]
  rw [classifyStr_tg, parseTg_authq _ _ (by decide) (by decide)
    (forall_mem_append (by decide) (forall_mem_cons_c (by decide) hu1))]
  rw [parseQuery_last_kv _ _ (by decide) hu2 hu3]
  simp [parseTgAuthority, parseResolve, hres, hu, resolveUser, argD, hasArg,
    getArg_cons_eq, getArg_cons_ne, getArg_nil, isValidShortName]

open LinkM LinkM.LinkVariant in
theorem LinkM.rt_publicChat_http (u : Str) (hu : isValidUsername u = true)
    (hnr : reservedHttpWords.contains u = false) :
    classifyStr ("https://t.me/".data ++ u) = some (publicChat u) := by
  have hWu : ∀ d : Char, isWordChar d = false → ∀ c ∈ u, decide (c = d) = false :=
    fun d hd => no_char_of_all (username_chars hu) hd
  rw [show "https://t.me/".data ++ u = "https://".data ++ ("t.me/".data ++ u) by
      simp only [List.append_assoc, List.cons_append]; rfl]
  rw [classifyStr_https, parseHttp_tme_path u
    (fun c hc => orb_false (hWu '#' (by decide) c hc) (hWu '?' (by decide) c hc))]
  rw [splitOnChar_not_mem '/' u (not_mem_of_no_char (hWu '/' (by decide)))]
  simp only [List.map]
  rw [urlDecode_noplus_eq_self u (hWu '%' (by decide))]
  rw [parseHttpPath_username u [] _ hu hnr]
  simp [resolveUser, argD, hasArg, getArg_cons_ne, getArg_nil, isValidShortName,
    show parseQuery [] = [([], [])] from rfl,
    show leadingNum ([] : Str) = 0 from rfl]
namespace LinkM

theorem alpha_not_digit (c : Char) (h : isAlphaChar c = true) : isDigitChar c = false := by
  simp only [isAlphaChar, Bool.or_eq_true, decide_eq_true_eq] at h
  simp only [isDigitChar, decide_eq_false_iff_not, not_and]
  intro h3 h4
  rcases h with ⟨h1, h2⟩ | ⟨h1, h2⟩ <;> exact absurd (h1.trans h4) (by decide)

theorem leadingNum_shortName {a : Str} (h : isValidShortName a = true) : leadingNum a = 0 := by
  cases a with
  | nil => rfl
  | cons c rest =>
    simp only [isValidShortName, Bool.and_eq_true] at h
    have := alpha_not_digit c h.1.1
    simp [leadingNum, List.takeWhile, this, digitsToNat]

theorem shortName_ne_empty {a : Str} (h : isValidShortName a = true) : a.isEmpty = false := by
  cases a with
  | nil => simp [isValidShortName] at h
  | cons c rest => rfl

theorem groupTokens_word (r : AdminRights) :
    ∀ t ∈ groupRightsTokens r, t.all isWordChar = true := by
  intro t ht
  have := groupTokens_subset r t ht
  simp only [List.mem_cons, List.not_mem_nil, or_false] at this
  rcases this with rfl | rfl | rfl | rfl | rfl | rfl | rfl | rfl | rfl <;> decide

theorem channelTokens_word (r : AdminRights) :
    ∀ t ∈ channelRightsTokens r, t.all isWordChar = true := by
  intro t ht
  have := channelTokens_subset r t ht
  simp only [List.mem_cons, List.not_mem_nil, or_false] at this
  rcases this with rfl | rfl | rfl | rfl | rfl | rfl | rfl | rfl <;> decide

theorem chooseTokens_word (c : ChatTypes) :
    ∀ t ∈ chooseTokens c, t.all isWordChar = true := by
  intro t ht
  have := chooseTokens_subset c t ht
  simp only [List.mem_cons, List.not_mem_nil, or_false] at this
  rcases this with rfl | rfl | rfl | rfl <;> decide

theorem joined_facts {ts : List Str} (hts : ∀ t ∈ ts, t.all isWordChar = true) :
    (∀ c ∈ joinSep '+' ts, decide (c = '#') = false) ∧ '&' ∉ joinSep '+' ts := by
  have hall : (joinSep '+' ts).all (fun c => isWordChar c || decide (c = '+')) = true := by
    refine joinSep_chars '+' (fun t ht => ?_) (by decide)
    exact List.all_eq_true.mpr (fun c hc => by
      have := List.all_eq_true.mp (hts t ht) c hc
      simp [this])
  exact ⟨no_char_of_all hall (by decide),
    not_mem_of_no_char (no_char_of_all hall (by decide))⟩

end LinkM

open LinkM LinkM.LinkVariant in
theorem LinkM.rt_webApp_tg (u a p : Str) (hu : isValidUsername u = true)
    (hres : u ≠ "telegrampassport".data) (ha : isValidShortName a = true)
    (hp : isPlainStr p = true) :
    classifyStr ("tg://resolve?domain=".data ++ u ++ "&appname=".data ++ a ++
      "&startapp=".data ++ p) = some (webApp u a p) := by
  obtain ⟨hu1, hu2, hu3⟩ := qv_facts (username_chars hu) (by decide) (by decide)
    (by decide) (by decide)
  obtain ⟨ha1, ha2, ha3⟩ := qv_facts (shortName_chars ha) (by decide) (by decide)
    (by decide) (by decide)
  obtain ⟨hp1, hp2, hp3⟩ := qv_facts hp (by decide) (by decide) (by decide) (by decide)
  rw [show "tg://resolve?domain=".data ++ u ++ "&appname=".data ++ a ++
      "&startapp=".data ++ p =
    "tg://".data ++ ("resolve".data ++ '?' ::
      (("domain".data ++ '=' :: u) ++ '&' ::
        (("appname".data ++ '=' :: a) ++ '&' :: ("startapp".data ++ '=' :: p)))) by
      simp only [List.append_assoc, List.cons_append]; rfl]
  rw [classifyStr_tg, parseTg_authq _ _ (by decide) (by decide)
    (forall_mem_append
      (forall_mem_append (by decide) (forall_mem_cons_c (by decide) hu1))
      (forall_mem_cons_c (by decide)
        (forall_mem_append
          (forall_mem_append (by decide) (forall_mem_cons_c (by decide) ha1))
          (forall_mem_cons_c (by decide)
            (forall_mem_append (by decide) (forall_mem_cons_c (by decide) hp1))))))]
  rw [parseQuery_cons_kv _ _ _ (by decide) hu2 hu3]
  rw [parseQuery_cons_kv _ _ _ (by decide) ha2 ha3]
  rw [parseQuery_last_kv _ _ (by decide) hp2 hp3]
  simp [parseTgAuthority, parseResolve, hres, hu, resolveUser, argD, hasArg,
    getArg_cons_eq, getArg_cons_ne, getArg_nil, ha,
    show isValidShortName [] = false from rfl]

open LinkM LinkM.LinkVariant in
theorem LinkM.rt_webApp_tg_noparam (u a : Str) (hu : isValidUsername u = true)
    (hres : u ≠ "telegrampassport".data) (ha : isValidShortName a = true) :
    classifyStr ("tg://resolve?domain=".data ++ u ++ "&appname=".data ++ a) =
      some (webApp u a []) := by
  obtain ⟨hu1, hu2, hu3⟩ := qv_facts (username_chars hu) (by decide) (by decide)
    (by decide) (by decide)
  obtain ⟨ha1, ha2, ha3⟩ := qv_facts (shortName_chars ha) (by decide) (by decide)
    (by decide) (by decide)
  rw [show "tg://resolve?domain=".data ++ u ++ "&appname=".data ++ a =
    "tg://".data ++ ("resolve".data ++ '?' ::
      (("domain".data ++ '=' :: u) ++ '&' :: ("appname".data ++ '=' :: a))) by
      simp only [List.append_assoc, List.cons_append]; rfl]
  rw [classifyStr_tg, parseTg_authq _ _ (by decide) (by decide)
    (forall_mem_append
      (forall_mem_append (by decide) (forall_mem_cons_c (by decide) hu1))
      (forall_mem_cons_c (by decide)
        (forall_mem_append (by decide) (forall_mem_cons_c (by decide) ha1))))]
  rw [parseQuery_cons_kv _ _ _ (by decide) hu2 hu3]
  rw [parseQuery_last_kv _ _ (by decide) ha2 ha3]
  simp [parseTgAuthority, parseResolve, hres, hu, resolveUser, argD, hasArg,
    getArg_cons_eq, getArg_cons_ne, getArg_nil, ha,
    show isValidShortName [] = false from rfl]
open LinkM LinkM.LinkVariant in
theorem LinkM.rt_webApp_http (u a p : Str) (hu : isValidUsername u = true)
    (hnr : reservedHttpWords.contains u = false) (ha : isValidShortName a = true)
    (hp : isPlainStr p = true) :
    classifyStr ("https://t.me/".data ++ u ++ '/' :: a ++ "?startapp=".data ++ p) =
      some (webApp u a p) := by
  have hWu : ∀ d : Char, isWordChar d = false → ∀ c ∈ u, decide (c = d) = false :=
    fun d hd => no_char_of_all (username_chars hu) hd
  have hWa : ∀ d : Char, isWordChar d = false → ∀ c ∈ a, decide (c = d) = false :=
    fun d hd => no_char_of_all (shortName_chars ha) hd
  obtain ⟨hp1, hp2, hp3⟩ := qv_facts hp (by decide) (by decide) (by decide) (by decide)
  rw [show "https://t.me/".data ++ u ++ '/' :: a ++ "?startapp=".data ++ p =
    "https://".data ++ ("t.me/".data ++
      ((u ++ '/' :: a) ++ '?' :: ("startapp".data ++ '=' :: p))) by
      simp only [List.append_assoc, List.cons_append]; rfl]
  rw [classifyStr_https, parseHttp_tme_pathq (u ++ '/' :: a) _
    (forall_mem_append
      (fun c hc => orb_false (hWu '#' (by decide) c hc) (hWu '?' (by decide) c hc))
      (forall_mem_cons_c (by decide)
        (fun c hc => orb_false (hWa '#' (by decide) c hc) (hWa '?' (by decide) c hc))))
    (forall_mem_append (by decide) (forall_mem_cons_c (by decide) hp1))]
  rw [splitOnChar_append '/' u a (not_mem_of_no_char (hWu '/' (by decide)))]
  rw [splitOnChar_not_mem '/' a (not_mem_of_no_char (hWa '/' (by decide)))]
  simp only [List.map]
  rw [urlDecode_noplus_eq_self u (hWu '%' (by decide))]
  rw [urlDecode_noplus_eq_self a (hWa '%' (by decide))]
  rw [parseQuery_last_kv _ _ (by decide) hp2 hp3]
  rw [parseHttpPath_username u [a] _ hu hnr]
  simp [resolveUser, argD, hasArg, getArg_cons_eq, getArg_cons_ne, getArg_nil,
    leadingNum_shortName ha, shortName_ne_empty ha, ha, List.filter,
    show isValidShortName [] = false from rfl]

open LinkM LinkM.LinkVariant in
theorem LinkM.rt_webApp_http_noparam (u a : Str) (hu : isValidUsername u = true)
    (hnr : reservedHttpWords.contains u = false) (ha : isValidShortName a = true) :
    classifyStr ("https://t.me/".data ++ u ++ '/' :: a) = some (webApp u a []) := by
  have hWu : ∀ d : Char, isWordChar d = false → ∀ c ∈ u, decide (c = d) = false :=
    fun d hd => no_char_of_all (username_chars hu) hd
  have hWa : ∀ d : Char, isWordChar d = false → ∀ c ∈ a, decide (c = d) = false :=
    fun d hd => no_char_of_all (shortName_chars ha) hd
  rw [show "https://t.me/".data ++ u ++ '/' :: a =
    "https://".data ++ ("t.me/".data ++ (u ++ '/' :: a)) by
      simp only [List.append_assoc, List.cons_append]; rfl]
  rw [classifyStr_https, parseHttp_tme_path (u ++ '/' :: a)
    (forall_mem_append
      (fun c hc => orb_false (hWu '#' (by decide) c hc) (hWu '?' (by decide) c hc))
      (forall_mem_cons_c (by decide)
        (fun c hc => orb_false (hWa '#' (by decide) c hc) (hWa '?' (by decide) c hc))))]
  rw [splitOnChar_append '/' u a (not_mem_of_no_char (hWu '/' (by decide)))]
  rw [splitOnChar_not_mem '/' a (not_mem_of_no_char (hWa '/' (by decide)))]
  simp only [List.map]
  rw [urlDecode_noplus_eq_self u (hWu '%' (by decide))]
  rw [urlDecode_noplus_eq_self a (hWa '%' (by decide))]
  rw [parseHttpPath_username u [a] _ hu hnr]
  simp [resolveUser, argD, hasArg, getArg_cons_ne, getArg_nil,
    show parseQuery [] = [([], [])] from rfl,
    leadingNum_shortName ha, shortName_ne_empty ha, ha, List.filter,
    show isValidShortName [] = false from rfl]
open LinkM LinkM.LinkVariant in
theorem LinkM.rt_botStartInGroup_none_tg (u p : Str) (hu : isValidUsername u = true)
    (hres : u ≠ "telegrampassport".data) (hp : isPlainStr p = true) :
    classifyStr ("tg://resolve?domain=".data ++ u ++ "&startgroup=".data ++ p) =
      some (botStartInGroup u p none) := by
  obtain ⟨hu1, hu2, hu3⟩ := qv_facts (username_chars hu) (by decide) (by decide)
    (by decide) (by decide)
  obtain ⟨hp1, hp2, hp3⟩ := qv_facts hp (by decide) (by decide) (by decide) (by decide)
  rw [show "tg://resolve?domain=".data ++ u ++ "&startgroup=".data ++ p =
    "tg://".data ++ ("resolve".data ++ '?' ::
      (("domain".data ++ '=' :: u) ++ '&' :: ("startgroup".data ++ '=' :: p))) by
      simp only [List.append_assoc, List.cons_append]; rfl]
  rw [classifyStr_tg, parseTg_authq _ _ (by decide) (by decide)
    (forall_mem_append
      (forall_mem_append (by decide) (forall_mem_cons_c (by decide) hu1))
      (forall_mem_cons_c (by decide)
        (forall_mem_append (by decide) (forall_mem_cons_c (by decide) hp1))))]
  rw [parseQuery_cons_kv _ _ _ (by decide) hu2 hu3]
  rw [parseQuery_last_kv _ _ (by decide) hp2 hp3]
  simp [parseTgAuthority, parseResolve, hres, hu, resolveUser, argD, hasArg,
    getArg_cons_eq, getArg_cons_ne, getArg_nil, groupAdminRights]

open LinkM LinkM.LinkVariant in
theorem LinkM.rt_botStartInGroup_none_http (u p : Str) (hu : isValidUsername u = true)
    (hnr : reservedHttpWords.contains u = false) (hp : isPlainStr p = true) :
    classifyStr ("https://t.me/".data ++ u ++ "?startgroup=".data ++ p) =
      some (botStartInGroup u p none) := by
  have hWu : ∀ d : Char, isWordChar d = false → ∀ c ∈ u, decide (c = d) = false :=
    fun d hd => no_char_of_all (username_chars hu) hd
  obtain ⟨hp1, hp2, hp3⟩ := qv_facts hp (by decide) (by decide) (by decide) (by decide)
  rw [show "https://t.me/".data ++ u ++ "?startgroup=".data ++ p =
    "https://".data ++ ("t.me/".data ++ (u ++ '?' :: ("startgroup".data ++ '=' :: p))) by
      simp only [List.append_assoc, List.cons_append]; rfl]
  rw [classifyStr_https, parseHttp_tme_pathq u _
    (fun c hc => orb_false (hWu '#' (by decide) c hc) (hWu '?' (by decide) c hc))
    (forall_mem_append (by decide) (forall_mem_cons_c (by decide) hp1))]
  rw [splitOnChar_not_mem '/' u (not_mem_of_no_char (hWu '/' (by decide)))]
  simp only [List.map]
  rw [urlDecode_noplus_eq_self u (hWu '%' (by decide))]
  rw [parseQuery_last_kv _ _ (by decide) hp2 hp3]
  rw [parseHttpPath_username u [] _ hu hnr]
  simp [resolveUser, argD, hasArg, getArg_cons_eq, getArg_cons_ne, getArg_nil,
    groupAdminRights, show leadingNum ([] : Str) = 0 from rfl]

open LinkM LinkM.LinkVariant in
theorem LinkM.rt_botStartInGroup_some_tg (u p : Str) (r : AdminRights)
    (hu : isValidUsername u = true) (hres : u ≠ "telegrampassport".data)
    (hp : isPlainStr p = true) (hr : isWfGroupRights r = true) :
    classifyStr ("tg://resolve?domain=".data ++ u ++ "&startgroup=".data ++ p ++
      "&admin=".data ++ joinSep '+' (groupRightsTokens r)) =
      some (botStartInGroup u p (some r)) := by
  obtain ⟨hu1, hu2, hu3⟩ := qv_facts (username_chars hu) (by decide) (by decide)
    (by decide) (by decide)
  obtain ⟨hp1, hp2, hp3⟩ := qv_facts hp (by decide) (by decide) (by decide) (by decide)
  obtain ⟨hj1, hj2⟩ := joined_facts (groupTokens_word r)
  rw [show "tg://resolve?domain=".data ++ u ++ "&startgroup=".data ++ p ++
      "&admin=".data ++ joinSep '+' (groupRightsTokens r) =
    "tg://".data ++ ("resolve".data ++ '?' ::
      (("domain".data ++ '=' :: u) ++ '&' ::
        (("startgroup".data ++ '=' :: p) ++ '&' ::
          ("admin".data ++ '=' :: joinSep '+' (groupRightsTokens r))))) by
      simp only [List.append_assoc, List.cons_append]; rfl]
  rw [classifyStr_tg, parseTg_authq _ _ (by decide) (by decide)
    (forall_mem_append
      (forall_mem_append (by decide) (forall_mem_cons_c (by decide) hu1))
      (forall_mem_cons_c (by decide)
        (forall_mem_append
          (forall_mem_append (by decide) (forall_mem_cons_c (by decide) hp1))
          (forall_mem_cons_c (by decide)
            (forall_mem_append (by decide) (forall_mem_cons_c (by decide) hj1))))))]
  rw [parseQuery_cons_kv _ _ _ (by decide) hu2 hu3]
  rw [parseQuery_cons_kv _ _ _ (by decide) hp2 hp3]
  rw [parseQuery_last_kv' _ _ (by decide) hj2]
  rw [urlDecode_joinSep _ (groupTokens_noEscape r)]
  simp [parseTgAuthority, parseResolve, hres, hu, resolveUser, argD, hasArg,
    getArg_cons_eq, getArg_cons_ne, getArg_nil, groupRights_parse r hr]

open LinkM LinkM.LinkVariant in
theorem LinkM.rt_botStartInGroup_some_http (u p : Str) (r : AdminRights)
    (hu : isValidUsername u = true) (hnr : reservedHttpWords.contains u = false)
    (hp : isPlainStr p = true) (hr : isWfGroupRights r = true) :
    classifyStr ("https://t.me/".data ++ u ++ "?startgroup=".data ++ p ++
      "&admin=".data ++ joinSep '+' (groupRightsTokens r)) =
      some (botStartInGroup u p (some r)) := by
  have hWu : ∀ d : Char, isWordChar d = false → ∀ c ∈ u, decide (c = d) = false :=
    fun d hd => no_char_of_all (username_chars hu) hd
  obtain ⟨hp1, hp2, hp3⟩ := qv_facts hp (by decide) (by decide) (by decide) (by decide)
  obtain ⟨hj1, hj2⟩ := joined_facts (groupTokens_word r)
  rw [show "https://t.me/".data ++ u ++ "?startgroup=".data ++ p ++
      "&admin=".data ++ joinSep '+' (groupRightsTokens r) =
    "https://".data ++ ("t.me/".data ++ (u ++ '?' ::
      (("startgroup".data ++ '=' :: p) ++ '&' ::
        ("admin".data ++ '=' :: joinSep '+' (groupRightsTokens r))))) by
      simp only [List.append_assoc, List.cons_append]; rfl]
  rw [classifyStr_https, parseHttp_tme_pathq u _
    (fun c hc => orb_false (hWu '#' (by decide) c hc) (hWu '?' (by decide) c hc))
    (forall_mem_append
      (forall_mem_append (by decide) (forall_mem_cons_c (by decide) hp1))
      (forall_mem_cons_c (by decide)
        (forall_mem_append (by decide) (forall_mem_cons_c (by decide) hj1))))]
  rw [splitOnChar_not_mem '/' u (not_mem_of_no_char (hWu '/' (by decide)))]
  simp only [List.map]
  rw [urlDecode_noplus_eq_self u (hWu '%' (by decide))]
  rw [parseQuery_cons_kv _ _ _ (by decide) hp2 hp3]
  rw [parseQuery_last_kv' _ _ (by decide) hj2]
  rw [urlDecode_joinSep _ (groupTokens_noEscape r)]
  rw [parseHttpPath_username u [] _ hu hnr]
  simp [resolveUser, argD, hasArg, getArg_cons_eq, getArg_cons_ne, getArg_nil,
    groupRights_parse r hr, show leadingNum ([] : Str) = 0 from rfl]

open LinkM LinkM.LinkVariant in
theorem LinkM.rt_botAddToChannel_tg (u : Str) (r : AdminRights)
    (hu : isValidUsername u = true) (hres : u ≠ "telegrampassport".data)
    (hr : isWfChannelRights r = true) :
    classifyStr ("tg://resolve?domain=".data ++ u ++ "&startchannel&admin=".data ++
      joinSep '+' (channelRightsTokens r)) = some (botAddToChannel u r) := by
  obtain ⟨hu1, hu2, hu3⟩ := qv_facts (username_chars hu) (by decide) (by decide)
    (by decide) (by decide)
  obtain ⟨hj1, hj2⟩ := joined_facts (channelTokens_word r)
  rw [show "tg://resolve?domain=".data ++ u ++ "&startchannel&admin=".data ++
      joinSep '+' (channelRightsTokens r) =
    "tg://".data ++ ("resolve".data ++ '?' ::
      (("domain".data ++ '=' :: u) ++ '&' ::
        ("startchannel".data ++ '&' ::
          ("admin".data ++ '=' :: joinSep '+' (channelRightsTokens r))))) by
      simp only [List.append_assoc, List.cons_append]; rfl]
  rw [classifyStr_tg, parseTg_authq _ _ (by decide) (by decide)
    (forall_mem_append
      (forall_mem_append (by decide) (forall_mem_cons_c (by decide) hu1))
      (forall_mem_cons_c (by decide)
        (forall_mem_append (by decide)
          (forall_mem_cons_c (by decide)
            (forall_mem_append (by decide) (forall_mem_cons_c (by decide) hj1))))))]
  rw [parseQuery_cons_kv _ _ _ (by decide) hu2 hu3]
  rw [parseQuery_cons_bare _ _ (by decide)]
  rw [parseQuery_last_kv' _ _ (by decide) hj2]
  rw [urlDecode_joinSep _ (channelTokens_noEscape r)]
  simp [parseTgAuthority, parseResolve, hres, hu, resolveUser, argD, hasArg,
    getArg_cons_eq, getArg_cons_ne, getArg_nil, channelRights_parse r hr]

open LinkM LinkM.LinkVariant in
theorem LinkM.rt_botAddToChannel_http (u : Str) (r : AdminRights)
    (hu : isValidUsername u = true) (hnr : reservedHttpWords.contains u = false)
    (hr : isWfChannelRights r = true) :
    classifyStr ("https://t.me/".data ++ u ++ "?startchannel&admin=".data ++
      joinSep '+' (channelRightsTokens r)) = some (botAddToChannel u r) := by
  have hWu : ∀ d : Char, isWordChar d = false → ∀ c ∈ u, decide (c = d) = false :=
    fun d hd => no_char_of_all (username_chars hu) hd
  obtain ⟨hj1, hj2⟩ := joined_facts (channelTokens_word r)
  rw [show "https://t.me/".data ++ u ++ "?startchannel&admin=".data ++
      joinSep '+' (channelRightsTokens r) =
    "https://".data ++ ("t.me/".data ++ (u ++ '?' ::
      ("startchannel".data ++ '&' ::
        ("admin".data ++ '=' :: joinSep '+' (channelRightsTokens r))))) by
      simp only [List.append_assoc, List.cons_append]; rfl]
  rw [classifyStr_https, parseHttp_tme_pathq u _
    (fun c hc => orb_false (hWu '#' (by decide) c hc) (hWu '?' (by decide) c hc))
    (forall_mem_append (by decide)
      (forall_mem_cons_c (by decide)
        (forall_mem_append (by decide) (forall_mem_cons_c (by decide) hj1))))]
  rw [splitOnChar_not_mem '/' u (not_mem_of_no_char (hWu '/' (by decide)))]
  simp only [List.map]
  rw [urlDecode_noplus_eq_self u (hWu '%' (by decide))]
  rw [parseQuery_cons_bare _ _ (by decide)]
  rw [parseQuery_last_kv' _ _ (by decide) hj2]
  rw [urlDecode_joinSep _ (channelTokens_noEscape r)]
  rw [parseHttpPath_username u [] _ hu hnr]
  simp [resolveUser, argD, hasArg, getArg_cons_eq, getArg_cons_ne, getArg_nil,
    channelRights_parse r hr, show leadingNum ([] : Str) = 0 from rfl]
namespace LinkM

theorem username_ne_empty {u : Str} (h : isValidUsername u = true) : u.isEmpty = false := by
  cases u with
  | nil => simp [isValidUsername] at h
  | cons c rest => rfl

theorem invite_not_phone {h : Str} (hh : isValidInviteHash h = true) :
    isValidPhone h = false := by
  simp only [isValidInviteHash, Bool.and_eq_true, Bool.not_eq_true'] at hh
  simp [isValidPhone, hh.2]

end LinkM

open LinkM LinkM.LinkVariant in
theorem LinkM.rt_attach_current_tg (bot p : Str) (hb : isValidUsername bot = true)
    (hres : bot ≠ "telegrampassport".data) (hp : isPlainStr p = true) :
    classifyStr ("tg://resolve?domain=".data ++ bot ++ "&startattach=".data ++ p) =
      some (attachmentMenuBot .current bot p) := by
  obtain ⟨hu1, hu2, hu3⟩ := qv_facts (username_chars hb) (by decide) (by decide)
    (by decide) (by decide)
  obtain ⟨hp1, hp2, hp3⟩ := qv_facts hp (by decide) (by decide) (by decide) (by decide)
  rw [show "tg://resolve?domain=".data ++ bot ++ "&startattach=".data ++ p =
    "tg://".data ++ ("resolve".data ++ '?' ::
      (("domain".data ++ '=' :: bot) ++ '&' :: ("startattach".data ++ '=' :: p))) by
      simp only [List.append_assoc, List.cons_append]; rfl]
  rw [classifyStr_tg, parseTg_authq _ _ (by decide) (by decide)
    (forall_mem_append
      (forall_mem_append (by decide) (forall_mem_cons_c (by decide) hu1))
      (forall_mem_cons_c (by decide)
        (forall_mem_append (by decide) (forall_mem_cons_c (by decide) hp1))))]
  rw [parseQuery_cons_kv _ _ _ (by decide) hu2 hu3]
  rw [parseQuery_last_kv _ _ (by decide) hp2 hp3]
  simp [parseTgAuthority, parseResolve, hres, hb, resolveUser, argD, hasArg,
    getArg_cons_eq, getArg_cons_ne, getArg_nil, parseChoose, chooseTarget]

open LinkM LinkM.LinkVariant in
theorem LinkM.rt_attach_current_http (bot p : Str) (hb : isValidUsername bot = true)
    (hnr : reservedHttpWords.contains bot = false) (hp : isPlainStr p = true) :
    classifyStr ("https://t.me/".data ++ bot ++ "?startattach=".data ++ p) =
      some (attachmentMenuBot .current bot p) := by
  have hWu : ∀ d : Char, isWordChar d = false → ∀ c ∈ bot, decide (c = d) = false :=
    fun d hd => no_char_of_all (username_chars hb) hd
  obtain ⟨hp1, hp2, hp3⟩ := qv_facts hp (by decide) (by decide) (by decide) (by decide)
  rw [show "https://t.me/".data ++ bot ++ "?startattach=".data ++ p =
    "https://".data ++ ("t.me/".data ++ (bot ++ '?' :: ("startattach".data ++ '=' :: p))) by
      simp only [List.append_assoc, List.cons_append]; rfl]
  rw [classifyStr_https, parseHttp_tme_pathq bot _
    (fun c hc => orb_false (hWu '#' (by decide) c hc) (hWu '?' (by decide) c hc))
    (forall_mem_append (by decide) (forall_mem_cons_c (by decide) hp1))]
  rw [splitOnChar_not_mem '/' bot (not_mem_of_no_char (hWu '/' (by decide)))]
  simp only [List.map]
  rw [urlDecode_noplus_eq_self bot (hWu '%' (by decide))]
  rw [parseQuery_last_kv _ _ (by decide) hp2 hp3]
  rw [parseHttpPath_username bot [] _ hb hnr]
  simp [resolveUser, argD, hasArg, getArg_cons_eq, getArg_cons_ne, getArg_nil,
    parseChoose, chooseTarget, show leadingNum ([] : Str) = 0 from rfl]

open LinkM LinkM.LinkVariant in
theorem LinkM.rt_attach_chosen_tg (bot p : Str) (ct : ChatTypes)
    (hb : isValidUsername bot = true) (hres : bot ≠ "telegrampassport".data)
    (hp : isPlainStr p = true)
    (hany : (ct.allow_users || ct.allow_bots || ct.allow_groups || ct.allow_channels) = true) :
    classifyStr ("tg://resolve?domain=".data ++ bot ++ "&choose=".data ++
      joinSep '+' (chooseTokens ct) ++ "&startattach=".data ++ p) =
      some (attachmentMenuBot (.chosen ct) bot p) := by
  obtain ⟨hu1, hu2, hu3⟩ := qv_facts (username_chars hb) (by decide) (by decide)
    (by decide) (by decide)
  obtain ⟨hp1, hp2, hp3⟩ := qv_facts hp (by decide) (by decide) (by decide) (by decide)
  obtain ⟨hj1, hj2⟩ := joined_facts (chooseTokens_word ct)
  rw [show "tg://resolve?domain=".data ++ bot ++ "&choose=".data ++
      joinSep '+' (chooseTokens ct) ++ "&startattach=".data ++ p =
    "tg://".data ++ ("resolve".data ++ '?' ::
      (("domain".data ++ '=' :: bot) ++ '&' ::
        (("choose".data ++ '=' :: joinSep '+' (chooseTokens ct)) ++ '&' ::
          ("startattach".data ++ '=' :: p)))) by
      simp only [List.append_assoc, List.cons_append]; rfl]
  rw [classifyStr_tg, parseTg_authq _ _ (by decide) (by decide)
    (forall_mem_append
      (forall_mem_append (by decide) (forall_mem_cons_c (by decide) hu1))
      (forall_mem_cons_c (by decide)
        (forall_mem_append
          (forall_mem_append (by decide) (forall_mem_cons_c (by decide) hj1))
          (forall_mem_cons_c (by decide)
            (forall_mem_append (by decide) (forall_mem_cons_c (by decide) hp1))))))]
  rw [parseQuery_cons_kv _ _ _ (by decide) hu2 hu3]
  rw [parseQuery_cons_kv' _ _ _ (by decide) hj2]
  rw [parseQuery_last_kv _ _ (by decide) hp2 hp3]
  rw [urlDecode_joinSep _ (chooseTokens_noEscape ct)]
  obtain ⟨cu, cb, cg, cc⟩ := ct
  simp [parseTgAuthority, parseResolve, hres, hb, resolveUser, argD, hasArg,
    getArg_cons_eq, getArg_cons_ne, getArg_nil, chooseTypes_parse cu cb cg cc hany,
    chooseTarget]

open LinkM LinkM.LinkVariant in
theorem LinkM.rt_attach_chosen_http (bot p : Str) (ct : ChatTypes)
    (hb : isValidUsername bot = true) (hnr : reservedHttpWords.contains bot = false)
    (hp : isPlainStr p = true)
    (hany : (ct.allow_users || ct.allow_bots || ct.allow_groups || ct.allow_channels) = true) :
    classifyStr ("https://t.me/".data ++ bot ++ "?choose=".data ++
      joinSep '+' (chooseTokens ct) ++ "&startattach=".data ++ p) =
      some (attachmentMenuBot (.chosen ct) bot p) := by
  have hWu : ∀ d : Char, isWordChar d = false → ∀ c ∈ bot, decide (c = d) = false :=
    fun d hd => no_char_of_all (username_chars hb) hd
  obtain ⟨hp1, hp2, hp3⟩ := qv_facts hp (by decide) (by decide) (by decide) (by decide)
  obtain ⟨hj1, hj2⟩ := joined_facts (chooseTokens_word ct)
  rw [show "https://t.me/".data ++ bot ++ "?choose=".data ++
      joinSep '+' (chooseTokens ct) ++ "&startattach=".data ++ p =
    "https://".data ++ ("t.me/".data ++ (bot ++ '?' ::
      (("choose".data ++ '=' :: joinSep '+' (chooseTokens ct)) ++ '&' ::
        ("startattach".data ++ '=' :: p)))) by
      simp only [List.append_assoc, List.cons_append]; rfl]
  rw [classifyStr_https, parseHttp_tme_pathq bot _
    (fun c hc => orb_false (hWu '#' (by decide) c hc) (hWu '?' (by decide) c hc))
    (forall_mem_append
      (forall_mem_append (by decide) (forall_mem_cons_c (by decide) hj1))
      (forall_mem_cons_c (by decide)
        (forall_mem_append (by decide) (forall_mem_cons_c (by decide) hp1))))]
  rw [splitOnChar_not_mem '/' bot (not_mem_of_no_char (hWu '/' (by decide)))]
  simp only [List.map]
  rw [urlDecode_noplus_eq_self bot (hWu '%' (by decide))]
  rw [parseQuery_cons_kv' _ _ _ (by decide) hj2]
  rw [parseQuery_last_kv _ _ (by decide) hp2 hp3]
  rw [urlDecode_joinSep _ (chooseTokens_noEscape ct)]
  rw [parseHttpPath_username bot [] _ hb hnr]
  obtain ⟨cu, cb, cg, cc⟩ := ct
  simp [resolveUser, argD, hasArg, getArg_cons_eq, getArg_cons_ne, getArg_nil,
    chooseTypes_parse cu cb cg cc hany, chooseTarget,
    show leadingNum ([] : Str) = 0 from rfl]
open LinkM LinkM.LinkVariant in
theorem LinkM.rt_attach_toUser_tg (u bot p : Str) (hu : isValidUsername u = true)
    (hres : u ≠ "telegrampassport".data) (hb : isValidUsername bot = true)
    (hp : isPlainStr p = true) :
    classifyStr ("tg://resolve?domain=".data ++ u ++ "&attach=".data ++ bot ++
      "&startattach=".data ++ p) = some (attachmentMenuBot (.toUser u) bot p) := by
  obtain ⟨hu1, hu2, hu3⟩ := qv_facts (username_chars hu) (by decide) (by decide)
    (by decide) (by decide)
  obtain ⟨hb1, hb2, hb3⟩ := qv_facts (username_chars hb) (by decide) (by decide)
    (by decide) (by decide)
  obtain ⟨hp1, hp2, hp3⟩ := qv_facts hp (by decide) (by decide) (by decide) (by decide)
  rw [show "tg://resolve?domain=".data ++ u ++ "&attach=".data ++ bot ++
      "&startattach=".data ++ p =
    "tg://".data ++ ("resolve".data ++ '?' ::
      (("domain".data ++ '=' :: u) ++ '&' ::
        (("attach".data ++ '=' :: bot) ++ '&' :: ("startattach".data ++ '=' :: p)))) by
      simp only [List.append_assoc, List.cons_append]; rfl]
  rw [classifyStr_tg, parseTg_authq _ _ (by decide) (by decide)
    (forall_mem_append
      (forall_mem_append (by decide) (forall_mem_cons_c (by decide) hu1))
      (forall_mem_cons_c (by decide)
        (forall_mem_append
          (forall_mem_append (by decide) (forall_mem_cons_c (by decide) hb1))
          (forall_mem_cons_c (by decide)
            (forall_mem_append (by decide) (forall_mem_cons_c (by decide) hp1))))))]
  rw [parseQuery_cons_kv _ _ _ (by decide) hu2 hu3]
  rw [parseQuery_cons_kv _ _ _ (by decide) hb2 hb3]
  rw [parseQuery_last_kv _ _ (by decide) hp2 hp3]
  simp [parseTgAuthority, parseResolve, hres, hu, resolveUser, argD, hasArg,
    getArg_cons_eq, getArg_cons_ne, getArg_nil, username_ne_empty hb]

open LinkM LinkM.LinkVariant in
theorem LinkM.rt_attach_toUser_http (u bot p : Str) (hu : isValidUsername u = true)
    (hnr : reservedHttpWords.contains u = false) (hb : isValidUsername bot = true)
    (hp : isPlainStr p = true) :
    classifyStr ("https://t.me/".data ++ u ++ "?attach=".data ++ bot ++
      "&startattach=".data ++ p) = some (attachmentMenuBot (.toUser u) bot p) := by
  have hWu : ∀ d : Char, isWordChar d = false → ∀ c ∈ u, decide (c = d) = false :=
    fun d hd => no_char_of_all (username_chars hu) hd
  obtain ⟨hb1, hb2, hb3⟩ := qv_facts (username_chars hb) (by decide) (by decide)
    (by decide) (by decide)
  obtain ⟨hp1, hp2, hp3⟩ := qv_facts hp (by decide) (by decide) (by decide) (by decide)
  rw [show "https://t.me/".data ++ u ++ "?attach=".data ++ bot ++
      "&startattach=".data ++ p =
    "https://".data ++ ("t.me/".data ++ (u ++ '?' ::
      (("attach".data ++ '=' :: bot) ++ '&' :: ("startattach".data ++ '=' :: p)))) by
      simp only [List.append_assoc, List.cons_append]; rfl]
  rw [classifyStr_https, parseHttp_tme_pathq u _
    (fun c hc => orb_false (hWu '#' (by decide) c hc) (hWu '?' (by decide) c hc))
    (forall_mem_append
      (forall_mem_append (by decide) (forall_mem_cons_c (by decide) hb1))
      (forall_mem_cons_c (by decide)
        (forall_mem_append (by decide) (forall_mem_cons_c (by decide) hp1))))]
  rw [splitOnChar_not_mem '/' u (not_mem_of_no_char (hWu '/' (by decide)))]
  simp only [List.map]
  rw [urlDecode_noplus_eq_self u (hWu '%' (by decide))]
  rw [parseQuery_cons_kv _ _ _ (by decide) hb2 hb3]
  rw [parseQuery_last_kv _ _ (by decide) hp2 hp3]
  rw [parseHttpPath_username u [] _ hu hnr]
  simp [resolveUser, argD, hasArg, getArg_cons_eq, getArg_cons_ne, getArg_nil,
    username_ne_empty hb, show leadingNum ([] : Str) = 0 from rfl]

open LinkM LinkM.LinkVariant in
theorem LinkM.rt_attach_toPhone_tg (ph bot p : Str) (hph : isValidPhone ph = true)
    (hb : isValidUsername bot = true) (hp : isPlainStr p = true) :
    classifyStr ("tg://resolve?phone=".data ++ ph ++ "&attach=".data ++ bot ++
      "&startattach=".data ++ p) = some (attachmentMenuBot (.toPhone ph) bot p) := by
  obtain ⟨hh1, hh2, hh3⟩ := qv_facts (phone_chars hph) (by decide) (by decide)
    (by decide) (by decide)
  obtain ⟨hb1, hb2, hb3⟩ := qv_facts (username_chars hb) (by decide) (by decide)
    (by decide) (by decide)
  obtain ⟨hp1, hp2, hp3⟩ := qv_facts hp (by decide) (by decide) (by decide) (by decide)
  rw [show "tg://resolve?phone=".data ++ ph ++ "&attach=".data ++ bot ++
      "&startattach=".data ++ p =
    "tg://".data ++ ("resolve".data ++ '?' ::
      (("phone".data ++ '=' :: ph) ++ '&' ::
        (("attach".data ++ '=' :: bot) ++ '&' :: ("startattach".data ++ '=' :: p)))) by
      simp only [List.append_assoc, List.cons_append]; rfl]
  rw [classifyStr_tg, parseTg_authq _ _ (by decide) (by decide)
    (forall_mem_append
      (forall_mem_append (by decide) (forall_mem_cons_c (by decide) hh1))
      (forall_mem_cons_c (by decide)
        (forall_mem_append
          (forall_mem_append (by decide) (forall_mem_cons_c (by decide) hb1))
          (forall_mem_cons_c (by decide)
            (forall_mem_append (by decide) (forall_mem_cons_c (by decide) hp1))))))]
  rw [parseQuery_cons_kv _ _ _ (by decide) hh2 hh3]
  rw [parseQuery_cons_kv _ _ _ (by decide) hb2 hb3]
  rw [parseQuery_last_kv _ _ (by decide) hp2 hp3]
  simp [parseTgAuthority, parseResolve, resolvePhone, hph, argD, hasArg,
    getArg_cons_eq, getArg_cons_ne, getArg_nil, username_ne_empty hb]

open LinkM LinkM.LinkVariant in
theorem LinkM.rt_attach_toPhone_http (ph bot p : Str) (hph : isValidPhone ph = true)
    (hb : isValidUsername bot = true) (hp : isPlainStr p = true) :
    classifyStr ("https://t.me/+".data ++ ph ++ "?attach=".data ++ bot ++
      "&startattach=".data ++ p) = some (attachmentMenuBot (.toPhone ph) bot p) := by
  have hWh : ∀ d : Char, isDigitChar d = false → ∀ c ∈ ph, decide (c = d) = false :=
    fun d hd => no_char_of_all (phone_chars hph) hd
  obtain ⟨hb1, hb2, hb3⟩ := qv_facts (username_chars hb) (by decide) (by decide)
    (by decide) (by decide)
  obtain ⟨hp1, hp2, hp3⟩ := qv_facts hp (by decide) (by decide) (by decide) (by decide)
  rw [show "https://t.me/+".data ++ ph ++ "?attach=".data ++ bot ++
      "&startattach=".data ++ p =
    "https://".data ++ ("t.me/".data ++ (('+' :: ph) ++ '?' ::
      (("attach".data ++ '=' :: bot) ++ '&' :: ("startattach".data ++ '=' :: p)))) by
      simp only [List.append_assoc, List.cons_append]; rfl]
  rw [classifyStr_https, parseHttp_tme_pathq ('+' :: ph) _
    (forall_mem_cons_c (by decide)
      (fun c hc => orb_false (hWh '#' (by decide) c hc) (hWh '?' (by decide) c hc)))
    (forall_mem_append
      (forall_mem_append (by decide) (forall_mem_cons_c (by decide) hb1))
      (forall_mem_cons_c (by decide)
        (forall_mem_append (by decide) (forall_mem_cons_c (by decide) hp1))))]
  rw [splitOnChar_not_mem '/' ('+' :: ph)
    (not_mem_of_no_char (forall_mem_cons_c (by decide) (hWh '/' (by decide))))]
  simp only [List.map]
  rw [urlDecode_noplus_eq_self ('+' :: ph)
    (forall_mem_cons_c (by decide) (hWh '%' (by decide)))]
  rw [parseQuery_cons_kv _ _ _ (by decide) hb2 hb3]
  rw [parseQuery_last_kv _ _ (by decide) hp2 hp3]
  simp [parseHttpPath, resolvePhone, hph, argD, hasArg,
    getArg_cons_eq, getArg_cons_ne, getArg_nil, username_ne_empty hb]
open LinkM LinkM.LinkVariant in
theorem LinkM.rt_userPhone_http (p : Str) (hp : isValidPhone p = true) :
    classifyStr ("https://t.me/+".data ++ p) = some (userPhoneNumber p) := by
  have hWh : ∀ d : Char, isDigitChar d = false → ∀ c ∈ p, decide (c = d) = false :=
    fun d hd => no_char_of_all (phone_chars hp) hd
  rw [show "https://t.me/+".data ++ p =
    "https://".data ++ ("t.me/".data ++ ('+' :: p)) by
      simp only [List.append_assoc, List.cons_append]; rfl]
  rw [classifyStr_https, parseHttp_tme_path ('+' :: p)
    (forall_mem_cons_c (by decide)
      (fun c hc => orb_false (hWh '#' (by decide) c hc) (hWh '?' (by decide) c hc)))]
  rw [splitOnChar_not_mem '/' ('+' :: p)
    (not_mem_of_no_char (forall_mem_cons_c (by decide) (hWh '/' (by decide))))]
  simp only [List.map]
  rw [urlDecode_noplus_eq_self ('+' :: p)
    (forall_mem_cons_c (by decide) (hWh '%' (by decide)))]
  simp [parseHttpPath, resolvePhone, hp, argD, hasArg, getArg_cons_ne, getArg_nil,
    show parseQuery [] = [([], [])] from rfl]

open LinkM LinkM.LinkVariant in
theorem LinkM.rt_chatInvite_http (h : Str) (hh : isValidInviteHash h = true) :
    classifyStr ("https://t.me/+".data ++ h) = some (chatInvite h) := by
  have hWh : ∀ d : Char, isBase64UrlChar d = false → ∀ c ∈ h, decide (c = d) = false :=
    fun d hd => no_char_of_all (inviteHash_chars hh) hd
  rw [show "https://t.me/+".data ++ h =
    "https://".data ++ ("t.me/".data ++ ('+' :: h)) by
      simp only [List.append_assoc, List.cons_append]; rfl]
  rw [classifyStr_https, parseHttp_tme_path ('+' :: h)
    (forall_mem_cons_c (by decide)
      (fun c hc => orb_false (hWh '#' (by decide) c hc) (hWh '?' (by decide) c hc)))]
  rw [splitOnChar_not_mem '/' ('+' :: h)
    (not_mem_of_no_char (forall_mem_cons_c (by decide) (hWh '/' (by decide))))]
  simp only [List.map]
  rw [urlDecode_noplus_eq_self ('+' :: h)
    (forall_mem_cons_c (by decide) (hWh '%' (by decide)))]
  simp [parseHttpPath, invite_not_phone hh, hh]

open LinkM LinkM.LinkVariant in
theorem LinkM.rt_invoice_http (n : Str) (hn : isPlainNonempty n = true) :
    classifyStr ("https://t.me/$".data ++ n) = some (invoiceLink n) := by
  have hWn : ∀ d : Char, isPlainChar d = false → ∀ c ∈ n, decide (c = d) = false :=
    fun d hd => no_char_of_all (plainNE_parts hn).2 hd
  rw [show "https://t.me/$".data ++ n =
    "https://".data ++ ("t.me/".data ++ ('$' :: n)) by
      simp only [List.append_assoc, List.cons_append]; rfl]
  rw [classifyStr_https, parseHttp_tme_path ('$' :: n)
    (forall_mem_cons_c (by decide)
      (fun c hc => orb_false (hWn '#' (by decide) c hc) (hWn '?' (by decide) c hc)))]
  rw [splitOnChar_not_mem '/' ('$' :: n)
    (not_mem_of_no_char (forall_mem_cons_c (by decide) (hWn '/' (by decide))))]
  simp only [List.map]
  rw [urlDecode_noplus_eq_self ('$' :: n)
    (forall_mem_cons_c (by decide) (hWn '%' (by decide)))]
  simp [parseHttpPath, (plainNE_parts hn).1]

open LinkM LinkM.LinkVariant in
theorem LinkM.rt_confirmPhone_tg (h p : Str) (hh : isPlainNonempty h = true)
    (hp : isValidPhone p = true) :
    classifyStr ("tg://confirmphone?hash=".data ++ h ++ "&phone=".data ++ p) =
      some (phoneNumberConfirmation h p) := by
  obtain ⟨hh1, hh2, hh3⟩ := qv_facts (plainNE_parts hh).2 (by decide) (by decide)
    (by decide) (by decide)
  obtain ⟨hp1, hp2, hp3⟩ := qv_facts (phone_chars hp) (by decide) (by decide)
    (by decide) (by decide)
  rw [show "tg://confirmphone?hash=".data ++ h ++ "&phone=".data ++ p =
    "tg://".data ++ ("confirmphone".data ++ '?' ::
      (("hash".data ++ '=' :: h) ++ '&' :: ("phone".data ++ '=' :: p))) by
      simp only [List.append_assoc, List.cons_append]; rfl]
  rw [classifyStr_tg, parseTg_authq _ _ (by decide) (by decide)
    (forall_mem_append
      (forall_mem_append (by decide) (forall_mem_cons_c (by decide) hh1))
      (forall_mem_cons_c (by decide)
        (forall_mem_append (by decide) (forall_mem_cons_c (by decide) hp1))))]
  rw [parseQuery_cons_kv _ _ _ (by decide) hh2 hh3]
  rw [parseQuery_last_kv _ _ (by decide) hp2 hp3]
  have hpe : p.isEmpty = false := by
    simp only [isValidPhone, Bool.and_eq_true, Bool.not_eq_true'] at hp
    exact hp.1.1
  simp [parseTgAuthority, argD, getArg_cons_eq, getArg_cons_ne, getArg_nil,
    (plainNE_parts hh).1, hpe]

open LinkM LinkM.LinkVariant in
theorem LinkM.rt_confirmPhone_http (h p : Str) (hh : isPlainNonempty h = true)
    (hp : isValidPhone p = true) :
    classifyStr ("https://t.me/confirmphone?hash=".data ++ h ++ "&phone=".data ++ p) =
      some (phoneNumberConfirmation h p) := by
  obtain ⟨hh1, hh2, hh3⟩ := qv_facts (plainNE_parts hh).2 (by decide) (by decide)
    (by decide) (by decide)
  obtain ⟨hp1, hp2, hp3⟩ := qv_facts (phone_chars hp) (by decide) (by decide)
    (by decide) (by decide)
  rw [show "https://t.me/confirmphone?hash=".data ++ h ++ "&phone=".data ++ p =
    "https://".data ++ ("t.me/".data ++ ("confirmphone".data ++ '?' ::
      (("hash".data ++ '=' :: h) ++ '&' :: ("phone".data ++ '=' :: p)))) by
      simp only [List.append_assoc, List.cons_append]; rfl]
  rw [classifyStr_https, parseHttp_tme_pathq "confirmphone".data _ (by decide)
    (forall_mem_append
      (forall_mem_append (by decide) (forall_mem_cons_c (by decide) hh1))
      (forall_mem_cons_c (by decide)
        (forall_mem_append (by decide) (forall_mem_cons_c (by decide) hp1))))]
  rw [show splitOnChar '/' "confirmphone".data = ["confirmphone".data] from by decide]
  simp only [List.map]
  rw [show urlDecode false "confirmphone".data = "confirmphone".data from by decide]
  rw [parseQuery_cons_kv _ _ _ (by decide) hh2 hh3]
  rw [parseQuery_last_kv _ _ (by decide) hp2 hp3]
  have hpe : p.isEmpty = false := by
    simp only [isValidPhone, Bool.and_eq_true, Bool.not_eq_true'] at hp
    exact hp.1.1
  simp [parseHttpPath, argD, getArg_cons_eq, getArg_cons_ne, getArg_nil,
    (plainNE_parts hh).1, hpe]

open LinkM LinkM.LinkVariant in
theorem LinkM.rt_passport_tg (botId : Nat) (scope key nonce : Str)
    (hid : botId ≠ 0) (hs : isPlainNonempty scope = true)
    (hk : isPlainNonempty key = true) (hn : isPlainNonempty nonce = true) :
    classifyStr ("tg://passport?bot_id=".data ++ natToStr botId ++ "&scope=".data ++
      scope ++ "&public_key=".data ++ key ++ "&payload=".data ++ nonce) =
      some (passportDataRequest botId scope key nonce []) := by
  obtain ⟨hb1, hb2, hb3⟩ := qv_facts (natToStr_all_digit botId) (by decide) (by decide)
    (by decide) (by decide)
  obtain ⟨hs1, hs2, hs3⟩ := qv_facts (plainNE_parts hs).2 (by decide) (by decide)
    (by decide) (by decide)
  obtain ⟨hk1, hk2, hk3⟩ := qv_facts (plainNE_parts hk).2 (by decide) (by decide)
    (by decide) (by decide)
  obtain ⟨hn1, hn2, hn3⟩ := qv_facts (plainNE_parts hn).2 (by decide) (by decide)
    (by decide) (by decide)
  rw [show "tg://passport?bot_id=".data ++ natToStr botId ++ "&scope=".data ++
      scope ++ "&public_key=".data ++ key ++ "&payload=".data ++ nonce =
    "tg://".data ++ ("passport".data ++ '?' ::
      (("bot_id".data ++ '=' :: natToStr botId) ++ '&' ::
        (("scope".data ++ '=' :: scope) ++ '&' ::
          (("public_key".data ++ '=' :: key) ++ '&' ::
            ("payload".data ++ '=' :: nonce))))) by
      simp only [List.append_assoc, List.cons_append]; rfl]
  rw [classifyStr_tg, parseTg_authq _ _ (by decide) (by decide)
    (forall_mem_append
      (forall_mem_append (by decide) (forall_mem_cons_c (by decide) hb1))
      (forall_mem_cons_c (by decide)
        (forall_mem_append
          (forall_mem_append (by decide) (forall_mem_cons_c (by decide) hs1))
          (forall_mem_cons_c (by decide)
            (forall_mem_append
              (forall_mem_append (by decide) (forall_mem_cons_c (by decide) hk1))
              (forall_mem_cons_c (by decide)
                (forall_mem_append (by decide) (forall_mem_cons_c (by decide) hn1))))))))]
  rw [parseQuery_cons_kv _ _ _ (by decide) hb2 hb3]
  rw [parseQuery_cons_kv _ _ _ (by decide) hs2 hs3]
  rw [parseQuery_cons_kv _ _ _ (by decide) hk2 hk3]
  rw [parseQuery_last_kv _ _ (by decide) hn2 hn3]
  simp [parseTgAuthority, parsePassport, argD, getArg_cons_eq, getArg_cons_ne,
    getArg_nil, leadingNum_natToStr, hid, (plainNE_parts hs).1, (plainNE_parts hk).1,
    (plainNE_parts hn).1]
open LinkM LinkM.LinkVariant in
theorem LinkM.rt_socks00_tg (s : Str) (port : Nat)
    (hs : isPlainNonempty s = true) (h1 : 1 ≤ port) (h2 : port ≤ 65535) :
    classifyStr ("tg://socks?server=".data ++ s ++ "&port=".data ++ natToStr port) = some (proxySocks s port [] []) := by
  obtain ⟨hs1, hs2, hs3⟩ := qv_facts (plainNE_parts hs).2 (by decide) (by decide)
    (by decide) (by decide)
  obtain ⟨hn1, hn2, hn3⟩ := qv_facts (natToStr_all_digit port) (by decide) (by decide)
    (by decide) (by decide)
  rw [show "tg://socks?server=".data ++ s ++ "&port=".data ++ natToStr port =
    "tg://".data ++ ("socks".data ++ '?' :: (("server".data ++ '=' :: s) ++ '&' :: ("port".data ++ '=' :: natToStr port))) by
      simp only [List.append_assoc, List.cons_append]; rfl]
  rw [classifyStr_tg, parseTg_authq _ _ (by decide) (by decide)
    (forall_mem_append (forall_mem_append (by decide) (forall_mem_cons_c (by decide) hs1)) (forall_mem_cons_c (by decide) (forall_mem_append (by decide) (forall_mem_cons_c (by decide) hn1))))]
  rw [parseQuery_cons_kv _ _ _ (by decide) hs2 hs3]
  rw [parseQuery_last_kv _ _ (by decide) hn2 hn3]
  have hz : ¬(port = 0) := by omega
  have hz2 : ¬(65535 < port) := by omega
  simp [parseTgAuthority, parseProxy, argD, getArg_cons_eq, getArg_cons_ne,
    getArg_nil, leadingNum_natToStr, hz, hz2, (plainNE_parts hs).1]

open LinkM LinkM.LinkVariant in
theorem LinkM.rt_socks10_tg (s : Str) (port : Nat) (user : Str) (hu : isPlainNonempty user = true)
    (hs : isPlainNonempty s = true) (h1 : 1 ≤ port) (h2 : port ≤ 65535) :
    classifyStr ("tg://socks?server=".data ++ s ++ "&port=".data ++ natToStr port ++ "&user=".data ++ user) = some (proxySocks s port user []) := by
  obtain ⟨hs1, hs2, hs3⟩ := qv_facts (plainNE_parts hs).2 (by decide) (by decide)
    (by decide) (by decide)
  obtain ⟨hn1, hn2, hn3⟩ := qv_facts (natToStr_all_digit port) (by decide) (by decide)
    (by decide) (by decide)
  obtain ⟨hu1, hu2, hu3⟩ := qv_facts (plainNE_parts hu).2 (by decide) (by decide)
    (by decide) (by decide)
  rw [show "tg://socks?server=".data ++ s ++ "&port=".data ++ natToStr port ++ "&user=".data ++ user =
    "tg://".data ++ ("socks".data ++ '?' :: (("server".data ++ '=' :: s) ++ '&' :: (("port".data ++ '=' :: natToStr port) ++ '&' :: ("user".data ++ '=' :: user)))) by
      simp only [List.append_assoc, List.cons_append]; rfl]
  rw [classifyStr_tg, parseTg_authq _ _ (by decide) (by decide)
    (forall_mem_append (forall_mem_append (by decide) (forall_mem_cons_c (by decide) hs1)) (forall_mem_cons_c (by decide) (forall_mem_append (forall_mem_append (by decide) (forall_mem_cons_c (by decide) hn1)) (forall_mem_cons_c (by decide) (forall_mem_append (by decide) (forall_mem_cons_c (by decide) hu1))))))]
  rw [parseQuery_cons_kv _ _ _ (by decide) hs2 hs3]
  rw [parseQuery_cons_kv _ _ _ (by decide) hn2 hn3]
  rw [parseQuery_last_kv _ _ (by decide) hu2 hu3]
  have hz : ¬(port = 0) := by omega
  have hz2 : ¬(65535 < port) := by omega
  simp [parseTgAuthority, parseProxy, argD, getArg_cons_eq, getArg_cons_ne,
    getArg_nil, leadingNum_natToStr, hz, hz2, (plainNE_parts hs).1]

open LinkM LinkM.LinkVariant in
theorem LinkM.rt_socks01_tg (s : Str) (port : Nat) (pw : Str) (hw : isPlainNonempty pw = true)
    (hs : isPlainNonempty s = true) (h1 : 1 ≤ port) (h2 : port ≤ 65535) :
    classifyStr ("tg://socks?server=".data ++ s ++ "&port=".data ++ natToStr port ++ "&pass=".data ++ pw) = some (proxySocks s port [] pw) := by
  obtain ⟨hs1, hs2, hs3⟩ := qv_facts (plainNE_parts hs).2 (by decide) (by decide)
    (by decide) (by decide)
  obtain ⟨hn1, hn2, hn3⟩ := qv_facts (natToStr_all_digit port) (by decide) (by decide)
    (by decide) (by decide)
  obtain ⟨hw1, hw2, hw3⟩ := qv_facts (plainNE_parts hw).2 (by decide) (by decide)
    (by decide) (by decide)
  rw [show "tg://socks?server=".data ++ s ++ "&port=".data ++ natToStr port ++ "&pass=".data ++ pw =
    "tg://".data ++ ("socks".data ++ '?' :: (("server".data ++ '=' :: s) ++ '&' :: (("port".data ++ '=' :: natToStr port) ++ '&' :: ("pass".data ++ '=' :: pw)))) by
      simp only [List.append_assoc, List.cons_append]; rfl]
  rw [classifyStr_tg, parseTg_authq _ _ (by decide) (by decide)
    (forall_mem_append (forall_mem_append (by decide) (forall_mem_cons_c (by decide) hs1)) (forall_mem_cons_c (by decide) (forall_mem_append (forall_mem_append (by decide) (forall_mem_cons_c (by decide) hn1)) (forall_mem_cons_c (by decide) (forall_mem_append (by decide) (forall_mem_cons_c (by decide) hw1))))))]
  rw [parseQuery_cons_kv _ _ _ (by decide) hs2 hs3]
  rw [parseQuery_cons_kv _ _ _ (by decide) hn2 hn3]
  rw [parseQuery_last_kv _ _ (by decide) hw2 hw3]
  have hz : ¬(port = 0) := by omega
  have hz2 : ¬(65535 < port) := by omega
  simp [parseTgAuthority, parseProxy, argD, getArg_cons_eq, getArg_cons_ne,
    getArg_nil, leadingNum_natToStr, hz, hz2, (plainNE_parts hs).1]

open LinkM LinkM.LinkVariant in
theorem LinkM.rt_socks11_tg (s : Str) (port : Nat) (user pw : Str) (hu : isPlainNonempty user = true) (hw : isPlainNonempty pw = true)
    (hs : isPlainNonempty s = true) (h1 : 1 ≤ port) (h2 : port ≤ 65535) :
    classifyStr ("tg://socks?server=".data ++ s ++ "&port=".data ++ natToStr port ++ "&user=".data ++ user ++ "&pass=".data ++ pw) = some (proxySocks s port user pw) := by
  obtain ⟨hs1, hs2, hs3⟩ := qv_facts (plainNE_parts hs).2 (by decide) (by decide)
    (by decide) (by decide)
  obtain ⟨hn1, hn2, hn3⟩ := qv_facts (natToStr_all_digit port) (by decide) (by decide)
    (by decide) (by decide)
  obtain ⟨hu1, hu2, hu3⟩ := qv_facts (plainNE_parts hu).2 (by decide) (by decide)
    (by decide) (by decide)
  obtain ⟨hw1, hw2, hw3⟩ := qv_facts (plainNE_parts hw).2 (by decide) (by decide)
    (by decide) (by decide)
  rw [show "tg://socks?server=".data ++ s ++ "&port=".data ++ natToStr port ++ "&user=".data ++ user ++ "&pass=".data ++ pw =
    "tg://".data ++ ("socks".data ++ '?' :: (("server".data ++ '=' :: s) ++ '&' :: (("port".data ++ '=' :: natToStr port) ++ '&' :: (("user".data ++ '=' :: user) ++ '&' :: ("pass".data ++ '=' :: pw))))) by
      simp only [List.append_assoc, List.cons_append]; rfl]
  rw [classifyStr_tg, parseTg_authq _ _ (by decide) (by decide)
    (forall_mem_append (forall_mem_append (by decide) (forall_mem_cons_c (by decide) hs1)) (forall_mem_cons_c (by decide) (forall_mem_append (forall_mem_append (by decide) (forall_mem_cons_c (by decide) hn1)) (forall_mem_cons_c (by decide) (forall_mem_append (forall_mem_append (by decide) (forall_mem_cons_c (by decide) hu1)) (forall_mem_cons_c (by decide) (forall_mem_append (by decide) (forall_mem_cons_c (by decide) hw1))))))))]
  rw [parseQuery_cons_kv _ _ _ (by decide) hs2 hs3]
  rw [parseQuery_cons_kv _ _ _ (by decide) hn2 hn3]
  rw [parseQuery_cons_kv _ _ _ (by decide) hu2 hu3]
  rw [parseQuery_last_kv _ _ (by decide) hw2 hw3]
  have hz : ¬(port = 0) := by omega
  have hz2 : ¬(65535 < port) := by omega
  simp [parseTgAuthority, parseProxy, argD, getArg_cons_eq, getArg_cons_ne,
    getArg_nil, leadingNum_natToStr, hz, hz2, (plainNE_parts hs).1]

open LinkM LinkM.LinkVariant in
theorem LinkM.rt_socks00_http (s : Str) (port : Nat)
    (hs : isPlainNonempty s = true) (h1 : 1 ≤ port) (h2 : port ≤ 65535) :
    classifyStr ("https://t.me/socks?server=".data ++ s ++ "&port=".data ++ natToStr port) = some (proxySocks s port [] []) := by
  obtain ⟨hs1, hs2, hs3⟩ := qv_facts (plainNE_parts hs).2 (by decide) (by decide)
    (by decide) (by decide)
  obtain ⟨hn1, hn2, hn3⟩ := qv_facts (natToStr_all_digit port) (by decide) (by decide)
    (by decide) (by decide)
  rw [show "https://t.me/socks?server=".data ++ s ++ "&port=".data ++ natToStr port =
    "https://".data ++ ("t.me/".data ++ ("socks".data ++ '?' :: (("server".data ++ '=' :: s) ++ '&' :: ("port".data ++ '=' :: natToStr port)))) by
      simp only [List.append_assoc, List.cons_append]; rfl]
  rw [classifyStr_https, parseHttp_tme_pathq "socks".data _ (by decide)
    (forall_mem_append (forall_mem_append (by decide) (forall_mem_cons_c (by decide) hs1)) (forall_mem_cons_c (by decide) (forall_mem_append (by decide) (forall_mem_cons_c (by decide) hn1))))]
  rw [show splitOnChar '/' "socks".data = ["socks".data] from by decide]
  simp only [List.map]
  rw [show urlDecode false "socks".data = "socks".data from by decide]
  rw [parseQuery_cons_kv _ _ _ (by decide) hs2 hs3]
  rw [parseQuery_last_kv _ _ (by decide) hn2 hn3]
  have hz : ¬(port = 0) := by omega
  have hz2 : ¬(65535 < port) := by omega
  simp [parseHttpPath, parseProxy, argD, getArg_cons_eq, getArg_cons_ne,
    getArg_nil, leadingNum_natToStr, hz, hz2, (plainNE_parts hs).1]

open LinkM LinkM.LinkVariant in
theorem LinkM.rt_socks10_http (s : Str) (port : Nat) (user : Str) (hu : isPlainNonempty user = true)
    (hs : isPlainNonempty s = true) (h1 : 1 ≤ port) (h2 : port ≤ 65535) :
    classifyStr ("https://t.me/socks?server=".data ++ s ++ "&port=".data ++ natToStr port ++ "&user=".data ++ user) = some (proxySocks s port user []) := by
  obtain ⟨hs1, hs2, hs3⟩ := qv_facts (plainNE_parts hs).2 (by decide) (by decide)
    (by decide) (by decide)
  obtain ⟨hn1, hn2, hn3⟩ := qv_facts (natToStr_all_digit port) (by decide) (by decide)
    (by decide) (by decide)
  obtain ⟨hu1, hu2, hu3⟩ := qv_facts (plainNE_parts hu).2 (by decide) (by decide)
    (by decide) (by decide)
  rw [show "https://t.me/socks?server=".data ++ s ++ "&port=".data ++ natToStr port ++ "&user=".data ++ user =
    "https://".data ++ ("t.me/".data ++ ("socks".data ++ '?' :: (("server".data ++ '=' :: s) ++ '&' :: (("port".data ++ '=' :: natToStr port) ++ '&' :: ("user".data ++ '=' :: user))))) by
      simp only [List.append_assoc, List.cons_append]; rfl]
  rw [classifyStr_https, parseHttp_tme_pathq "socks".data _ (by decide)
    (forall_mem_append (forall_mem_append (by decide) (forall_mem_cons_c (by decide) hs1)) (forall_mem_cons_c (by decide) (forall_mem_append (forall_mem_append (by decide) (forall_mem_cons_c (by decide) hn1)) (forall_mem_cons_c (by decide) (forall_mem_append (by decide) (forall_mem_cons_c (by decide) hu1))))))]
  rw [show splitOnChar '/' "socks".data = ["socks".data] from by decide]
  simp only [List.map]
  rw [show urlDecode false "socks".data = "socks".data from by decide]
  rw [parseQuery_cons_kv _ _ _ (by decide) hs2 hs3]
  rw [parseQuery_cons_kv _ _ _ (by decide) hn2 hn3]
  rw [parseQuery_last_kv _ _ (by decide) hu2 hu3]
  have hz : ¬(port = 0) := by omega
  have hz2 : ¬(65535 < port) := by omega
  simp [parseHttpPath, parseProxy, argD, getArg_cons_eq, getArg_cons_ne,
    getArg_nil, leadingNum_natToStr, hz, hz2, (plainNE_parts hs).1]

open LinkM LinkM.LinkVariant in
theorem LinkM.rt_socks01_http (s : Str) (port : Nat) (pw : Str) (hw : isPlainNonempty pw = true)
    (hs : isPlainNonempty s = true) (h1 : 1 ≤ port) (h2 : port ≤ 65535) :
    classifyStr ("https://t.me/socks?server=".data ++ s ++ "&port=".data ++ natToStr port ++ "&pass=".data ++ pw) = some (proxySocks s port [] pw) := by
  obtain ⟨hs1, hs2, hs3⟩ := qv_facts (plainNE_parts hs).2 (by decide) (by decide)
    (by decide) (by decide)
  obtain ⟨hn1, hn2, hn3⟩ := qv_facts (natToStr_all_digit port) (by decide) (by decide)
    (by decide) (by decide)
  obtain ⟨hw1, hw2, hw3⟩ := qv_facts (plainNE_parts hw).2 (by decide) (by decide)
    (by decide) (by decide)
  rw [show "https://t.me/socks?server=".data ++ s ++ "&port=".data ++ natToStr port ++ "&pass=".data ++ pw =
    "https://".data ++ ("t.me/".data ++ ("socks".data ++ '?' :: (("server".data ++ '=' :: s) ++ '&' :: (("port".data ++ '=' :: natToStr port) ++ '&' :: ("pass".data ++ '=' :: pw))))) by
      simp only [List.append_assoc, List.cons_append]; rfl]
  rw [classifyStr_https, parseHttp_tme_pathq "socks".data _ (by decide)
    (forall_mem_append (forall_mem_append (by decide) (forall_mem_cons_c (by decide) hs1)) (forall_mem_cons_c (by decide) (forall_mem_append (forall_mem_append (by decide) (forall_mem_cons_c (by decide) hn1)) (forall_mem_cons_c (by decide) (forall_mem_append (by decide) (forall_mem_cons_c (by decide) hw1))))))]
  rw [show splitOnChar '/' "socks".data = ["socks".data] from by decide]
  simp only [List.map]
  rw [show urlDecode false "socks".data = "socks".data from by decide]
  rw [parseQuery_cons_kv _ _ _ (by decide) hs2 hs3]
  rw [parseQuery_cons_kv _ _ _ (by decide) hn2 hn3]
  rw [parseQuery_last_kv _ _ (by decide) hw2 hw3]
  have hz : ¬(port = 0) := by omega
  have hz2 : ¬(65535 < port) := by omega
  simp [parseHttpPath, parseProxy, argD, getArg_cons_eq, getArg_cons_ne,
    getArg_nil, leadingNum_natToStr, hz, hz2, (plainNE_parts hs).1]

open LinkM LinkM.LinkVariant in
theorem LinkM.rt_socks11_http (s : Str) (port : Nat) (user pw : Str) (hu : isPlainNonempty user = true) (hw : isPlainNonempty pw = true)
    (hs : isPlainNonempty s = true) (h1 : 1 ≤ port) (h2 : port ≤ 65535) :
    classifyStr ("https://t.me/socks?server=".data ++ s ++ "&port=".data ++ natToStr port ++ "&user=".data ++ user ++ "&pass=".data ++ pw) = some (proxySocks s port user pw) := by
  obtain ⟨hs1, hs2, hs3⟩ := qv_facts (plainNE_parts hs).2 (by decide) (by decide)
    (by decide) (by decide)
  obtain ⟨hn1, hn2, hn3⟩ := qv_facts (natToStr_all_digit port) (by decide) (by decide)
    (by decide) (by decide)
  obtain ⟨hu1, hu2, hu3⟩ := qv_facts (plainNE_parts hu).2 (by decide) (by decide)
    (by decide) (by decide)
  obtain ⟨hw1, hw2, hw3⟩ := qv_facts (plainNE_parts hw).2 (by decide) (by decide)
    (by decide) (by decide)
  rw [show "https://t.me/socks?server=".data ++ s ++ "&port=".data ++ natToStr port ++ "&user=".data ++ user ++ "&pass=".data ++ pw =
    "https://".data ++ ("t.me/".data ++ ("socks".data ++ '?' :: (("server".data ++ '=' :: s) ++ '&' :: (("port".data ++ '=' :: natToStr port) ++ '&' :: (("user".data ++ '=' :: user) ++ '&' :: ("pass".data ++ '=' :: pw)))))) by
      simp only [List.append_assoc, List.cons_append]; rfl]
  rw [classifyStr_https, parseHttp_tme_pathq "socks".data _ (by decide)
    (forall_mem_append (forall_mem_append (by decide) (forall_mem_cons_c (by decide) hs1)) (forall_mem_cons_c (by decide) (forall_mem_append (forall_mem_append (by decide) (forall_mem_cons_c (by decide) hn1)) (forall_mem_cons_c (by decide) (forall_mem_append (forall_mem_append (by decide) (forall_mem_cons_c (by decide) hu1)) (forall_mem_cons_c (by decide) (forall_mem_append (by decide) (forall_mem_cons_c (by decide) hw1))))))))]
  rw [show splitOnChar '/' "socks".data = ["socks".data] from by decide]
  simp only [List.map]
  rw [show urlDecode false "socks".data = "socks".data from by decide]
  rw [parseQuery_cons_kv _ _ _ (by decide) hs2 hs3]
  rw [parseQuery_cons_kv _ _ _ (by decide) hn2 hn3]
  rw [parseQuery_cons_kv _ _ _ (by decide) hu2 hu3]
  rw [parseQuery_last_kv _ _ (by decide) hw2 hw3]
  have hz : ¬(port = 0) := by omega
  have hz2 : ¬(65535 < port) := by omega
  simp [parseHttpPath, parseProxy, argD, getArg_cons_eq, getArg_cons_ne,
    getArg_nil, leadingNum_natToStr, hz, hz2, (plainNE_parts hs).1]

theorem LinkM.secretHexAll {secret : LinkM.Str}
    (hform : LinkM.isHex32 secret = true ∨
      ∃ rest, secret = 'd' :: 'd' :: rest ∧ LinkM.isHex32 rest = true) :
    secret.all (fun c => (LinkM.hexDigitVal c).isSome) = true := by
  rcases hform with hA | ⟨rest, hrw, hB⟩
  · simp only [LinkM.isHex32, Bool.and_eq_true, decide_eq_true_eq] at hA
    exact hA.2
  · subst hrw
    simp only [LinkM.isHex32, Bool.and_eq_true, decide_eq_true_eq] at hB
    simp [List.all_cons, hB.2]
    decide

theorem LinkM.secret_branch {secret : LinkM.Str} (s : LinkM.Str) (port : Nat)
    (hlow : LinkM.lowerStr secret = secret)
    (hform : LinkM.isHex32 secret = true ∨
      ∃ rest, secret = 'd' :: 'd' :: rest ∧ LinkM.isHex32 rest = true)
    (hs : LinkM.isPlainNonempty s = true) (h1 : 1 ≤ port) (h2 : port ≤ 65535) :
    LinkM.parseProxy [("server".data, s), ("port".data, natToStr port),
      ("secret".data, secret)] false = .proxyMtproto s port secret := by
  have hz : ¬(port = 0) := by omega
  have hz2 : ¬(65535 < port) := by omega
  rcases hform with hA | ⟨rest, hrw, hB⟩
  · have hA' := hA
    simp only [LinkM.isHex32, Bool.and_eq_true, decide_eq_true_eq] at hA'
    simp [LinkM.parseProxy, LinkM.argD, LinkM.getArg_cons_eq, LinkM.getArg_cons_ne,
      LinkM.getArg_nil, LinkM.leadingNum_natToStr, hz, hz2,
      (LinkM.plainNE_parts hs).1, hA'.1, hA'.2, hlow]
  · subst hrw
    simp only [LinkM.isHex32, Bool.and_eq_true, decide_eq_true_eq] at hB
    have hL : ¬(rest.length + 1 + 1 = 32) := by omega
    simp [LinkM.parseProxy, LinkM.argD, LinkM.getArg_cons_eq, LinkM.getArg_cons_ne,
      LinkM.getArg_nil, LinkM.leadingNum_natToStr, hz, hz2,
      (LinkM.plainNE_parts hs).1, hL, hB.1, hB.2, hlow]

open LinkM LinkM.LinkVariant in
theorem LinkM.rt_mtproto_tg (s : Str) (port : Nat) (secret : Str)
    (hs : isPlainNonempty s = true) (h1 : 1 ≤ port) (h2 : port ≤ 65535)
    (hlow : lowerStr secret = secret)
    (hform : isHex32 secret = true ∨
      ∃ rest, secret = 'd' :: 'd' :: rest ∧ isHex32 rest = true) :
    classifyStr ("tg://proxy?server=".data ++ s ++ "&port=".data ++ natToStr port
      ++ "&secret=".data ++ secret) = some (proxyMtproto s port secret) := by
  obtain ⟨hs1, hs2, hs3⟩ := qv_facts (plainNE_parts hs).2 (by decide) (by decide)
    (by decide) (by decide)
  obtain ⟨hn1, hn2, hn3⟩ := qv_facts (natToStr_all_digit port) (by decide) (by decide)
    (by decide) (by decide)
  obtain ⟨hc1, hc2, hc3⟩ := qv_facts (secretHexAll hform) (by decide) (by decide)
    (by decide) (by decide)
  rw [show "tg://proxy?server=".data ++ s ++ "&port=".data ++ natToStr port
      ++ "&secret=".data ++ secret =
    "tg://".data ++ ("proxy".data ++ '?' :: (("server".data ++ '=' :: s) ++ '&' ::
      (("port".data ++ '=' :: natToStr port) ++ '&' :: ("secret".data ++ '=' :: secret)))) by
      simp only [List.append_assoc, List.cons_append]; rfl]
  rw [classifyStr_tg, parseTg_authq _ _ (by decide) (by decide)
    (forall_mem_append (forall_mem_append (by decide) (forall_mem_cons_c (by decide) hs1))
      (forall_mem_cons_c (by decide)
        (forall_mem_append (forall_mem_append (by decide) (forall_mem_cons_c (by decide) hn1))
          (forall_mem_cons_c (by decide)
            (forall_mem_append (by decide) (forall_mem_cons_c (by decide) hc1))))))]
  rw [parseQuery_cons_kv _ _ _ (by decide) hs2 hs3]
  rw [parseQuery_cons_kv _ _ _ (by decide) hn2 hn3]
  rw [parseQuery_last_kv _ _ (by decide) hc2 hc3]
  rw [show parseTgAuthority "proxy".data [] [("server".data, s), ("port".data, natToStr port),
      ("secret".data, secret)] = some (parseProxy [("server".data, s), ("port".data, natToStr port),
      ("secret".data, secret)] false) from by simp [parseTgAuthority]]
  rw [secret_branch s port hlow hform hs h1 h2]

open LinkM LinkM.LinkVariant in
theorem LinkM.rt_mtproto_http (s : Str) (port : Nat) (secret : Str)
    (hs : isPlainNonempty s = true) (h1 : 1 ≤ port) (h2 : port ≤ 65535)
    (hlow : lowerStr secret = secret)
    (hform : isHex32 secret = true ∨
      ∃ rest, secret = 'd' :: 'd' :: rest ∧ isHex32 rest = true) :
    classifyStr ("https://t.me/proxy?server=".data ++ s ++ "&port=".data ++ natToStr port
      ++ "&secret=".data ++ secret) = some (proxyMtproto s port secret) := by
  obtain ⟨hs1, hs2, hs3⟩ := qv_facts (plainNE_parts hs).2 (by decide) (by decide)
    (by decide) (by decide)
  obtain ⟨hn1, hn2, hn3⟩ := qv_facts (natToStr_all_digit port) (by decide) (by decide)
    (by decide) (by decide)
  obtain ⟨hc1, hc2, hc3⟩ := qv_facts (secretHexAll hform) (by decide) (by decide)
    (by decide) (by decide)
  rw [show "https://t.me/proxy?server=".data ++ s ++ "&port=".data ++ natToStr port
      ++ "&secret=".data ++ secret =
    "https://".data ++ ("t.me/".data ++ ("proxy".data ++ '?' :: (("server".data ++ '=' :: s) ++ '&' ::
      (("port".data ++ '=' :: natToStr port) ++ '&' :: ("secret".data ++ '=' :: secret))))) by
      simp only [List.append_assoc, List.cons_append]; rfl]
  rw [classifyStr_https, parseHttp_tme_pathq "proxy".data _ (by decide)
    (forall_mem_append (forall_mem_append (by decide) (forall_mem_cons_c (by decide) hs1))
      (forall_mem_cons_c (by decide)
        (forall_mem_append (forall_mem_append (by decide) (forall_mem_cons_c (by decide) hn1))
          (forall_mem_cons_c (by decide)
            (forall_mem_append (by decide) (forall_mem_cons_c (by decide) hc1))))))]
  rw [show splitOnChar '/' "proxy".data = ["proxy".data] from by decide]
  simp only [List.map]
  rw [show urlDecode false "proxy".data = "proxy".data from by decide]
  rw [parseQuery_cons_kv _ _ _ (by decide) hs2 hs3]
  rw [parseQuery_cons_kv _ _ _ (by decide) hn2 hn3]
  rw [parseQuery_last_kv _ _ (by decide) hc2 hc3]
  rw [show parseHttpPath ["proxy".data] [("server".data, s), ("port".data, natToStr port),
      ("secret".data, secret)] = some (parseProxy [("server".data, s), ("port".data, natToStr port),
      ("secret".data, secret)] false) from by simp [parseHttpPath]]
  rw [secret_branch s port hlow hform hs h1 h2]
theorem LinkM.mtform {secret : LinkM.Str}
    (h : (match secret with
          | 'd' :: 'd' :: rest => LinkM.isHex32 rest
          | _ => false) = true) :
    ∃ rest, secret = 'd' :: 'd' :: rest ∧ LinkM.isHex32 rest = true := by
  split at h
  · rename_i rest
    exact ⟨rest, rfl, h⟩
  · exact absurd h (by decide)

theorem LinkM.bnot_true {b : Bool} (h : (!b) = true) : b = false := by
  cases b <;> simp_all

theorem LinkM.mtwf_parts {s secret : LinkM.Str} {port : Nat}
    (hwf : LinkM.wf (.proxyMtproto s port secret) = true) :
    LinkM.isPlainNonempty s = true ∧ 1 ≤ port ∧ port ≤ 65535 ∧
      LinkM.lowerStr secret = secret ∧
      (LinkM.isHex32 secret = true ∨
        ∃ rest, secret = 'd' :: 'd' :: rest ∧ LinkM.isHex32 rest = true) := by
  simp only [LinkM.wf, Bool.and_eq_true, Bool.or_eq_true, decide_eq_true_eq] at hwf
  refine ⟨hwf.1.1.1.1, hwf.1.1.1.2, hwf.1.1.2, hwf.1.2, ?_⟩
  rcases hwf.2 with hA | hB
  · exact Or.inl hA
  · exact Or.inr (LinkM.mtform hB)

namespace LinkM

theorem hexDigitVal_hexDigitChar (v : Nat) (h : v < 16) :
    hexDigitVal (hexDigitChar v) = some v := by
  interval_cases v <;> decide

theorem hexDigitChar_unreserved (v : Nat) (h : v < 16) :
    isUnreservedChar (hexDigitChar v) = true := by
  interval_cases v <;> decide

theorem urlEncode_cons (c : Char) (s : Str) :
    urlEncode (c :: s) =
      (if isUnreservedChar c then [c]
       else ['%', hexDigitChar (c.toNat / 16), hexDigitChar (c.toNat % 16)]) ++
        urlEncode s := by
  simp [urlEncode]

theorem urlEncode_chars (s : Str) (hasc : s.all (fun c => decide (c.toNat < 128)) = true) :
    ∀ c ∈ urlEncode s, (isUnreservedChar c || decide (c = '%')) = true := by
  induction s with
  | nil => intro c hc; cases hc
  | cons a s ih =>
      simp only [List.all_cons, Bool.and_eq_true, decide_eq_true_eq] at hasc
      intro c hc
      rw [urlEncode_cons] at hc
      rcases List.mem_append.mp hc with h | h
      · by_cases hu : isUnreservedChar a = true
        · rw [if_pos hu] at h
          rcases List.mem_cons.mp h with rfl | h'
          · simp [hu]
          · cases h'
        · rw [if_neg hu] at h
          have h16a : a.toNat / 16 < 16 := by omega
          have h16b : a.toNat % 16 < 16 := Nat.mod_lt _ (by norm_num)
          rcases List.mem_cons.mp h with rfl | h'
          · simp
          · rcases List.mem_cons.mp h' with rfl | h''
            · simp [hexDigitChar_unreserved _ h16a]
            · rcases List.mem_cons.mp h'' with rfl | h3
              · simp [hexDigitChar_unreserved _ h16b]
              · cases h3
      · exact ih hasc.2 c h

theorem urlEncode_no (s : Str) (hasc : s.all (fun c => decide (c.toNat < 128)) = true)
    (d : Char) (h1 : isUnreservedChar d = false) (h2 : ¬(d = '%')) :
    ∀ c ∈ urlEncode s, decide (c = d) = false := by
  intro c hc
  have := urlEncode_chars s hasc c hc
  simp only [Bool.or_eq_true] at this
  rcases this with h | h
  · by_cases he : c = d
    · rw [he, h1] at h; cases h
    · simp [he]
  · have hc' : c = '%' := of_decide_eq_true h
    subst hc'
    have : ¬('%' = d) := fun he => h2 he.symm
    simp [this]

theorem urlDecode_escape (plus : Bool) (h1 h2 : Char) (rest : Str) (a b : Nat)
    (e1 : hexDigitVal h1 = some a) (e2 : hexDigitVal h2 = some b) :
    urlDecode plus ('%' :: h1 :: h2 :: rest) =
      Char.ofNat (16 * a + b) :: urlDecode plus rest := by
  rw [urlDecode, e1, e2]

theorem urlDecode_urlEncode (plus : Bool) (s : Str)
    (hasc : s.all (fun c => decide (c.toNat < 128)) = true) :
    urlDecode plus (urlEncode s) = s := by
  induction s with
  | nil => rfl
  | cons a s ih =>
      simp only [List.all_cons, Bool.and_eq_true, decide_eq_true_eq] at hasc
      rw [urlEncode_cons]
      by_cases hu : isUnreservedChar a = true
      · rw [if_pos hu]
        have hne1 : a ≠ '%' := by
          intro he; rw [he] at hu; cases hu
        have hne2 : a ≠ '+' := by
          intro he; rw [he] at hu; cases hu
        rw [List.cons_append, List.nil_append, urlDecode_cons_plain _ _ _ hne1 hne2,
          ih hasc.2]
      · rw [if_neg hu]
        have h16a : a.toNat / 16 < 16 := by omega
        have h16b : a.toNat % 16 < 16 := Nat.mod_lt _ (by norm_num)
        simp only [List.cons_append, List.nil_append]
        rw [urlDecode_escape _ _ _ _ _ _ (hexDigitVal_hexDigitChar _ h16a)
          (hexDigitVal_hexDigitChar _ h16b)]
        rw [ih hasc.2]
        congr 1
        rw [show 16 * (a.toNat / 16) + a.toNat % 16 = a.toNat from by omega]
        exact Char.ofNat_toNat a

theorem word_unreserved {c : Char} (h : isWordChar c = true) :
    isUnreservedChar c = true := by
  simp only [isWordChar, Bool.or_eq_true] at h
  rcases h with h | h <;> simp [isUnreservedChar, h]

theorem urlEncode_plain (s : Str) (h : ∀ c ∈ s, isUnreservedChar c = true) :
    urlEncode s = s := by
  induction s with
  | nil => rfl
  | cons a s ih =>
      rw [urlEncode_cons, if_pos (h a (by simp)), List.cons_append, List.nil_append,
        ih (fun c hc => h c (by simp [hc]))]

theorem takeUntil_append_dropUntil (p : Char → Bool) (s : Str) :
    takeUntil p s ++ dropUntil p s = s := by
  simp [takeUntil, dropUntil, List.takeWhile_append_dropWhile]

theorem dropUntil_head (p : Char → Bool) (s : Str) (c : Char) (cs : Str)
    (h : dropUntil p s = c :: cs) : p c = true := by
  induction s with
  | nil => cases h
  | cons a s ih =>
      by_cases ha : p a = true
      · rw [show dropUntil p (a :: s) = a :: s from by
            simp [dropUntil, List.dropWhile_cons, ha]] at h
        cases h
        exact ha
      · rw [show dropUntil p (a :: s) = dropUntil p s from by
            simp [dropUntil, List.dropWhile_cons, ha]] at h
        exact ih h

theorem stripExact_eq : ∀ (p s r : Str), stripExact p s = some r → s = p ++ r
  | [], _, r, h => by
      rw [stripExact] at h
      cases h
      rfl
  | p :: ps, [], r, h => by cases h
  | p :: ps, c :: cs, r, h => by
      rw [stripExact] at h
      by_cases he : c = p
      · rw [if_pos he] at h
        rw [List.cons_append, ← stripExact_eq ps cs r h, he]
      · rw [if_neg he] at h
        cases h

theorem threadArg_pos {q : Query} {t : Nat} (h : threadArg q = some t) : t ≠ 0 := by
  unfold threadArg at h
  split at h
  · dsimp only at h
    split at h
    · cases h
      assumption
    · cases h
  · cases h

theorem blank_ne_nil {s : Str} (h : isBlankStr s = false) : s ≠ [] := by
  intro he
  subst he
  cases h

end LinkM

namespace LinkM

/-- Deep-link dispatch for a draft authority (`share`/`msg`/`msg_url`). -/
theorem parseTg_draftq (auth qs : Str) (hauth : auth.all isWordChar = true)
    (hd : auth = "share".data ∨ auth = "msg".data ∨ auth = "msg_url".data)
    (hqs : ∀ c ∈ qs, decide (c = '#') = false) :
    parseTg (auth ++ '?' :: qs) = parseDraft (parseQuery qs) := by
  have hW : ∀ d : Char, isWordChar d = false → ∀ c ∈ auth, decide (c = d) = false :=
    fun d hd' => no_char_of_all hauth hd'
  have hnoHash : ∀ c ∈ auth ++ '?' :: qs, decide (c = '#') = false := by
    intro c hc
    rcases List.mem_append.mp hc with h | h
    · exact hW '#' (by decide) c h
    · rcases List.mem_cons.mp h with rfl | h
      · decide
      · exact hqs c h
  simp only [parseTg]
  rw [show stripFragment (auth ++ '?' :: qs) = auth ++ '?' :: qs from
    takeUntil_all_neg _ _ hnoHash]
  rw [takeUntil_append_hit _ auth '?' qs
    (fun c hc => orb_false (hW '/' (by decide) c hc) (hW '?' (by decide) c hc)) (by decide)]
  rw [dropUntil_append_hit _ auth '?' qs
    (fun c hc => orb_false (hW '/' (by decide) c hc) (hW '?' (by decide) c hc)) (by decide)]
  have hany : (auth.any fun c => decide (c = '@') || decide (c = ':')) = false := by
    rw [List.any_eq_false]
    intro c hc
    rw [orb_false (hW '@' (by decide) c hc) (hW ':' (by decide) c hc)]
    exact Bool.false_ne_true
  rw [hany]
  simp only [Bool.false_eq_true, if_false]
  have hdr : (decide (auth = "share".data) || decide (auth = "msg".data) ||
      decide (auth = "msg_url".data)) = true := by
    rcases hd with h | h | h <;> simp [h]
  rw [hdr]
  rfl

open LinkVariant in
theorem rt_background_tg (d : Str) (hw : d.all isWordChar = true)
    (hne : d.isEmpty = false) :
    classifyStr ("tg://bg?slug=".data ++ d) = some (background d) := by
  obtain ⟨hd1, hd2, hd3⟩ := qv_facts hw (by decide) (by decide) (by decide) (by decide)
  have henc : urlEncode d = d :=
    urlEncode_plain d (fun c hc =>
      word_unreserved (List.all_eq_true.mp hw c hc))
  rw [show "tg://bg?slug=".data ++ d =
    "tg://".data ++ ("bg".data ++ '?' :: ("slug".data ++ '=' :: d)) by
      simp only [List.append_assoc, List.cons_append]; rfl]
  rw [classifyStr_tg, parseTg_authq _ _ (by decide) (by decide)
    (forall_mem_append (by decide) (forall_mem_cons_c (by decide) hd1))]
  rw [parseQuery_last_kv _ _ (by decide) hd2 hd3]
  simp [parseTgAuthority, parseBg, bgSlugSuffix, argD, getArg_cons_eq, getArg_cons_ne,
    getArg_nil, hne, henc]

open LinkVariant in
theorem rt_background_http (d : Str) (hw : d.all isWordChar = true)
    (hne : d.isEmpty = false) (hloc : isLocalBg d = false) :
    classifyStr ("https://t.me/bg/".data ++ d) = some (background d) := by
  have hW : ∀ e : Char, isWordChar e = false → ∀ c ∈ d, decide (c = e) = false :=
    fun e he => no_char_of_all hw he
  have henc : urlEncode d = d :=
    urlEncode_plain d (fun c hc =>
      word_unreserved (List.all_eq_true.mp hw c hc))
  rw [show "https://t.me/bg/".data ++ d =
    "https://".data ++ ("t.me/".data ++ ("bg".data ++ '/' :: d)) by
      simp only [List.append_assoc, List.cons_append]; rfl]
  rw [classifyStr_https, parseHttp_tme_path _
    (forall_mem_append (by decide) (forall_mem_cons_c (by decide)
      (fun c hc => orb_false (hW '#' (by decide) c hc) (hW '?' (by decide) c hc))))]
  rw [splitOnChar_append '/' "bg".data d (by decide)]
  rw [splitOnChar_not_mem '/' d (not_mem_of_no_char (hW '/' (by decide)))]
  simp only [List.map]
  rw [urlDecode_noplus_eq_self d (hW '%' (by decide))]
  rw [show urlDecode false "bg".data = "bg".data from by decide]
  simp [parseHttpPath, bgSlugSuffix, argD, getArg_cons_eq, getArg_cons_ne,
    getArg_nil, hne, henc, hloc,
    show parseQuery ([] : Str) = [(([] : Str), ([] : Str))] from rfl]

end LinkM

namespace LinkM
open LinkVariant

theorem rt_msgres00 (d : Str) (p : Nat) (hu : isValidUsername d = true)
    (hres : d ≠ "telegrampassport".data) (hp : p ≠ 0) :
    classifyStr (canonicalMessageUrl d p false none) =
      some (message (canonicalMessageUrl d p false none)) := by
  obtain ⟨hd1, hd2, hd3⟩ := qv_facts (username_chars hu) (by decide) (by decide)
    (by decide) (by decide)
  obtain ⟨hn1, hn2, hn3⟩ := qv_facts (natToStr_all_digit p) (by decide) (by decide)
    (by decide) (by decide)
  rw [show canonicalMessageUrl d p false none =
    "tg://".data ++ ("resolve".data ++ '?' ::
      (("domain".data ++ '=' :: d) ++ '&' :: ("post".data ++ '=' :: natToStr p))) from by
      simp [canonicalMessageUrl]]
  rw [classifyStr_tg, parseTg_authq _ _ (by decide) (by decide)
    (forall_mem_append
      (forall_mem_append (by decide) (forall_mem_cons_c (by decide) hd1))
      (forall_mem_cons_c (by decide)
        (forall_mem_append (by decide) (forall_mem_cons_c (by decide) hn1))))]
  rw [parseQuery_cons_kv _ _ _ (by decide) hd2 hd3]
  rw [parseQuery_last_kv _ _ (by decide) hn2 hn3]
  simp [parseTgAuthority, parseResolve, hres, hu, resolveUser, argD, hasArg,
    getArg_cons_eq, getArg_cons_ne, getArg_nil, leadingNum_natToStr, threadArg,
    canonicalMessageUrl, hp]

theorem rt_msgres10 (d : Str) (p : Nat) (hu : isValidUsername d = true)
    (hres : d ≠ "telegrampassport".data) (hp : p ≠ 0) :
    classifyStr (canonicalMessageUrl d p true none) =
      some (message (canonicalMessageUrl d p true none)) := by
  obtain ⟨hd1, hd2, hd3⟩ := qv_facts (username_chars hu) (by decide) (by decide)
    (by decide) (by decide)
  obtain ⟨hn1, hn2, hn3⟩ := qv_facts (natToStr_all_digit p) (by decide) (by decide)
    (by decide) (by decide)
  rw [show canonicalMessageUrl d p true none =
    "tg://".data ++ ("resolve".data ++ '?' ::
      (("domain".data ++ '=' :: d) ++ '&' ::
        (("post".data ++ '=' :: natToStr p) ++ '&' :: "single".data))) from by
      simp [canonicalMessageUrl]]
  rw [classifyStr_tg, parseTg_authq _ _ (by decide) (by decide)
    (forall_mem_append
      (forall_mem_append (by decide) (forall_mem_cons_c (by decide) hd1))
      (forall_mem_cons_c (by decide)
        (forall_mem_append
          (forall_mem_append (by decide) (forall_mem_cons_c (by decide) hn1))
          (forall_mem_cons_c (by decide) (by decide)))))]
  rw [parseQuery_cons_kv _ _ _ (by decide) hd2 hd3]
  rw [parseQuery_cons_kv _ _ _ (by decide) hn2 hn3]
  rw [parseQuery_last_bare _ (by decide)]
  simp [parseTgAuthority, parseResolve, hres, hu, resolveUser, argD, hasArg,
    getArg_cons_eq, getArg_cons_ne, getArg_nil, leadingNum_natToStr, threadArg,
    canonicalMessageUrl, hp]

theorem rt_msgres01 (d : Str) (p t : Nat) (hu : isValidUsername d = true)
    (hres : d ≠ "telegrampassport".data) (hp : p ≠ 0) (ht : t ≠ 0) :
    classifyStr (canonicalMessageUrl d p false (some t)) =
      some (message (canonicalMessageUrl d p false (some t))) := by
  obtain ⟨hd1, hd2, hd3⟩ := qv_facts (username_chars hu) (by decide) (by decide)
    (by decide) (by decide)
  obtain ⟨hn1, hn2, hn3⟩ := qv_facts (natToStr_all_digit p) (by decide) (by decide)
    (by decide) (by decide)
  obtain ⟨ht1, ht2, ht3⟩ := qv_facts (natToStr_all_digit t) (by decide) (by decide)
    (by decide) (by decide)
  rw [show canonicalMessageUrl d p false (some t) =
    "tg://".data ++ ("resolve".data ++ '?' ::
      (("domain".data ++ '=' :: d) ++ '&' ::
        (("post".data ++ '=' :: natToStr p) ++ '&' ::
          ("thread".data ++ '=' :: natToStr t)))) from by
      simp [canonicalMessageUrl]]
  rw [classifyStr_tg, parseTg_authq _ _ (by decide) (by decide)
    (forall_mem_append
      (forall_mem_append (by decide) (forall_mem_cons_c (by decide) hd1))
      (forall_mem_cons_c (by decide)
        (forall_mem_append
          (forall_mem_append (by decide) (forall_mem_cons_c (by decide) hn1))
          (forall_mem_cons_c (by decide)
            (forall_mem_append (by decide) (forall_mem_cons_c (by decide) ht1))))))]
  rw [parseQuery_cons_kv _ _ _ (by decide) hd2 hd3]
  rw [parseQuery_cons_kv _ _ _ (by decide) hn2 hn3]
  rw [parseQuery_last_kv _ _ (by decide) ht2 ht3]
  simp [parseTgAuthority, parseResolve, hres, hu, resolveUser, argD, hasArg,
    getArg_cons_eq, getArg_cons_ne, getArg_nil, leadingNum_natToStr, threadArg,
    canonicalMessageUrl, hp, ht]

theorem rt_msgres11 (d : Str) (p t : Nat) (hu : isValidUsername d = true)
    (hres : d ≠ "telegrampassport".data) (hp : p ≠ 0) (ht : t ≠ 0) :
    classifyStr (canonicalMessageUrl d p true (some t)) =
      some (message (canonicalMessageUrl d p true (some t))) := by
  obtain ⟨hd1, hd2, hd3⟩ := qv_facts (username_chars hu) (by decide) (by decide)
    (by decide) (by decide)
  obtain ⟨hn1, hn2, hn3⟩ := qv_facts (natToStr_all_digit p) (by decide) (by decide)
    (by decide) (by decide)
  obtain ⟨ht1, ht2, ht3⟩ := qv_facts (natToStr_all_digit t) (by decide) (by decide)
    (by decide) (by decide)
  rw [show canonicalMessageUrl d p true (some t) =
    "tg://".data ++ ("resolve".data ++ '?' ::
      (("domain".data ++ '=' :: d) ++ '&' ::
        (("post".data ++ '=' :: natToStr p) ++ '&' ::
          ("single".data ++ '&' :: ("thread".data ++ '=' :: natToStr t))))) from by
      simp [canonicalMessageUrl]]
  rw [classifyStr_tg, parseTg_authq _ _ (by decide) (by decide)
    (forall_mem_append
      (forall_mem_append (by decide) (forall_mem_cons_c (by decide) hd1))
      (forall_mem_cons_c (by decide)
        (forall_mem_append
          (forall_mem_append (by decide) (forall_mem_cons_c (by decide) hn1))
          (forall_mem_cons_c (by decide)
            (forall_mem_append (by decide)
              (forall_mem_cons_c (by decide)
                (forall_mem_append (by decide) (forall_mem_cons_c (by decide) ht1))))))))]
  rw [parseQuery_cons_kv _ _ _ (by decide) hd2 hd3]
  rw [parseQuery_cons_kv _ _ _ (by decide) hn2 hn3]
  rw [parseQuery_cons_bare _ _ (by decide)]
  rw [parseQuery_last_kv _ _ (by decide) ht2 ht3]
  simp [parseTgAuthority, parseResolve, hres, hu, resolveUser, argD, hasArg,
    getArg_cons_eq, getArg_cons_ne, getArg_nil, leadingNum_natToStr, threadArg,
    canonicalMessageUrl, hp, ht]

/-- Round trip of every canonical `tg://resolve` message link. -/
theorem rt_msgres (d : Str) (p : Nat) (sg : Bool) (th : Option Nat)
    (hu : isValidUsername d = true) (hres : d ≠ "telegrampassport".data)
    (hp : p ≠ 0) (ht : ∀ t, th = some t → t ≠ 0) :
    classifyStr (canonicalMessageUrl d p sg th) =
      some (message (canonicalMessageUrl d p sg th)) := by
  cases sg with
  | false =>
      cases th with
      | none => exact rt_msgres00 d p hu hres hp
      | some t => exact rt_msgres01 d p t hu hres hp (ht t rfl)
  | true =>
      cases th with
      | none => exact rt_msgres10 d p hu hres hp
      | some t => exact rt_msgres11 d p t hu hres hp (ht t rfl)

theorem rt_msgpp00 (c : Str) (p : Nat) (hc : isPlainNonempty c = true) (hp : p ≠ 0) :
    classifyStr (canonicalPrivatepost c p false none) =
      some (message (canonicalPrivatepost c p false none)) := by
  obtain ⟨hd1, hd2, hd3⟩ := qv_facts (plainNE_parts hc).2 (by decide) (by decide)
    (by decide) (by decide)
  obtain ⟨hn1, hn2, hn3⟩ := qv_facts (natToStr_all_digit p) (by decide) (by decide)
    (by decide) (by decide)
  rw [show canonicalPrivatepost c p false none =
    "tg://".data ++ ("privatepost".data ++ '?' ::
      (("channel".data ++ '=' :: c) ++ '&' :: ("post".data ++ '=' :: natToStr p))) from by
      simp [canonicalPrivatepost]]
  rw [classifyStr_tg, parseTg_authq _ _ (by decide) (by decide)
    (forall_mem_append
      (forall_mem_append (by decide) (forall_mem_cons_c (by decide) hd1))
      (forall_mem_cons_c (by decide)
        (forall_mem_append (by decide) (forall_mem_cons_c (by decide) hn1))))]
  rw [parseQuery_cons_kv _ _ _ (by decide) hd2 hd3]
  rw [parseQuery_last_kv _ _ (by decide) hn2 hn3]
  simp [parseTgAuthority, argD, hasArg, getArg_cons_eq, getArg_cons_ne,
    getArg_nil, leadingNum_natToStr, threadArg, canonicalPrivatepost, hp,
    (plainNE_parts hc).1]

theorem rt_msgpp10 (c : Str) (p : Nat) (hc : isPlainNonempty c = true) (hp : p ≠ 0) :
    classifyStr (canonicalPrivatepost c p true none) =
      some (message (canonicalPrivatepost c p true none)) := by
  obtain ⟨hd1, hd2, hd3⟩ := qv_facts (plainNE_parts hc).2 (by decide) (by decide)
    (by decide) (by decide)
  obtain ⟨hn1, hn2, hn3⟩ := qv_facts (natToStr_all_digit p) (by decide) (by decide)
    (by decide) (by decide)
  rw [show canonicalPrivatepost c p true none =
    "tg://".data ++ ("privatepost".data ++ '?' ::
      (("channel".data ++ '=' :: c) ++ '&' ::
        (("post".data ++ '=' :: natToStr p) ++ '&' :: "single".data))) from by
      simp [canonicalPrivatepost]]
  rw [classifyStr_tg, parseTg_authq _ _ (by decide) (by decide)
    (forall_mem_append
      (forall_mem_append (by decide) (forall_mem_cons_c (by decide) hd1))
      (forall_mem_cons_c (by decide)
        (forall_mem_append
          (forall_mem_append (by decide) (forall_mem_cons_c (by decide) hn1))
          (forall_mem_cons_c (by decide) (by decide)))))]
  rw [parseQuery_cons_kv _ _ _ (by decide) hd2 hd3]
  rw [parseQuery_cons_kv _ _ _ (by decide) hn2 hn3]
  rw [parseQuery_last_bare _ (by decide)]
  simp [parseTgAuthority, argD, hasArg, getArg_cons_eq, getArg_cons_ne,
    getArg_nil, leadingNum_natToStr, threadArg, canonicalPrivatepost, hp,
    (plainNE_parts hc).1]

theorem rt_msgpp01 (c : Str) (p t : Nat) (hc : isPlainNonempty c = true)
    (hp : p ≠ 0) (ht : t ≠ 0) :
    classifyStr (canonicalPrivatepost c p false (some t)) =
      some (message (canonicalPrivatepost c p false (some t))) := by
  obtain ⟨hd1, hd2, hd3⟩ := qv_facts (plainNE_parts hc).2 (by decide) (by decide)
    (by decide) (by decide)
  obtain ⟨hn1, hn2, hn3⟩ := qv_facts (natToStr_all_digit p) (by decide) (by decide)
    (by decide) (by decide)
  obtain ⟨ht1, ht2, ht3⟩ := qv_facts (natToStr_all_digit t) (by decide) (by decide)
    (by decide) (by decide)
  rw [show canonicalPrivatepost c p false (some t) =
    "tg://".data ++ ("privatepost".data ++ '?' ::
      (("channel".data ++ '=' :: c) ++ '&' ::
        (("post".data ++ '=' :: natToStr p) ++ '&' ::
          ("thread".data ++ '=' :: natToStr t)))) from by
      simp [canonicalPrivatepost]]
  rw [classifyStr_tg, parseTg_authq _ _ (by decide) (by decide)
    (forall_mem_append
      (forall_mem_append (by decide) (forall_mem_cons_c (by decide) hd1))
      (forall_mem_cons_c (by decide)
        (forall_mem_append
          (forall_mem_append (by decide) (forall_mem_cons_c (by decide) hn1))
          (forall_mem_cons_c (by decide)
            (forall_mem_append (by decide) (forall_mem_cons_c (by decide) ht1))))))]
  rw [parseQuery_cons_kv _ _ _ (by decide) hd2 hd3]
  rw [parseQuery_cons_kv _ _ _ (by decide) hn2 hn3]
  rw [parseQuery_last_kv _ _ (by decide) ht2 ht3]
  simp [parseTgAuthority, argD, hasArg, getArg_cons_eq, getArg_cons_ne,
    getArg_nil, leadingNum_natToStr, threadArg, canonicalPrivatepost, hp, ht,
    (plainNE_parts hc).1]

theorem rt_msgpp11 (c : Str) (p t : Nat) (hc : isPlainNonempty c = true)
    (hp : p ≠ 0) (ht : t ≠ 0) :
    classifyStr (canonicalPrivatepost c p true (some t)) =
      some (message (canonicalPrivatepost c p true (some t))) := by
  obtain ⟨hd1, hd2, hd3⟩ := qv_facts (plainNE_parts hc).2 (by decide) (by decide)
    (by decide) (by decide)
  obtain ⟨hn1, hn2, hn3⟩ := qv_facts (natToStr_all_digit p) (by decide) (by decide)
    (by decide) (by decide)
  obtain ⟨ht1, ht2, ht3⟩ := qv_facts (natToStr_all_digit t) (by decide) (by decide)
    (by decide) (by decide)
  rw [show canonicalPrivatepost c p true (some t) =
    "tg://".data ++ ("privatepost".data ++ '?' ::
      (("channel".data ++ '=' :: c) ++ '&' ::
        (("post".data ++ '=' :: natToStr p) ++ '&' ::
          ("single".data ++ '&' :: ("thread".data ++ '=' :: natToStr t))))) from by
      simp [canonicalPrivatepost]]
  rw [classifyStr_tg, parseTg_authq _ _ (by decide) (by decide)
    (forall_mem_append
      (forall_mem_append (by decide) (forall_mem_cons_c (by decide) hd1))
      (forall_mem_cons_c (by decide)
        (forall_mem_append
          (forall_mem_append (by decide) (forall_mem_cons_c (by decide) hn1))
          (forall_mem_cons_c (by decide)
            (forall_mem_append (by decide)
              (forall_mem_cons_c (by decide)
                (forall_mem_append (by decide) (forall_mem_cons_c (by decide) ht1))))))))]
  rw [parseQuery_cons_kv _ _ _ (by decide) hd2 hd3]
  rw [parseQuery_cons_kv _ _ _ (by decide) hn2 hn3]
  rw [parseQuery_cons_bare _ _ (by decide)]
  rw [parseQuery_last_kv _ _ (by decide) ht2 ht3]
  simp [parseTgAuthority, argD, hasArg, getArg_cons_eq, getArg_cons_ne,
    getArg_nil, leadingNum_natToStr, threadArg, canonicalPrivatepost, hp, ht,
    (plainNE_parts hc).1]

/-- Round trip of every canonical `tg://privatepost` message link. -/
theorem rt_msgpp (c : Str) (p : Nat) (sg : Bool) (th : Option Nat)
    (hc : isPlainNonempty c = true) (hp : p ≠ 0)
    (ht : ∀ t, th = some t → t ≠ 0) :
    classifyStr (canonicalPrivatepost c p sg th) =
      some (message (canonicalPrivatepost c p sg th)) := by
  cases sg with
  | false =>
      cases th with
      | none => exact rt_msgpp00 c p hc hp
      | some t => exact rt_msgpp01 c p t hc hp (ht t rfl)
  | true =>
      cases th with
      | none => exact rt_msgpp10 c p hc hp
      | some t => exact rt_msgpp11 c p t hc hp (ht t rfl)

/-- A well-formed message payload re-classifies to itself. -/
theorem rt_message (url : Str) (hwf : msgWf url = true) :
    classifyStr url = some (message url) := by
  unfold msgWf at hwf
  split at hwf
  · cases hwf
  · dsimp only at hwf
    split at hwf
    · simp only [Bool.and_eq_true, decide_eq_true_eq] at hwf
      obtain ⟨⟨⟨hu, htp⟩, hp⟩, hurl⟩ := hwf
      rw [hurl]
      exact rt_msgres _ _ _ _ hu htp hp (fun _ h => threadArg_pos h)
    · split at hwf
      · simp only [Bool.and_eq_true, decide_eq_true_eq] at hwf
        obtain ⟨⟨hc, hp⟩, hurl⟩ := hwf
        rw [hurl]
        exact rt_msgpp _ _ _ _ hc hp (fun _ h => threadArg_pos h)
      · cases hwf

theorem rt_iv_bare (fb : Str) (hfb : fb.isEmpty = false)
    (hasc : fb.all (fun c => decide (c.toNat < 128)) = true) :
    classifyStr ("https://t.me/iv?url=".data ++ urlEncode fb ++ "&rhash".data) =
      some (instantView ("https://t.me/iv?url=".data ++ urlEncode fb ++ "&rhash".data) fb) := by
  have hE1 : ∀ c ∈ urlEncode fb, decide (c = '#') = false :=
    urlEncode_no fb hasc '#' (by decide) (by decide)
  have hE2 : '&' ∉ urlEncode fb :=
    not_mem_of_no_char (urlEncode_no fb hasc '&' (by decide) (by decide))
  rw [show "https://t.me/iv?url=".data ++ urlEncode fb ++ "&rhash".data =
    "https://".data ++ ("t.me/".data ++ ("iv".data ++ '?' ::
      (("url".data ++ '=' :: urlEncode fb) ++ '&' :: "rhash".data))) by
      simp only [List.append_assoc, List.cons_append]; rfl]
  rw [classifyStr_https, parseHttp_tme_pathq _ _ (by decide)
    (forall_mem_append
      (forall_mem_append (by decide) (forall_mem_cons_c (by decide) hE1))
      (forall_mem_cons_c (by decide) (by decide)))]
  rw [splitOnChar_not_mem '/' "iv".data (by decide)]
  simp only [List.map]
  rw [show urlDecode false "iv".data = "iv".data from by decide]
  rw [parseQuery_cons_kv' _ _ _ (by decide) hE2]
  rw [urlDecode_urlEncode true fb hasc]
  rw [parseQuery_last_bare _ (by decide)]
  simp [parseHttpPath, argD, hasArg, getArg_cons_eq, getArg_cons_ne, getArg_nil, hfb]

theorem rt_iv_tail (fb tl : Str) (hfb : fb.isEmpty = false)
    (hasc : fb.all (fun c => decide (c.toNat < 128)) = true)
    (htl : tl.isEmpty = false) (htlp : isPlainStr tl = true) :
    classifyStr ("https://t.me/iv?url=".data ++ urlEncode fb ++ "&rhash=".data ++ tl) =
      some (instantView
        ("https://t.me/iv?url=".data ++ urlEncode fb ++ "&rhash=".data ++ tl) fb) := by
  have hE1 : ∀ c ∈ urlEncode fb, decide (c = '#') = false :=
    urlEncode_no fb hasc '#' (by decide) (by decide)
  have hE2 : '&' ∉ urlEncode fb :=
    not_mem_of_no_char (urlEncode_no fb hasc '&' (by decide) (by decide))
  obtain ⟨hv1, hv2, hv3⟩ := qv_facts htlp (by decide) (by decide)
    (by decide) (by decide)
  rw [show "https://t.me/iv?url=".data ++ urlEncode fb ++ "&rhash=".data ++ tl =
    "https://".data ++ ("t.me/".data ++ ("iv".data ++ '?' ::
      (("url".data ++ '=' :: urlEncode fb) ++ '&' ::
        ("rhash".data ++ '=' :: tl)))) by
      simp only [List.append_assoc, List.cons_append]; rfl]
  rw [classifyStr_https, parseHttp_tme_pathq _ _ (by decide)
    (forall_mem_append
      (forall_mem_append (by decide) (forall_mem_cons_c (by decide) hE1))
      (forall_mem_cons_c (by decide)
        (forall_mem_append (by decide) (forall_mem_cons_c (by decide) hv1))))]
  rw [splitOnChar_not_mem '/' "iv".data (by decide)]
  simp only [List.map]
  rw [show urlDecode false "iv".data = "iv".data from by decide]
  rw [parseQuery_cons_kv' _ _ _ (by decide) hE2]
  rw [urlDecode_urlEncode true fb hasc]
  rw [parseQuery_last_kv _ _ (by decide) hv2 hv3]
  simp [parseHttpPath, argD, hasArg, getArg_cons_eq, getArg_cons_ne, getArg_nil,
    hfb, htl]

/-- A well-formed instant-view payload re-classifies to itself with its
fallback. -/
theorem rt_instantView (url fb : Str) (hwf : ivWf url fb = true) :
    classifyStr url = some (instantView url fb) := by
  unfold ivWf at hwf
  dsimp only at hwf
  simp only [Bool.and_eq_true, Bool.or_eq_true, Bool.not_eq_true',
    decide_eq_true_eq] at hwf
  obtain ⟨⟨hfb, hasc⟩, hAB⟩ := hwf
  rcases hAB with hA | ⟨⟨htl, htlp⟩, hurl⟩
  · rw [hA]
    exact rt_iv_bare fb hfb hasc
  · rw [hurl]
    exact rt_iv_tail fb _ hfb hasc htl htlp

/-- A well-formed unknown-deep-link payload re-classifies to itself. -/
theorem rt_unknown (l : Str) (hwf : unknownWf l = true) :
    classifyStr l = some (unknownDeepLink l) := by
  unfold unknownWf at hwf
  split at hwf
  · cases hwf
  · rename_i r heq
    have hl : l = "tg://".data ++ r := stripExact_eq _ _ _ heq
    dsimp only at hwf
    simp only [Bool.and_eq_true, Bool.not_eq_true'] at hwf
    obtain ⟨⟨hne, hnoh⟩, ⟨⟨⟨⟨hany, h1⟩, h2⟩, h3⟩, hnone⟩⟩ := hwf
    have hnoh' : ∀ c ∈ r, decide (c = '#') = false := fun c hc =>
      bnot_true (List.all_eq_true.mp hnoh c hc)
    rw [hl, classifyStr_tg]
    simp only [parseTg]
    rw [show stripFragment r = r from takeUntil_all_neg _ _ hnoh']
    rw [hany]
    simp only [Bool.false_eq_true, if_false]
    rw [h1, h2, h3]
    simp only [Bool.or_self, Bool.false_eq_true, if_false, Bool.false_or]
    rw [Option.isNone_iff_eq_none.mp hnone]

theorem rt_draft_tg (u x : Str)
    (huasc : u.all (fun c => decide (c.toNat < 128)) = true)
    (hxasc : x.all (fun c => decide (c.toNat < 128)) = true)
    (hub : isBlankStr u = false) (hh : ¬(u.head? = some '@'))
    (hx : x = [] ∨ isBlankStr x = false) :
    classifyStr ("tg://msg_url?url=".data ++ urlEncode u ++ "&text=".data ++ urlEncode x) =
      some (messageDraft (if x.isEmpty then u else u ++ '\n' :: x)
        (!u.isEmpty && !x.isEmpty)) := by
  have hU1 : ∀ c ∈ urlEncode u, decide (c = '#') = false :=
    urlEncode_no u huasc '#' (by decide) (by decide)
  have hU2 : '&' ∉ urlEncode u :=
    not_mem_of_no_char (urlEncode_no u huasc '&' (by decide) (by decide))
  have hX1 : ∀ c ∈ urlEncode x, decide (c = '#') = false :=
    urlEncode_no x hxasc '#' (by decide) (by decide)
  have hX2 : '&' ∉ urlEncode x :=
    not_mem_of_no_char (urlEncode_no x hxasc '&' (by decide) (by decide))
  rw [show "tg://msg_url?url=".data ++ urlEncode u ++ "&text=".data ++ urlEncode x =
    "tg://".data ++ ("msg_url".data ++ '?' ::
      (("url".data ++ '=' :: urlEncode u) ++ '&' ::
        ("text".data ++ '=' :: urlEncode x))) by
      simp only [List.append_assoc, List.cons_append]; rfl]
  rw [classifyStr_tg, parseTg_draftq _ _ (by decide) (Or.inr (Or.inr rfl))
    (forall_mem_append
      (forall_mem_append (by decide) (forall_mem_cons_c (by decide) hU1))
      (forall_mem_cons_c (by decide)
        (forall_mem_append (by decide) (forall_mem_cons_c (by decide) hX1))))]
  rw [parseQuery_cons_kv' _ _ _ (by decide) hU2]
  rw [urlDecode_urlEncode true u huasc]
  rw [parseQuery_last_kv' _ _ (by decide) hX2]
  rw [urlDecode_urlEncode true x hxasc]
  cases u with
  | nil => exact absurd rfl (blank_ne_nil hub)
  | cons a u' =>
      have ha : ¬(a = '@') := fun he => hh (by simp [he])
      rcases hx with rfl | hxb
      · simp [parseDraft, argD, getArg_cons_eq, getArg_cons_ne, getArg_nil, hub, ha,
          show isBlankStr ([] : Str) = true from rfl]
      · have hxe : x.isEmpty = false := by
          cases x with
          | nil => exact absurd rfl (blank_ne_nil hxb)
          | cons b x' => rfl
        simp [parseDraft, argD, getArg_cons_eq, getArg_cons_ne, getArg_nil,
          hub, hxb, hxe, ha]

theorem rt_draft_http (u x : Str)
    (huasc : u.all (fun c => decide (c.toNat < 128)) = true)
    (hxasc : x.all (fun c => decide (c.toNat < 128)) = true)
    (hub : isBlankStr u = false) (hh : ¬(u.head? = some '@'))
    (hx : x = [] ∨ isBlankStr x = false) :
    classifyStr ("https://t.me/share?url=".data ++ urlEncode u ++ "&text=".data ++
        urlEncode x) =
      some (messageDraft (if x.isEmpty then u else u ++ '\n' :: x)
        (!u.isEmpty && !x.isEmpty)) := by
  have hU1 : ∀ c ∈ urlEncode u, decide (c = '#') = false :=
    urlEncode_no u huasc '#' (by decide) (by decide)
  have hU2 : '&' ∉ urlEncode u :=
    not_mem_of_no_char (urlEncode_no u huasc '&' (by decide) (by decide))
  have hX1 : ∀ c ∈ urlEncode x, decide (c = '#') = false :=
    urlEncode_no x hxasc '#' (by decide) (by decide)
  have hX2 : '&' ∉ urlEncode x :=
    not_mem_of_no_char (urlEncode_no x hxasc '&' (by decide) (by decide))
  rw [show "https://t.me/share?url=".data ++ urlEncode u ++ "&text=".data ++ urlEncode x =
    "https://".data ++ ("t.me/".data ++ ("share".data ++ '?' ::
      (("url".data ++ '=' :: urlEncode u) ++ '&' ::
        ("text".data ++ '=' :: urlEncode x)))) by
      simp only [List.append_assoc, List.cons_append]; rfl]
  rw [classifyStr_https, parseHttp_tme_pathq _ _ (by decide)
    (forall_mem_append
      (forall_mem_append (by decide) (forall_mem_cons_c (by decide) hU1))
      (forall_mem_cons_c (by decide)
        (forall_mem_append (by decide) (forall_mem_cons_c (by decide) hX1))))]
  rw [splitOnChar_not_mem '/' "share".data (by decide)]
  simp only [List.map]
  rw [show urlDecode false "share".data = "share".data from by decide]
  rw [parseQuery_cons_kv' _ _ _ (by decide) hU2]
  rw [urlDecode_urlEncode true u huasc]
  rw [parseQuery_last_kv' _ _ (by decide) hX2]
  rw [urlDecode_urlEncode true x hxasc]
  cases u with
  | nil => exact absurd rfl (blank_ne_nil hub)
  | cons a u' =>
      have ha : ¬(a = '@') := fun he => hh (by simp [he])
      rcases hx with rfl | hxb
      · simp [parseHttpPath, parseDraft, argD, getArg_cons_eq, getArg_cons_ne,
          getArg_nil, hub, ha, show isBlankStr ([] : Str) = true from rfl]
      · have hxe : x.isEmpty = false := by
          cases x with
          | nil => exact absurd rfl (blank_ne_nil hxb)
          | cons b x' => rfl
        simp [parseHttpPath, parseDraft, argD, getArg_cons_eq, getArg_cons_ne,
          getArg_nil, hub, hxb, hxe, ha]

end LinkM

open LinkM LinkM.LinkVariant in
/-- C1 (amended): for every well-formed `LinkVariant` that is generable in the
requested mode and whose domain-position username avoids the mode's reserved
keywords (the HTTP path keywords externally, `telegrampassport` internally),
generating the link and re-classifying it reproduces the variant, in both
internal and external modes. -/
theorem LinkM.C1_roundtrip (v : LinkVariant) (m : Bool)
    (hwf : wf v = true) (hgen : generable v m = true)
    (hcol : noReservedCollision v m = true) :
    ∃ url, build v m = .ok url ∧ classifyStr url = some v := by
  cases v with
  | publicChat u =>
      cases m with
      | true => exact ⟨_, rfl, rt_publicChat_tg u hwf (of_decide_eq_true hcol)⟩
      | false => exact ⟨_, rfl, rt_publicChat_http u hwf (bnot_true hcol)⟩
  | botStart u p =>
      have hw : (isValidUsername u && isPlainStr p) = true := hwf
      rw [Bool.and_eq_true] at hw
      cases m with
      | true => exact ⟨_, rfl, rt_botStart_tg u p hw.1 (of_decide_eq_true hcol) hw.2⟩
      | false => exact ⟨_, rfl, rt_botStart_http u p hw.1 (bnot_true hcol) hw.2⟩
  | botStartInGroup u p rg =>
      cases rg with
      | none =>
          have hw : (isValidUsername u && isPlainStr p && true) = true := hwf
          rw [Bool.and_eq_true, Bool.and_eq_true] at hw
          cases m with
          | true =>
              refine ⟨_, ?_, rt_botStartInGroup_none_tg u p hw.1.1 (of_decide_eq_true hcol) hw.1.2⟩
              simp only [build, List.append_nil]
              rfl
          | false =>
              refine ⟨_, ?_, rt_botStartInGroup_none_http u p hw.1.1 (bnot_true hcol) hw.1.2⟩
              simp only [build, List.append_nil]
              rfl
      | some r =>
          have hw : (isValidUsername u && isPlainStr p && isWfGroupRights r) = true := hwf
          rw [Bool.and_eq_true, Bool.and_eq_true] at hw
          cases m with
          | true =>
              refine ⟨_, ?_, rt_botStartInGroup_some_tg u p r hw.1.1 (of_decide_eq_true hcol) hw.1.2 hw.2⟩
              simp only [build, List.append_assoc]
              rfl
          | false =>
              refine ⟨_, ?_, rt_botStartInGroup_some_http u p r hw.1.1 (bnot_true hcol) hw.1.2 hw.2⟩
              simp only [build, List.append_assoc]
              rfl
  | botAddToChannel u r =>
      have hw : (isValidUsername u && isWfChannelRights r) = true := hwf
      rw [Bool.and_eq_true] at hw
      cases m with
      | true =>
          refine ⟨_, ?_, rt_botAddToChannel_tg u r hw.1 (of_decide_eq_true hcol) hw.2⟩
          simp only [build, List.append_assoc]
          rfl
      | false =>
          refine ⟨_, ?_, rt_botAddToChannel_http u r hw.1 (bnot_true hcol) hw.2⟩
          simp only [build, List.append_assoc]
          rfl
  | attachmentMenuBot target bot p =>
      cases target with
      | current =>
          have hw : (isValidUsername bot && isPlainStr p && true) = true := hwf
          rw [Bool.and_eq_true, Bool.and_eq_true] at hw
          cases m with
          | true =>
              refine ⟨_, ?_, rt_attach_current_tg bot p hw.1.1 (of_decide_eq_true hcol) hw.1.2⟩
              simp only [build, attachBaseTg, attachQuery, List.append_assoc]
              rfl
          | false =>
              refine ⟨_, ?_, rt_attach_current_http bot p hw.1.1 (bnot_true hcol) hw.1.2⟩
              simp only [build, attachBaseHttp, attachQuery, List.append_assoc]
              rfl
      | chosen ct =>
          have hw : (isValidUsername bot && isPlainStr p &&
            (ct.allow_users || ct.allow_bots || ct.allow_groups || ct.allow_channels)) = true := hwf
          rw [Bool.and_eq_true, Bool.and_eq_true] at hw
          cases m with
          | true =>
              refine ⟨_, ?_, rt_attach_chosen_tg bot p ct hw.1.1 (of_decide_eq_true hcol) hw.1.2 hw.2⟩
              simp only [build, attachBaseTg, attachQuery, List.append_assoc]
              rfl
          | false =>
              refine ⟨_, ?_, rt_attach_chosen_http bot p ct hw.1.1 (bnot_true hcol) hw.1.2 hw.2⟩
              simp only [build, attachBaseHttp, attachQuery, List.append_assoc]
              rfl
      | toUser u =>
          have hw : (isValidUsername bot && isPlainStr p && isValidUsername u) = true := hwf
          rw [Bool.and_eq_true, Bool.and_eq_true] at hw
          cases m with
          | true =>
              refine ⟨_, ?_, rt_attach_toUser_tg u bot p hw.2 (of_decide_eq_true hcol) hw.1.1 hw.1.2⟩
              simp only [build, attachBaseTg, attachQuery, List.append_assoc]
              rfl
          | false =>
              refine ⟨_, ?_, rt_attach_toUser_http u bot p hw.2 (bnot_true hcol) hw.1.1 hw.1.2⟩
              simp only [build, attachBaseHttp, attachQuery, List.append_assoc]
              rfl
      | toPhone ph =>
          have hw : (isValidUsername bot && isPlainStr p && isValidPhone ph) = true := hwf
          rw [Bool.and_eq_true, Bool.and_eq_true] at hw
          cases m with
          | true =>
              refine ⟨_, ?_, rt_attach_toPhone_tg ph bot p hw.2 hw.1.1 hw.1.2⟩
              simp only [build, attachBaseTg, attachQuery, List.append_assoc]
              rfl
          | false =>
              refine ⟨_, ?_, rt_attach_toPhone_http ph bot p hw.2 hw.1.1 hw.1.2⟩
              simp only [build, attachBaseHttp, attachQuery, List.append_assoc]
              rfl
  | message url =>
      cases m with
      | true => exact ⟨url, rfl, rt_message url hwf⟩
      | false => simp [generable] at hgen
  | messageDraft txt cl =>
      simp only [wf] at hwf
      simp only [Bool.and_eq_true, Bool.not_eq_true', decide_eq_false_iff_not] at hwf
      obtain ⟨⟨⟨hasc, hhead⟩, hub⟩, hrest⟩ := hwf
      have hsplit := takeUntil_append_dropUntil (fun c => decide (c = '\n')) txt
      cases hre : dropUntil (fun c => decide (c = '\n')) txt with
      | nil =>
          rw [hre] at hrest hsplit
          rw [List.append_nil] at hsplit
          simp only [decide_eq_true_eq] at hrest
          subst hrest
          rw [hsplit] at hub
          cases m with
          | true =>
              refine ⟨_, rfl, ?_⟩
              rw [hre]
              simp only [List.drop_nil]
              rw [hsplit]
              have h := rt_draft_tg txt [] hasc rfl hub hhead (Or.inl rfl)
              simpa using h
          | false =>
              refine ⟨_, rfl, ?_⟩
              rw [hre]
              simp only [List.drop_nil]
              rw [hsplit]
              have h := rt_draft_http txt [] hasc rfl hub hhead (Or.inl rfl)
              simpa using h
      | cons r0 xs =>
          rw [hre] at hrest hsplit
          have hr0 : r0 = '\n' :=
            of_decide_eq_true (dropUntil_head (fun c => decide (c = '\n')) txt r0 xs hre)
          subst hr0
          simp only [Bool.and_eq_true, Bool.not_eq_true', decide_eq_true_eq] at hrest
          obtain ⟨hxb, hcl⟩ := hrest
          subst hcl
          have hasc' := hasc
          rw [← hsplit] at hasc'
          simp only [List.all_append, List.all_cons, Bool.and_eq_true] at hasc'
          obtain ⟨hu_asc, _, hx_asc⟩ := hasc'
          have hune : takeUntil (fun c => decide (c = '\n')) txt ≠ [] := blank_ne_nil hub
          have hxne : xs ≠ [] := blank_ne_nil hxb
          have hxe : xs.isEmpty = false := by
            cases xs with
            | nil => exact absurd rfl hxne
            | cons b x' => rfl
          have hue : (takeUntil (fun c => decide (c = '\n')) txt).isEmpty = false := by
            cases huq : takeUntil (fun c => decide (c = '\n')) txt with
            | nil => exact absurd huq hune
            | cons a u' => rfl
          have hh' : ¬((takeUntil (fun c => decide (c = '\n')) txt).head? = some '@') := by
            intro hcon
            apply hhead
            rw [← hsplit]
            cases huq : takeUntil (fun c => decide (c = '\n')) txt with
            | nil => exact absurd huq hune
            | cons a u' =>
                rw [huq] at hcon
                simp only [List.head?_cons, Option.some.injEq] at hcon
                simp [hcon]
          cases m with
          | true =>
              refine ⟨_, rfl, ?_⟩
              rw [hre]
              simp only [List.drop_succ_cons, List.drop_zero]
              have h := rt_draft_tg _ xs hu_asc hx_asc hub hh' (Or.inr hxb)
              simp only [hxe, hue, Bool.false_eq_true, if_false, Bool.not_false,
                Bool.and_self] at h
              rw [hsplit] at h
              exact h
          | false =>
              refine ⟨_, rfl, ?_⟩
              rw [hre]
              simp only [List.drop_succ_cons, List.drop_zero]
              have h := rt_draft_http _ xs hu_asc hx_asc hub hh' (Or.inr hxb)
              simp only [hxe, hue, Bool.false_eq_true, if_false, Bool.not_false,
                Bool.and_self] at h
              rw [hsplit] at h
              exact h
  | background d =>
      simp only [wf, Bool.and_eq_true, Bool.not_eq_true'] at hwf
      obtain ⟨⟨hne, hw⟩, hloc⟩ := hwf
      cases m with
      | true =>
          refine ⟨_, ?_, rt_background_tg d hw hne⟩
          simp [build, hloc]
      | false => exact ⟨_, rfl, rt_background_http d hw hne hloc⟩
  | chatInvite h =>
      cases m with
      | true => exact ⟨_, rfl, rt_chatInvite_tg h hwf⟩
      | false => exact ⟨_, rfl, rt_chatInvite_http h hwf⟩
  | chatFolderInvite s =>
      cases m with
      | true => exact ⟨_, rfl, rt_folder_tg s hwf⟩
      | false => exact ⟨_, rfl, rt_folder_http s hwf⟩
  | stickerSet n em =>
      cases em with
      | false =>
          cases m with
          | true => exact ⟨_, rfl, rt_stickerSet_tg n hwf⟩
          | false => exact ⟨_, rfl, rt_stickerSet_http n hwf⟩
      | true =>
          cases m with
          | true => exact ⟨_, rfl, rt_emojiSet_tg n hwf⟩
          | false => exact ⟨_, rfl, rt_emojiSet_http n hwf⟩
  | themeLink n =>
      cases m with
      | true => exact ⟨_, rfl, rt_theme_tg n hwf⟩
      | false => exact ⟨_, rfl, rt_theme_http n hwf⟩
  | languagePack n =>
      cases m with
      | true => exact ⟨_, rfl, rt_language_tg n hwf⟩
      | false => exact ⟨_, rfl, rt_language_http n hwf⟩
  | authenticationCode c =>
      cases m with
      | true => exact ⟨_, rfl, rt_authCode_tg c hwf⟩
      | false => exact ⟨_, rfl, rt_authCode_http c hwf⟩
  | qrCodeAuthentication => simp [generable] at hgen
  | phoneNumberConfirmation h p =>
      have hw : (isPlainNonempty h && isValidPhone p) = true := hwf
      rw [Bool.and_eq_true] at hw
      cases m with
      | true => exact ⟨_, rfl, rt_confirmPhone_tg h p hw.1 hw.2⟩
      | false => exact ⟨_, rfl, rt_confirmPhone_http h p hw.1 hw.2⟩
  | userPhoneNumber p =>
      cases m with
      | true => exact ⟨_, rfl, rt_userPhone_tg p hwf⟩
      | false => exact ⟨_, rfl, rt_userPhone_http p hwf⟩
  | userToken t =>
      cases m with
      | true => exact ⟨_, rfl, rt_userToken_tg t hwf⟩
      | false => exact ⟨_, rfl, rt_userToken_http t hwf⟩
  | invoiceLink n =>
      cases m with
      | true => exact ⟨_, rfl, rt_invoice_tg n hwf⟩
      | false => exact ⟨_, rfl, rt_invoice_http n hwf⟩
  | premiumFeatures r =>
      cases m with
      | true => exact ⟨_, rfl, rt_premium_tg r hwf⟩
      | false => simp [generable] at hgen
  | restorePurchases =>
      cases m with
      | true => exact ⟨_, rfl, by decide⟩
      | false => simp [generable] at hgen
  | passportDataRequest botId scope key nonce cb =>
      cases m with
      | true =>
          have hw : (decide (botId ≠ 0) && isPlainNonempty scope && isPlainNonempty key &&
            isPlainNonempty nonce && cb.isEmpty) = true := hwf
          rw [Bool.and_eq_true, Bool.and_eq_true, Bool.and_eq_true, Bool.and_eq_true] at hw
          have hcb : cb = [] := List.isEmpty_iff.mp hw.2
          subst hcb
          exact ⟨_, rfl, rt_passport_tg botId scope key nonce
            (of_decide_eq_true hw.1.1.1.1) hw.1.1.1.2 hw.1.1.2 hw.1.2⟩
      | false => simp [generable] at hgen
  | settingsLink =>
      cases m with
      | true => exact ⟨_, rfl, by decide⟩
      | false => simp [generable] at hgen
  | themeSettings =>
      cases m with
      | true => exact ⟨_, rfl, by decide⟩
      | false => simp [generable] at hgen
  | activeSessions =>
      cases m with
      | true => exact ⟨_, rfl, by decide⟩
      | false => simp [generable] at hgen
  | changePhoneNumber =>
      cases m with
      | true => exact ⟨_, rfl, by decide⟩
      | false => simp [generable] at hgen
  | editProfileSettings =>
      cases m with
      | true => exact ⟨_, rfl, by decide⟩
      | false => simp [generable] at hgen
  | folderSettings =>
      cases m with
      | true => exact ⟨_, rfl, by decide⟩
      | false => simp [generable] at hgen
  | languageSettings =>
      cases m with
      | true => exact ⟨_, rfl, by decide⟩
      | false => simp [generable] at hgen
  | privacyAndSecuritySettings =>
      cases m with
      | true => exact ⟨_, rfl, by decide⟩
      | false => simp [generable] at hgen
  | defaultMessageAutoDeleteTimerSettings =>
      cases m with
      | true => exact ⟨_, rfl, by decide⟩
      | false => simp [generable] at hgen
  | videoChat u h live =>
      have hw : (isValidUsername u && isPlainStr h) = true := hwf
      rw [Bool.and_eq_true] at hw
      cases live with
      | false =>
          cases m with
          | true => exact ⟨_, rfl, rt_videoChat_tg u h hw.1 (of_decide_eq_true hcol) hw.2⟩
          | false => exact ⟨_, rfl, rt_videoChat_http u h hw.1 (bnot_true hcol) hw.2⟩
      | true =>
          cases m with
          | true => exact ⟨_, rfl, rt_liveStream_tg u h hw.1 (of_decide_eq_true hcol) hw.2⟩
          | false => exact ⟨_, rfl, rt_liveStream_http u h hw.1 (bnot_true hcol) hw.2⟩
  | game u g =>
      have hw : (isValidUsername u && isValidShortName g) = true := hwf
      rw [Bool.and_eq_true] at hw
      cases m with
      | true => exact ⟨_, rfl, rt_game_tg u g hw.1 (of_decide_eq_true hcol) hw.2⟩
      | false => exact ⟨_, rfl, rt_game_http u g hw.1 (bnot_true hcol) hw.2⟩
  | webApp u a p =>
      have hw : (isValidUsername u && isValidShortName a && isPlainStr p) = true := hwf
      rw [Bool.and_eq_true, Bool.and_eq_true] at hw
      cases p with
      | nil =>
          cases m with
          | true =>
              refine ⟨_, ?_, rt_webApp_tg_noparam u a hw.1.1 (of_decide_eq_true hcol) hw.1.2⟩
              simp only [build, List.isEmpty_nil, if_true, List.append_nil]
          | false =>
              refine ⟨_, ?_, rt_webApp_http_noparam u a hw.1.1 (bnot_true hcol) hw.1.2⟩
              simp only [build, List.isEmpty_nil, if_true, List.append_nil]
              rfl
      | cons pc pcs =>
          cases m with
          | true =>
              refine ⟨_, ?_, rt_webApp_tg u a (pc :: pcs) hw.1.1 (of_decide_eq_true hcol) hw.1.2 hw.2⟩
              simp only [build, List.isEmpty_cons, if_false, List.append_assoc]
              rfl
          | false =>
              refine ⟨_, ?_, rt_webApp_http u a (pc :: pcs) hw.1.1 (bnot_true hcol) hw.1.2 hw.2⟩
              simp only [build, List.isEmpty_cons, if_false, List.append_assoc]
              rfl
  | proxySocks s port user pass =>
      have hw : (isPlainNonempty s && decide (1 ≤ port) && decide (port ≤ 65535) &&
        isPlainStr user && isPlainStr pass) = true := hwf
      rw [Bool.and_eq_true, Bool.and_eq_true, Bool.and_eq_true, Bool.and_eq_true] at hw
      have hs := hw.1.1.1.1
      have h1 := of_decide_eq_true hw.1.1.1.2
      have h2 := of_decide_eq_true hw.1.1.2
      cases user with
      | nil =>
          cases pass with
          | nil =>
              cases m with
              | true =>
                  refine ⟨_, ?_, rt_socks00_tg s port hs h1 h2⟩
                  simp only [build, List.isEmpty_nil, if_true, List.append_nil, List.append_assoc]
                  rfl
              | false =>
                  refine ⟨_, ?_, rt_socks00_http s port hs h1 h2⟩
                  simp only [build, List.isEmpty_nil, if_true, List.append_nil, List.append_assoc]
                  rfl
          | cons wc wcs =>
              have hwp : isPlainNonempty (wc :: wcs) = true := by
                simp [isPlainNonempty, hw.2]
              cases m with
              | true =>
                  refine ⟨_, ?_, rt_socks01_tg s port (wc :: wcs) hwp hs h1 h2⟩
                  simp only [build, List.isEmpty_nil, List.isEmpty_cons, if_true, if_false,
                    List.append_nil, List.append_assoc]
                  rfl
              | false =>
                  refine ⟨_, ?_, rt_socks01_http s port (wc :: wcs) hwp hs h1 h2⟩
                  simp only [build, List.isEmpty_nil, List.isEmpty_cons, if_true, if_false,
                    List.append_nil, List.append_assoc]
                  rfl
      | cons uc ucs =>
          have hup : isPlainNonempty (uc :: ucs) = true := by
            simp [isPlainNonempty, hw.1.2]
          cases pass with
          | nil =>
              cases m with
              | true =>
                  refine ⟨_, ?_, rt_socks10_tg s port (uc :: ucs) hup hs h1 h2⟩
                  simp only [build, List.isEmpty_nil, List.isEmpty_cons, if_true, if_false,
                    List.append_nil, List.append_assoc]
                  rfl
              | false =>
                  refine ⟨_, ?_, rt_socks10_http s port (uc :: ucs) hup hs h1 h2⟩
                  simp only [build, List.isEmpty_nil, List.isEmpty_cons, if_true, if_false,
                    List.append_nil, List.append_assoc]
                  rfl
          | cons wc wcs =>
              have hwp : isPlainNonempty (wc :: wcs) = true := by
                simp [isPlainNonempty, hw.2]
              cases m with
              | true =>
                  refine ⟨_, ?_, rt_socks11_tg s port (uc :: ucs) (wc :: wcs) hup hwp hs h1 h2⟩
                  simp only [build, List.isEmpty_cons, if_false, List.append_assoc]
                  rfl
              | false =>
                  refine ⟨_, ?_, rt_socks11_http s port (uc :: ucs) (wc :: wcs) hup hwp hs h1 h2⟩
                  simp only [build, List.isEmpty_cons, if_false, List.append_assoc]
                  rfl
  | proxyMtproto s port secret =>
      obtain ⟨hps, hp1, hp2, hlow, hform⟩ := mtwf_parts hwf
      cases m with
      | true =>
          refine ⟨_, ?_, rt_mtproto_tg s port secret hps hp1 hp2 hlow hform⟩
          simp only [build, List.append_assoc]
          rfl
      | false =>
          refine ⟨_, ?_, rt_mtproto_http s port secret hps hp1 hp2 hlow hform⟩
          simp only [build, List.append_assoc]
          rfl
  | unsupportedProxy => simp [wf] at hwf
  | instantView url fb =>
      cases m with
      | true => simp [generable] at hgen
      | false => exact ⟨url, rfl, rt_instantView url fb hwf⟩
  | unknownDeepLink l =>
      cases m with
      | true => exact ⟨l, rfl, rt_unknown l hwf⟩
      | false => simp [generable] at hgen
theorem LinkM.digit_b64 {c : Char} (h : LinkM.isDigitChar c = true) :
    LinkM.isBase64UrlChar c = true := by
  simp [LinkM.isBase64UrlChar, LinkM.isAlnumChar, h]

open LinkM LinkM.LinkVariant in
/-- counterexample to the unamended C1: `publicChat "login"` is well formed and
externally generable, but its generated link collides with the reserved
`login` path keyword and fails to re-classify; and `publicChat "1abc"` (a
digit-initial name, rejected by `wf`) generates a link that also fails to
re-classify, so the round trip needs both the keyword and the
well-formedness hypotheses. -/
theorem LinkM.C1_counterexample :
    wf (publicChat "login".data) = true ∧
    generable (publicChat "login".data) false = true ∧
    build (publicChat "login".data) false = .ok "https://t.me/login".data ∧
    classifyStr "https://t.me/login".data = none ∧
    build (publicChat "1abc".data) false = .ok "https://t.me/1abc".data ∧
    classifyStr "https://t.me/1abc".data = none ∧
    wf (publicChat "1abc".data) = false := by
  exact ⟨by decide, by decide, rfl, by decide, rfl, by decide, by decide⟩

open LinkM LinkM.LinkVariant in
/-- witness instantiating the C1 round trip on a concrete variant. -/
theorem LinkM.C1_witness :
    wf (publicChat "durov".data) = true ∧
    generable (publicChat "durov".data) false = true ∧
    noReservedCollision (publicChat "durov".data) false = true ∧
    ∃ url, build (publicChat "durov".data) false = .ok url ∧
      classifyStr url = some (publicChat "durov".data) :=
  ⟨by decide, by decide, by decide,
    LinkM.C1_roundtrip (publicChat "durov".data) false (by decide) (by decide) (by decide)⟩

open LinkM LinkM.LinkVariant in
/-- C4 (amended): `admin=` decodes as a plus-separated token set normalized per
chat kind, with `can_manage_chat` forced only when an applicable right remains
after normalization; absent or empty `admin=` with `startgroup` yields the
join variant with a null rights object, while `startchannel` without
applicable rights falls back to a plain public-chat link. -/
theorem LinkM.C4_admin :
    (∀ r, isWfGroupRights r = true →
       groupAdminRights (some (joinSep ' ' (groupRightsTokens r))) = some r) ∧
    (∀ r, isWfChannelRights r = true →
       channelAdminRights (some (joinSep ' ' (channelRightsTokens r))) = some r) ∧
    (∀ d p : Str, resolveUser d none [("startgroup".data, p)] = botStartInGroup d p none) ∧
    (∀ d p : Str, resolveUser d none [("startgroup".data, p), ("admin".data, [])] =
       botStartInGroup d p none) ∧
    groupAdminRights (some "post_messages".data) = none ∧
    groupAdminRights none = none ∧
    channelAdminRights none = none ∧
    (∀ d : Str, resolveUser d none [("startchannel".data, [])] = publicChat d) ∧
    (∀ d : Str, resolveUser d none [("startchannel".data, []), ("admin".data, [])] =
       publicChat d) := by
  refine ⟨groupRights_parse, channelRights_parse, ?_, ?_, by decide, rfl, rfl, ?_, ?_⟩
  · intro d p
    have gne : ∀ k : Str, ¬("startgroup".data = k) →
        getArg [("startgroup".data, p)] k = none :=
      fun k hk => by rw [getArg_cons_ne _ _ _ _ hk, getArg_nil]
    simp [resolveUser, argD, hasArg, getArg_cons_eq,
      gne "attach".data (by decide), gne "startattach".data (by decide),
      gne "choose".data (by decide), gne "voicechat".data (by decide),
      gne "videochat".data (by decide), gne "livestream".data (by decide),
      gne "start".data (by decide), gne "admin".data (by decide),
      gne "game".data (by decide), groupAdminRights,
      show isValidShortName ([] : Str) = false from rfl]
  · intro d p
    have gne : ∀ k : Str, ¬("startgroup".data = k) → ¬("admin".data = k) →
        getArg [("startgroup".data, p), ("admin".data, [])] k = none :=
      fun k hk1 hk2 => by
        rw [getArg_cons_ne _ _ _ _ hk1, getArg_cons_ne _ _ _ _ hk2, getArg_nil]
    have gadm : getArg [("startgroup".data, p), ("admin".data, [])] "admin".data =
        some [] := by
      rw [getArg_cons_ne _ _ _ _ (by decide), getArg_cons_eq]
    simp [resolveUser, argD, hasArg, getArg_cons_eq, gadm,
      gne "attach".data (by decide) (by decide),
      gne "startattach".data (by decide) (by decide),
      gne "choose".data (by decide) (by decide),
      gne "voicechat".data (by decide) (by decide),
      gne "videochat".data (by decide) (by decide),
      gne "livestream".data (by decide) (by decide),
      gne "start".data (by decide) (by decide),
      gne "game".data (by decide) (by decide),
      show groupAdminRights (some []) = none from rfl,
      show isValidShortName ([] : Str) = false from rfl]
  · intro d
    have gne : ∀ k : Str, ¬("startchannel".data = k) →
        getArg [("startchannel".data, [])] k = none :=
      fun k hk => by rw [getArg_cons_ne _ _ _ _ hk, getArg_nil]
    simp [resolveUser, argD, hasArg, getArg_cons_eq,
      gne "attach".data (by decide), gne "startattach".data (by decide),
      gne "choose".data (by decide), gne "voicechat".data (by decide),
      gne "videochat".data (by decide), gne "livestream".data (by decide),
      gne "start".data (by decide), gne "startgroup".data (by decide),
      gne "admin".data (by decide), gne "game".data (by decide),
      show channelAdminRights none = none from rfl,
      show isValidShortName ([] : Str) = false from rfl]
  · intro d
    have gne : ∀ k : Str, ¬("startchannel".data = k) → ¬("admin".data = k) →
        getArg [("startchannel".data, []), ("admin".data, [])] k = none :=
      fun k hk1 hk2 => by
        rw [getArg_cons_ne _ _ _ _ hk1, getArg_cons_ne _ _ _ _ hk2, getArg_nil]
    have gadm : getArg [("startchannel".data, []), ("admin".data, [])] "admin".data =
        some [] := by
      rw [getArg_cons_ne _ _ _ _ (by decide), getArg_cons_eq]
    simp [resolveUser, argD, hasArg, getArg_cons_eq, gadm,
      gne "attach".data (by decide) (by decide),
      gne "startattach".data (by decide) (by decide),
      gne "choose".data (by decide) (by decide),
      gne "voicechat".data (by decide) (by decide),
      gne "videochat".data (by decide) (by decide),
      gne "livestream".data (by decide) (by decide),
      gne "start".data (by decide) (by decide),
      gne "startgroup".data (by decide) (by decide),
      gne "game".data (by decide) (by decide),
      show channelAdminRights (some []) = none from rfl,
      show isValidShortName ([] : Str) = false from rfl]

open LinkM LinkM.LinkVariant in
/-- counterexample to the unamended C4: `startchannel` with empty `admin=`
re-classifies as a plain public chat, and a dropped-for-groups token produces
a null rights object instead of a forced `can_manage_chat` object. -/
theorem LinkM.C4_counterexample :
    classifyStr "tg://resolve?domain=username&startchannel&admin=".data =
      some (publicChat "username".data) ∧
    (∀ r : AdminRights,
       LinkVariant.publicChat "username".data ≠ botAddToChannel "username".data r) ∧
    classifyStr "tg://resolve?domain=username&startgroup&admin=post_messages".data =
      some (botStartInGroup "username".data [] none) := by
  refine ⟨by decide, ?_, by decide⟩
  intro r h
  cases h

open LinkM LinkM.LinkVariant in
/-- witness instantiating the C4 statements on concrete inputs. -/
theorem LinkM.C4_witness :
    groupAdminRights (some (joinSep ' '
      (groupRightsTokens ⟨true, true, false, false, false, false,
        false, false, false, false, false, false⟩))) =
      some ⟨true, true, false, false, false, false, false, false, false, false,
        false, false⟩ ∧
    resolveUser "username".data none [("startchannel".data, [])] =
      publicChat "username".data := by
  obtain ⟨hA, _, _, _, _, _, _, hF, _⟩ := LinkM.C4_admin
  exact ⟨hA _ (by decide), hF "username".data⟩

open LinkM LinkM.LinkVariant in
/-- C5: `choose=` decodes as a plus-separated allow-list over
users/bots/groups/channels into four independent booleans, unknown tokens are
ignored, and an absent parameter (or one listing no known token) yields a null
chat-type restriction, mapped to the `current` attach target rather than an
all-true one. -/
theorem LinkM.C5_choose :
    (∀ ts ct, parseChooseTokens ts = some ct →
        ct = ⟨ts.contains "users".data, ts.contains "bots".data,
              ts.contains "groups".data, ts.contains "channels".data⟩ ∧
        (ct.allow_users || ct.allow_bots || ct.allow_groups || ct.allow_channels) = true) ∧
    (∀ u b g c : Bool, (u || b || g || c) = true →
        parseChoose (some (joinSep ' ' (chooseTokens ⟨u, b, g, c⟩))) = some ⟨u, b, g, c⟩) ∧
    (∀ (t : Str) ts, t ≠ "users".data → t ≠ "bots".data → t ≠ "groups".data →
        t ≠ "channels".data → parseChooseTokens (t :: ts) = parseChooseTokens ts) ∧
    parseChoose none = none ∧
    chooseTarget none = .current ∧
    classifyStr "tg://resolve?domain=telegram&startattach=1&choose=cats+dogs".data =
      some (attachmentMenuBot .current "telegram".data "1".data) ∧
    classifyStr "tg://resolve?domain=telegram&startattach=1&choose=users+channels".data =
      some (attachmentMenuBot (.chosen ⟨true, false, false, true⟩) "telegram".data
        "1".data) := by
  refine ⟨?_, chooseTypes_parse, ?_, rfl, rfl, by decide, by decide⟩
  · intro ts ct h
    simp only [parseChooseTokens] at h
    split at h
    · rename_i hcond
      injection h with h2
      subst h2
      exact ⟨rfl, hcond⟩
    · cases h
  · intro t ts h1 h2 h3 h4
    have n1 : ¬("users".data = t) := fun he => h1 he.symm
    have n2 : ¬("bots".data = t) := fun he => h2 he.symm
    have n3 : ¬("groups".data = t) := fun he => h3 he.symm
    have n4 : ¬("channels".data = t) := fun he => h4 he.symm
    simp [parseChooseTokens, List.contains_cons, n1, n2, n3, n4]

open LinkM LinkM.LinkVariant in
/-- witness instantiating the C5 decoding round trip on a concrete type set. -/
theorem LinkM.C5_witness :
    parseChoose (some (joinSep ' ' (chooseTokens ⟨true, false, false, true⟩))) =
      some ⟨true, false, false, true⟩ :=
  LinkM.C5_choose.2.1 true false false true (by decide)

open LinkM LinkM.LinkVariant in
/-- C6: the classifier's port gate accepts an explicit port only as an
all-digit string whose value lies in [1, 65535] (leading zeros allowed, so
`0000000001` normalizes to port 1), while empty, zero, negative, non-numeric
or out-of-range ports make the whole input unrecognized; concretely,
`http://google.com:0` and ports 0, 65536 or 200 on `t.me` are no match,
while the standard web ports 80 and 443 on `t.me` still classify. -/
theorem LinkM.C6_port :
    (∀ s n, parse_port s = some n → 1 ≤ n ∧ n ≤ 65535) ∧
    (∀ ps, checkPort ps = true → ∃ p, parse_port ps = some p ∧ 1 ≤ p ∧ p ≤ 65535) ∧
    parse_port "0000000001".data = some 1 ∧
    parse_port "0".data = none ∧
    parse_port "-1".data = none ∧
    parse_port "65536".data = none ∧
    parse_port "a".data = none ∧
    parse_port [] = none ∧
    classifyStr "http://google.com:0".data = none ∧
    classifyStr "http://google.com:0000000001".data = none ∧
    classifyStr "https://t.me:80/levlam/1".data =
      some (message "tg://resolve?domain=levlam&post=1".data) ∧
    classifyStr "https://t.me:443/levlam/1".data =
      some (message "tg://resolve?domain=levlam&post=1".data) ∧
    classifyStr "https://t.me:0/levlam/1".data = none ∧
    classifyStr "https://t.me:65536/levlam/1".data = none ∧
    classifyStr "https://t.me:200/levlam/1".data = none := by
  have hrange : ∀ s n, parse_port s = some n → 1 ≤ n ∧ n ≤ 65535 := by
    intro s n h
    simp only [parse_port] at h
    split at h
    · cases h
    · split at h
      · split at h
        · rename_i hr
          injection h with h2
          subst h2
          simpa using hr
        · cases h
      · cases h
  refine ⟨hrange, ?_, by decide, by decide, by decide, by decide, by decide, rfl,
    by decide, by decide, by decide, by decide, by decide, by decide, by decide⟩
  intro ps h
  simp only [checkPort] at h
  split at h
  · rename_i p heq
    exact ⟨p, heq, hrange ps p heq⟩
  · cases h

open LinkM in
/-- witness instantiating the C6 port gate on the concrete port `80`. -/
theorem LinkM.C6_witness : ∃ p, parse_port "80".data = some p ∧ 1 ≤ p ∧ p ≤ 65535 :=
  LinkM.C6_port.2.1 "80".data (by decide)

open LinkM LinkM.LinkVariant in
/-- C7: `t.me/joinchat/<hash>` accepts the hashes `abacaba`, `123456a` and
`12345678901a`, but rejects every all-digit hash, in particular
`12345678901`. -/
theorem LinkM.C7_joinchat :
    classifyStr "https://t.me/joinchat/abacaba".data = some (chatInvite "abacaba".data) ∧
    classifyStr "https://t.me/joinchat/12345678901".data = none ∧
    (∀ h : Str, h.all isDigitChar = true →
        classifyStr ("https://t.me/joinchat/".data ++ h) = none) ∧
    classifyStr "https://t.me/joinchat/123456a".data =
      some (chatInvite "123456a".data) ∧
    classifyStr "https://t.me/joinchat/12345678901a".data =
      some (chatInvite "12345678901a".data) := by
  refine ⟨by decide, by decide, ?_, by decide, by decide⟩
  intro h hdig
  have hch : h.all isBase64UrlChar = true := by
    rw [List.all_eq_true] at hdig ⊢
    exact fun c hc => digit_b64 (hdig c hc)
  have hW : ∀ d : Char, isBase64UrlChar d = false → ∀ c ∈ h, decide (c = d) = false :=
    fun d hd => no_char_of_all hch hd
  rw [show "https://t.me/joinchat/".data ++ h =
    "https://".data ++ ("t.me/".data ++ ("joinchat".data ++ '/' :: h)) by
      simp only [List.append_assoc, List.cons_append]; rfl]
  rw [classifyStr_https, parseHttp_tme_path _
    (forall_mem_append (by decide) (forall_mem_cons_c (by decide)
      (fun c hc => orb_false (hW '#' (by decide) c hc) (hW '?' (by decide) c hc))))]
  rw [splitOnChar_append '/' "joinchat".data h (by decide)]
  rw [splitOnChar_not_mem '/' h (not_mem_of_no_char (hW '/' (by decide)))]
  simp only [List.map]
  rw [urlDecode_noplus_eq_self h (hW '%' (by decide))]
  rw [show urlDecode false "joinchat".data = "joinchat".data from by decide]
  simp [parseHttpPath, isValidInviteHash, hdig]

open LinkM LinkM.LinkVariant in
/-- witness instantiating the C7 all-digit rejection on a concrete hash. -/
theorem LinkM.C7_witness :
    classifyStr ("https://t.me/joinchat/".data ++ "12345678901".data) = none :=
  LinkM.C7_joinchat.2.2.1 "12345678901".data (by decide)

open LinkM LinkM.LinkVariant in
/-- C8: percent-encoded host characters are decoded once before host matching
(`%54.me` and `www%2Etelegram.dog` are recognized as the t.me family), while
double percent-encoding is not decoded twice (`%252E` decodes to the literal
`%2E`, so `www%252Etelegram.dog` is not recognized). -/
theorem LinkM.C8_host_decoding :
    hostMatches "%54.me".data = true ∧
    hostMatches "www%2Etelegram.dog".data = true ∧
    urlDecode false "%252E".data = "%2E".data ∧
    hostMatches "www%252Etelegram.dog".data = false ∧
    classifyStr "https://www%2Etelegram.dog/joinchat/abacaba".data =
      some (chatInvite "abacaba".data) ∧
    classifyStr "https://www%252Etelegram.dog/joinchat/abacaba".data = none := by
  exact ⟨by decide, by decide, by decide, by decide, by decide, by decide⟩

open LinkM LinkM.LinkVariant in
/-- C9 (amended): every deep-link-only variant fails external generation with
the typed error `HTTP link is unavailable for the link type`, every HTTP-only
variant fails internal generation with `Deep link is unavailable for the link
type`, and classification is total: malformed input yields `none` instead of
an exception. -/
theorem LinkM.C9_generation :
    (∀ v, generable v true = true → generable v false = false →
       build v false = .error errHttpUnavailable) ∧
    (∀ v, generable v false = true → generable v true = false →
       build v true = .error errTgUnavailable) ∧
    errHttpUnavailable = "HTTP link is unavailable for the link type".data ∧
    errTgUnavailable = "Deep link is unavailable for the link type".data ∧
    (∀ s, classifyStr s = none ∨ ∃ v, classifyStr s = some v) := by
  refine ⟨?_, ?_, rfl, rfl, ?_⟩
  · intro v h1 h2
    cases v <;> first | rfl | simp_all [generable]
  · intro v h1 h2
    cases v <;> first | rfl | simp_all [generable]
  · intro s
    cases h : classifyStr s with
    | none => exact .inl rfl
    | some v => exact .inr ⟨v, rfl⟩

open LinkM LinkM.LinkVariant in
/-- counterexample to the unamended C9: the typed error strings carry the full
`... is unavailable for the link type` text, not the abbreviated wording. -/
theorem LinkM.C9_counterexample :
    build (premiumFeatures []) false =
      .error "HTTP link is unavailable for the link type".data ∧
    "HTTP link is unavailable for the link type".data ≠ "HTTP link unavailable".data ∧
    build (instantView "https://telegram.org".data []) true =
      .error "Deep link is unavailable for the link type".data ∧
    "Deep link is unavailable for the link type".data ≠ "Deep link unavailable".data := by
  exact ⟨rfl, by decide, rfl, by decide⟩

open LinkM LinkM.LinkVariant in
/-- witness instantiating the C9 generation errors on concrete variants. -/
theorem LinkM.C9_witness :
    build restorePurchases false = .error errHttpUnavailable ∧
    build (instantView "https://telegram.org/a".data []) true =
      .error errTgUnavailable := by
  obtain ⟨hA, hB, _, _, _⟩ := LinkM.C9_generation
  exact ⟨hA restorePurchases (by decide) (by decide),
    hB (instantView "https://telegram.org/a".data []) (by decide) (by decide)⟩


open OM OM.OTree in
/-- witness instantiating C2 on a concrete tree and target. -/
theorem OM.C2_witness :
    isBST wtree = true ∧
    ((iterInit wtree 5 = [] ∧ deref (iterInit wtree 5) = none ∧ ∀ k ∈ keys wtree, 5 < k) ∨
     (∃ n, deref (iterInit wtree 5) = some n ∧ n.rootId ∈ keys wtree ∧ n.rootId ≤ 5 ∧
        ∀ k ∈ keys wtree, k ≤ 5 → k ≤ n.rootId)) :=
  ⟨by decide, OM.iterInit_pred_or_equal wtree 5 (by decide)⟩

open OM OM.OTree in
/-- witness instantiating C3 on a node with clear adjacency flags. -/
theorem OM.C3_witness :
    rootHn (OTree.node OTree.leaf 2 false false OTree.leaf) = false ∧
    incr [OTree.node OTree.leaf 2 false false OTree.leaf] = [] ∧
    deref (incr [OTree.node OTree.leaf 2 false false OTree.leaf]) = none := by
  have h := (OM.incr_decr_respect_gap (OTree.node OTree.leaf 2 false false OTree.leaf) []).1 rfl
  exact ⟨rfl, h.1, h.2⟩

open OM OM.OTree in
/-- witness instantiating C10 on a concrete tree whose keys lie below the target. -/
theorem OM.C10_witness :
    isBST wtree = true ∧ (∀ k ∈ keys wtree, k ≤ 10) ∧ incr (iterInit wtree 10) = [] :=
  ⟨by decide, by decide, (OM.iter_end_total wtree 10 (by decide) (by decide)).2.2.2⟩
